import Mathlib

/-!
# Chat hub of the social network backend

A shallow embedding of `backend/chat` (`server.go`, `room.go`, `client.go`):
connections with a bounded outbound channel and an overflow slice, rooms with a
membership map, the hub registry, the two pumps, the message router and the
durable room store; and of the session gate of `backend/auth` with the session
functions of `backend/model/session.go`.

Conventions of the embedding:

* a `*C` pointer is a natural number, the heap maps pointers to `C` values;
* a `*Room` pointer is the key of the room in `WSServer.rooms` (rooms are only
  ever allocated by `findCreateRoom`, stored under their `ID`, never removed);
* a Go `map[*C]bool` used as a set is the list of its keys;
* goroutines are sequentialised: each definition is one uninterrupted run of
  the Go function (or of one iteration of its loop), mutexes are not modelled;
* a Go panic is `Except.error s`, where `s` is the shared state at the moment
  of the panic; `Except.ok s` is normal completion; a handler of the router
  ends as a `Handled`, which also tells a pump suspended in a blocking send;
* the database is a record of tables (lists of rows in insertion order); what
  it cannot decide (fresh UUIDs, failing statements, tables and library
  functions that are not modelled) is an input of each call;
* a `time.Time` is its instant, in nanoseconds since the Unix epoch, with the
  offset of its zone; Go compares instants, while a time bound as a statement
  parameter is stored and compared in SQL as the text that the driver prints
  (wall clock followed by the offset).
-/

namespace Chat

/-! ## Channels -/

/-- Capacity of the outbound channel, `make(chan []byte, 256)` in `newClient`. -/
def sendCap : Nat := 256

/-- A buffered Go channel of byte strings: queued items (oldest first) and the
closed flag. -/
structure Chan where
  buf : List String
  closed : Bool
deriving DecidableEq, Repr

/-- Outcome of `select { case ch <- m: ... default: ... }`. -/
inductive TrySend where
  | sent (ch : Chan)
  | full
  | panic
deriving DecidableEq, Repr

/-- Non-blocking send. A send on a closed channel panics; otherwise the send
proceeds iff the buffer has room, else the `default` branch is taken. -/
def Chan.trySend (ch : Chan) (m : String) : TrySend :=
  if ch.closed then TrySend.panic
  else if ch.buf.length < sendCap then TrySend.sent { ch with buf := ch.buf ++ [m] }
  else TrySend.full

/-- The builtin `close(ch)`: closing a closed channel panics. -/
def Chan.close (ch : Chan) : Option Chan :=
  if ch.closed then none else some { ch with closed := true }

/-- One receive `<-ch` that does not block: the oldest item, if any. -/
def Chan.recv (ch : Chan) : Option (String × Chan) :=
  match ch.buf with
  | [] => none
  | m :: rest => some (m, { ch with buf := rest })

/-! ## Connections, rooms, hub -/

/-- The underlying websocket stream, `*websocket.Conn`. -/
structure WsConn where
  closed : Bool
deriving DecidableEq, Repr

/-- The websocket client at the server, `type C struct`. `wsServer` is `true`
when the back pointer to the (single) hub is non-nil; `room` is the key of the
room the `room` pointer refers to. -/
structure C where
  conn : Option WsConn
  wsServer : Bool
  send : Chan
  room : Option String
  sendBuffer : List String
deriving DecidableEq, Repr

/-- A Go `map[*C]bool` used as a set of client pointers: its keys, each once, in
the order in which `range` visits them. -/
structure PtrSet where
  keys : List Nat
  nodup : keys.Nodup

instance : DecidableEq PtrSet := fun a b =>
  decidable_of_iff (a.keys = b.keys)
    ⟨fun h => by cases a; cases b; cases h; rfl, fun h => by rw [h]⟩

instance : Repr PtrSet := ⟨fun s n => reprPrec s.keys n⟩

/-- The empty map `make(map[*C]bool)`. -/
def PtrSet.empty : PtrSet := ⟨[], List.nodup_nil⟩

/-- The assignment `m[p] = true`. -/
def PtrSet.add (s : PtrSet) (p : Nat) : PtrSet :=
  if h : p ∈ s.keys then s
  else ⟨s.keys ++ [p], List.Nodup.append s.nodup (List.nodup_singleton p)
    (by intro a ha hp; simp at hp; exact h (hp ▸ ha))⟩

/-- The builtin `delete(m, p)`. -/
def PtrSet.delete (s : PtrSet) (p : Nat) : PtrSet :=
  ⟨s.keys.filter (fun q => q != p), s.nodup.filter _⟩

/-- A broadcast group, `type Room struct` (the mutex is not modelled). -/
structure Room where
  ID : String
  Clients : PtrSet
deriving DecidableEq, Repr

/-- The heap of client objects. -/
abbrev Heap := Nat → C

/-- The hub, `type WSServer struct`: the live connections and the room table.
The `register` and `unregister` channels are modelled by direct calls of
`registerClient` and `unregisterClient`, which is what `Run` does with every
value it receives. -/
structure WSServer where
  clients : PtrSet
  rooms : String → Option Room

/-- The whole in-memory state: client objects and the hub. -/
structure World where
  heap : Heap
  server : WSServer

/-- The constructor `newClient`. -/
def newClient (conn : WsConn) : C :=
  { conn := some conn, wsServer := true, send := { buf := [], closed := false },
    room := none, sendBuffer := [] }

/-- The constructor `NewWSServer`. -/
def NewWSServer : WSServer :=
  { clients := PtrSet.empty, rooms := fun _ => none }

/-- The method `registerClient`. -/
def WSServer.registerClient (server : WSServer) (client : Nat) : WSServer :=
  { server with clients := server.clients.add client }

/-- The method `unregisterClient`. -/
def WSServer.unregisterClient (server : WSServer) (client : Nat) : WSServer :=
  if client ∈ server.clients.keys then
    { server with clients := server.clients.delete client }
  else server

/-! ## Broadcast -/

/-- The loop body of `broadcastToClients` run over the members in iteration
order: non-blocking push to the outbound channel, on a full channel append to
the overflow slice. A send on a closed channel panics and abandons the loop. -/
def broadcastLoop (message : String) : List Nat → Heap → Except Heap Heap
  | [], h => Except.ok h
  | client :: rest, h =>
    match (h client).send.trySend message with
    | TrySend.sent ch =>
      broadcastLoop message rest (Function.update h client { h client with send := ch })
    | TrySend.full =>
      broadcastLoop message rest
        (Function.update h client
          { h client with sendBuffer := (h client).sendBuffer ++ [message] })
    | TrySend.panic => Except.error h

/-- The method `broadcastToClients` of a room. -/
def Room.broadcastToClients (room : Room) (message : String) (h : Heap) :
    Except Heap Heap :=
  broadcastLoop message room.Clients.keys h

/-! ## Overflow drain -/

/-- How the inner loop of `handleBufferedMessages` ends: the overflow slice
became empty (the loop condition fails), the `default` branch ran `return`,
or a send on a closed channel panicked. -/
inductive DrainExit where
  | emptied
  | full
  | panic
deriving DecidableEq, Repr

/-- The inner loop `for len(client.sendBuffer) > 0 { select { ... } }` of
`handleBufferedMessages` on the channel and the overflow slice. -/
def drainLoop : Chan → List String → DrainExit × Chan × List String
  | ch, [] => (DrainExit.emptied, ch, [])
  | ch, m :: rest =>
    match ch.trySend m with
    | TrySend.sent ch1 => drainLoop ch1 rest
    | TrySend.full => (DrainExit.full, ch, m :: rest)
    | TrySend.panic => (DrainExit.panic, ch, m :: rest)

/-- One drain pass of `handleBufferedMessages` on a client: the body of
`for range ticker.C` run once. -/
def drainPass (c : C) : DrainExit × C :=
  let r := drainLoop c.send c.sendBuffer
  (r.1, { c with send := r.2.1, sendBuffer := r.2.2 })

/-- Control state of a goroutine. -/
inductive Goroutine where
  | running
  | returned
  | panicked
deriving DecidableEq, Repr

/-- The goroutine `handleBufferedMessages` at one tick of its ticker. While it
runs, a tick performs one drain pass; the `return` in the `default` branch ends
the function, and a goroutine that has ended reacts to no further tick. -/
def handleBufferedMessages (g : Goroutine) (c : C) : Goroutine × C :=
  match g with
  | Goroutine.running =>
    match drainPass c with
    | (DrainExit.emptied, c1) => (Goroutine.running, c1)
    | (DrainExit.full, c1) => (Goroutine.returned, c1)
    | (DrainExit.panic, c1) => (Goroutine.panicked, c1)
  | Goroutine.returned => (Goroutine.returned, c)
  | Goroutine.panicked => (Goroutine.panicked, c)

/-! ## Joining rooms and teardown -/

/-- The method `findCreateRoom`: the room stored under `roomID`, allocated
with an empty membership map when absent. -/
def WSServer.findCreateRoom (server : WSServer) (roomID : String) : Room × WSServer :=
  match server.rooms roomID with
  | some room => (room, server)
  | none =>
    let newRoom : Room := { ID := roomID, Clients := PtrSet.empty }
    (newRoom, { server with rooms := Function.update server.rooms roomID (some newRoom) })

/-- The method `addToR`: insert the client in the room's membership map and
overwrite the client's single `room` back pointer. -/
def addToR (w : World) (client : Nat) (roomID : String) : World :=
  let r := w.server.findCreateRoom roomID
  let room : Room := { r.1 with Clients := r.1.Clients.add client }
  { heap := Function.update w.heap client { w.heap client with room := some roomID },
    server := { r.2 with rooms := Function.update r.2.rooms roomID (some room) } }

/-- The hub receiving a client on its `register` channel. -/
def register (w : World) (client : Nat) : World :=
  { w with server := w.server.registerClient client }

/-- The effect of `delete(client.room.Clients, client)` under the guard
`client.room != nil`. -/
def leaveRoom (server : WSServer) (client : Nat) (room : Option String) : WSServer :=
  match room with
  | none => server
  | some rid =>
    match server.rooms rid with
    | none => server
    | some r =>
      { server with
        rooms := Function.update server.rooms rid
          (some { r with Clients := r.Clients.delete client }) }

/-- The method `disconnect` on a non-nil client: leave `client.room`, hand the
client to the hub's unregister path, `close(client.send)`, close the stream.
Closing the already closed channel panics before the stream is closed. -/
def disconnect (client : Nat) (w : World) : Except World World :=
  let c := w.heap client
  let server1 := leaveRoom w.server client c.room
  let server2 := if c.wsServer then server1.unregisterClient client else server1
  match c.send.close with
  | none => Except.error { heap := w.heap, server := server2 }
  | some ch =>
    let c1 : C := { c with send := ch, conn := c.conn.map (fun _ => { closed := true }) }
    Except.ok { heap := Function.update w.heap client c1, server := server2 }

/-! ## Inbound pump -/

/-- The result of one `client.conn.ReadMessage()`: an error (a transport fault
or the expiry of the read deadline) or a frame. -/
inductive ReadResult where
  | err
  | frame (message : String)
deriving DecidableEq, Repr

/-- How the handling of one frame ends: the loop goes on with the next read,
the pump is suspended in a blocking send `client.send <- x` on a full channel,
or the handler panicked. Each carries the state reached. -/
inductive Handled (σ : Type) where
  | next (s : σ)
  | blocked (s : σ)
  | panic (s : σ)

/-- The read loop of `readPump` over the results of the successive reads.
`dispatch` is the body of the loop after a successful read (decode the
envelope and run the handler selected by its type), on whatever state `σ` the
handlers act; a panic in it is caught by the deferred `recover`, which ends
the function. A read error leaves the loop by `break`, after which the
function returns; the deferred function does nothing but recover. The boolean
tells whether `readPump` has returned (it has not while the pump is blocked in
the next read or in a send). -/
def readPump {σ : Type} (dispatch : String → Nat → σ → Handled σ) (client : Nat) :
    List ReadResult → σ → σ × Bool
  | [], s => (s, false)
  | ReadResult.err :: _, s => (s, true)
  | ReadResult.frame message :: rest, s =>
    match dispatch message client s with
    | Handled.next s1 => readPump dispatch client rest s1
    | Handled.blocked s1 => (s1, false)
    | Handled.panic s1 => (s1, true)

/-- What `readPump` does with the outcome of the handling of a frame: it goes
on with the following reads, stays suspended in the send, or returns after the
recovered panic. -/
def pumpOn {σ : Type} (dispatch : String → Nat → σ → Handled σ) (client : Nat)
    (rest : List ReadResult) : Handled σ → σ × Bool
  | Handled.next s1 => readPump dispatch client rest s1
  | Handled.blocked s1 => (s1, false)
  | Handled.panic s1 => (s1, true)

/-! ## Runs of one connection -/

/-- The steps that touch the outbound channel of one member of a room: a
broadcast to the room, one receive by the member's `writePump`, one tick of
the member's `handleBufferedMessages`. -/
inductive Step where
  | broadcast (message : String)
  | dequeue
  | drainTick
deriving DecidableEq, Repr

/-- State of a run: the heap, the control state of the member's drain
goroutine and the items its `writePump` has received so far. -/
structure Trace where
  heap : Heap
  drainer : Goroutine
  written : List String

/-- One step of a run for the member `client` of `room`. -/
def step (room : Room) (client : Nat) (s : Step) (t : Trace) : Except Trace Trace :=
  match s with
  | Step.broadcast message =>
    match room.broadcastToClients message t.heap with
    | Except.ok h => Except.ok { t with heap := h }
    | Except.error h => Except.error { t with heap := h }
  | Step.dequeue =>
    match (t.heap client).send.recv with
    | none => Except.ok t
    | some (m, ch) =>
      Except.ok { t with
        heap := Function.update t.heap client { t.heap client with send := ch }
        written := t.written ++ [m] }
  | Step.drainTick =>
    let r := handleBufferedMessages t.drainer (t.heap client)
    let t1 : Trace := { t with heap := Function.update t.heap client r.2, drainer := r.1 }
    if r.1 = Goroutine.panicked ∧ t.drainer = Goroutine.running then Except.error t1
    else Except.ok t1

/-- A run: the steps in order, stopping at the first panic. -/
def run (room : Room) (client : Nat) : List Step → Trace → Except Trace Trace
  | [], t => Except.ok t
  | s :: rest, t =>
    match step room client s t with
    | Except.ok t1 => run room client rest t1
    | Except.error t1 => Except.error t1

/-- The messages of the broadcast steps of a run, in invocation order. -/
def broadcasts : List Step → List String
  | [] => []
  | Step.broadcast message :: rest => message :: broadcasts rest
  | _ :: rest => broadcasts rest

/-- No broadcast step of the run finds the member with a message waiting in
the overflow slice while its channel has room (such a broadcast would push
its message into the channel ahead of the waiting one). -/
def noOvertake (room : Room) (client : Nat) : List Step → Trace → Bool
  | [], _ => true
  | s :: rest, t =>
    (match s with
      | Step.broadcast _ =>
        decide ((t.heap client).sendBuffer = [] ∨ sendCap ≤ (t.heap client).send.buf.length)
      | _ => true) &&
    (match step room client s t with
      | Except.ok t1 => noOvertake room client rest t1
      | Except.error _ => true)

/-! ## Durable room store -/

/-- A row of the table `Rooms`. -/
structure RoomRow where
  RoomID : String
  User1ID : Int
  User2ID : Int
deriving DecidableEq, Repr

/-- A row of the table `GroupChatRoom`. -/
structure GroupChatRoomRow where
  RoomID : String
  GroupID : Int
deriving DecidableEq, Repr

/-- A row of the table `Sessions`. The column `ExpiresAt` holds the text that
the driver bound for a `time.Time`; the row keeps what that text is printed
from: the instant, in nanoseconds since the Unix epoch, and the offset of the
value's zone, in seconds east of UTC. -/
structure SessionRow where
  UserID : Int
  SessionID : String
  ExpiresAt : Int
  ExpiresAtOffset : Int := 0
deriving DecidableEq, Repr

/-- A row of the table `Message`, with the columns that `saveMessage` sets. -/
structure MessageRow where
  MessageID : String
  SenderUserID : Int
  ReceiverUserID : Int
  RoomID : String
  Content : String
deriving DecidableEq, Repr

/-- A row of the table `GroupChatMessage`, with the columns that `saveMessage`
sets. -/
structure GroupChatMessageRow where
  MessageID : String
  GroupID : Int
  SenderUserID : Int
  Content : String
  RoomID : String
deriving DecidableEq, Repr

/-- A row of the table `User`, with the columns that the chat package reads. -/
structure UserRow where
  UserID : Int
  FirstName : String
  LastName : String
deriving DecidableEq, Repr

/-- A row of the table `FollowRequests`; `Accepted` is `none` for SQL `NULL`. -/
structure FollowRequestRow where
  FollowerUserID : Int
  FollowingUserID : Int
  Accepted : Option Bool
deriving DecidableEq, Repr

/-- A row of the table `GroupJoinRequests`, with the columns that
`AcceptGroupJoinRequest` reads. -/
structure GroupJoinRequestRow where
  RequestId : Int
  GroupId : Int
  UserId : Int
deriving DecidableEq, Repr

/-- A row of the table `GroupMembers`, with the columns that
`AcceptGroupJoinRequest` sets. -/
structure GroupMemberRow where
  GroupID : Int
  UserID : Int
  Accepted : Bool
deriving DecidableEq, Repr

/-- The tables of the store, rows in insertion order: the two tables of the
room store, the session table, the two message tables, the user and
follow-request tables, and the tables of group join requests and group
members. -/
structure DB where
  Rooms : List RoomRow
  GroupChatRoom : List GroupChatRoomRow
  Sessions : List SessionRow := []
  Message : List MessageRow := []
  GroupChatMessage : List GroupChatMessageRow := []
  User : List UserRow := []
  FollowRequests : List FollowRequestRow := []
  GroupJoinRequests : List GroupJoinRequestRow := []
  GroupMembers : List GroupMemberRow := []
deriving DecidableEq, Repr

/-- What one call draws from outside the store: the string of `uuid.New()`,
whether the `SELECT` fails with an error other than `sql.ErrNoRows`, and
whether the `INSERT` is refused (the schema of the tables is not part of the
sources, so the verdict on an insert is taken from here). -/
structure SqlEnv where
  uuid : String
  queryFails : Bool
  execFails : Bool
deriving DecidableEq, Repr

/-- The `SELECT RoomID FROM Rooms WHERE (User1ID = ? AND User2ID = ?) OR
(User1ID = ? AND User2ID = ?)` with `QueryRow`: the first matching row. -/
def selectRoom (db : DB) (user1ID user2ID : Int) : Option String :=
  (db.Rooms.find? (fun r =>
    (r.User1ID == user1ID && r.User2ID == user2ID) ||
    (r.User1ID == user2ID && r.User2ID == user1ID))).map RoomRow.RoomID

/-- The function `GetCreateRoom`: the returned pair `(roomID, err)` as an
option (`none` when `err` is non-nil) and the store afterwards. -/
def GetCreateRoom (env : SqlEnv) (db : DB) (user1ID user2ID : Int) : Option String × DB :=
  if env.queryFails then (none, db)
  else
    match selectRoom db user1ID user2ID with
    | some roomID => (some roomID, db)
    | none =>
      if env.execFails then (none, db)
      else
        (some env.uuid,
          { db with Rooms := db.Rooms ++
              [{ RoomID := env.uuid, User1ID := user1ID, User2ID := user2ID }] })

/-- The `SELECT RoomID FROM GroupChatRoom WHERE GroupID = ?` with `QueryRow`. -/
def selectGroupRoom (db : DB) (groupId : Int) : Option String :=
  (db.GroupChatRoom.find? (fun r => r.GroupID == groupId)).map GroupChatRoomRow.RoomID

/-- The function `GetCreateGrChatRoom`. -/
def GetCreateGrChatRoom (env : SqlEnv) (db : DB) (groupId : Int) : Option String × DB :=
  if env.queryFails then (none, db)
  else
    match selectGroupRoom db groupId with
    | some roomId => (some roomId, db)
    | none =>
      if env.execFails then (none, db)
      else
        (some env.uuid,
          { db with GroupChatRoom := db.GroupChatRoom ++
              [{ RoomID := env.uuid, GroupID := groupId }] })

/-- The loop body of `broadcastToClients` on one client whose channel is open:
the effect of the `select`. -/
def deliver (c : C) (message : String) : C :=
  if c.send.buf.length < sendCap then
    { c with send := { c.send with buf := c.send.buf ++ [message] } }
  else { c with sendBuffer := c.sendBuffer ++ [message] }

/-! ## Outbound pump -/

/-- A frame put on the websocket stream by `writePump`. -/
inductive WsFrame where
  | text (data : String)
  | close
  | ping
deriving DecidableEq, Repr

/-- Which case of the `select` in `writePump` fires. -/
inductive PumpEvent where
  | queue
  | tick
deriving DecidableEq, Repr

/-- The verdicts of the stream on the writes of one iteration: whether
`NextWriter`, the `Close` of the writer, or the ping `WriteMessage` returns an
error. -/
structure WriteEnv where
  nextWriterFails : Bool
  closeFails : Bool
  pingFails : Bool
deriving DecidableEq, Repr

/-- What one iteration of the loop of `writePump` leaves: the client, the
frames written to the stream, and whether the function has returned. -/
structure PumpResult where
  c : C
  frames : List WsFrame
  returned : Bool
deriving DecidableEq, Repr

/-- The deferred `client.conn.Close()` of `writePump`. -/
def closeConn (c : C) : C :=
  { c with conn := c.conn.map (fun k => { k with closed := true }) }

/-- The batching loop `for i := 0; i < n; i++ { w.Write(newline);
w.Write(<-client.send) }`: `acc` is what the writer holds. The empty-queue case
does not arise, `n` being the length of the queue. -/
def batchLoop (acc : String) : Nat → List String → String × List String
  | 0, q => (acc, q)
  | _ + 1, [] => (acc, [])
  | n + 1, m :: q => batchLoop (acc ++ "\n" ++ m) n q

/-- One iteration of the `for { select { ... } }` of `writePump`. On the queue
case a receive on the empty open channel is not ready (nothing happens), on the
empty closed channel it reports `ok == false`; otherwise the received item and
the `len(client.send)` items behind it are written as one text frame. Every
`return` runs the deferred close of the stream. -/
def writePump (env : WriteEnv) (ev : PumpEvent) (c : C) : PumpResult :=
  match ev with
  | PumpEvent.queue =>
    match c.send.buf with
    | [] =>
      if c.send.closed then
        { c := closeConn c, frames := [WsFrame.close], returned := true }
      else { c := c, frames := [], returned := false }
    | message :: rest =>
      if env.nextWriterFails then
        { c := closeConn { c with send := { c.send with buf := rest } },
          frames := [], returned := true }
      else
        let r := batchLoop message rest.length rest
        let c1 : C := { c with send := { c.send with buf := r.2 } }
        if env.closeFails then { c := closeConn c1, frames := [], returned := true }
        else { c := c1, frames := [WsFrame.text r.1], returned := false }
  | PumpEvent.tick =>
    if env.pingFails then { c := closeConn c, frames := [], returned := true }
    else { c := c, frames := [WsFrame.ping], returned := false }

/-- A connection with three queued items. -/
def clientThree : C :=
  { conn := some { closed := false }, wsServer := true,
    send := { buf := ["m1", "m2", "m3"], closed := false },
    room := some "r1", sendBuffer := [] }

/-- A stream on which every write succeeds. -/
def writeOk : WriteEnv := { nextWriterFails := false, closeFails := false, pingFails := false }

/-! ## Concurrent calls on the room store -/

/-- Where a call of `GetCreateRoom` or `GetCreateGrChatRoom` stands: before its
`SELECT`, between a `SELECT` that found no row and its `INSERT`, or returned
(with `none` for a non-nil error). -/
inductive CallState where
  | start
  | noRows
  | returned (result : Option String)
deriving DecidableEq, Repr

/-- One database statement of a call: the `SELECT` from `start`, the `INSERT`
from `noRows`. Each statement is atomic; nothing ties the two together. -/
def callStep (select : DB → Option String) (insert : String → DB → DB) (env : SqlEnv) :
    CallState → DB → CallState × DB
  | CallState.start, db =>
    if env.queryFails then (CallState.returned none, db)
    else
      match select db with
      | some roomID => (CallState.returned (some roomID), db)
      | none => (CallState.noRows, db)
  | CallState.noRows, db =>
    if env.execFails then (CallState.returned none, db)
    else (CallState.returned (some env.uuid), insert env.uuid db)
  | CallState.returned r, db => (CallState.returned r, db)

/-- The statement `INSERT INTO Rooms (RoomID, User1ID, User2ID) VALUES (?, ?, ?)`. -/
def insertRoom (user1ID user2ID : Int) (roomID : String) (db : DB) : DB :=
  { db with Rooms := db.Rooms ++
      [{ RoomID := roomID, User1ID := user1ID, User2ID := user2ID }] }

/-- The statement `INSERT INTO GroupChatRoom (RoomID, GroupID) VALUES (?, ?)`. -/
def insertGroupRoom (groupId : Int) (roomId : String) (db : DB) : DB :=
  { db with GroupChatRoom := db.GroupChatRoom ++ [{ RoomID := roomId, GroupID := groupId }] }

/-- The statements of one call of `GetCreateRoom`. -/
def roomStep (env : SqlEnv) (user1ID user2ID : Int) : CallState → DB → CallState × DB :=
  callStep (fun db => selectRoom db user1ID user2ID) (insertRoom user1ID user2ID) env

/-- The statements of one call of `GetCreateGrChatRoom`. -/
def groupStep (env : SqlEnv) (groupId : Int) : CallState → DB → CallState × DB :=
  callStep (fun db => selectGroupRoom db groupId) (insertGroupRoom groupId) env

/-- Two calls run concurrently under a schedule: `false` lets the first call
execute its next statement, `true` the second. -/
def interleave (step1 step2 : CallState → DB → CallState × DB) :
    List Bool → CallState × CallState × DB → CallState × CallState × DB
  | [], s => s
  | false :: rest, (c1, c2, db) =>
    interleave step1 step2 rest ((step1 c1 db).1, c2, (step1 c1 db).2)
  | true :: rest, (c1, c2, db) =>
    interleave step1 step2 rest (c1, (step2 c2 db).1, (step2 c2 db).2)

/-- Whether at some point of the run both calls stand between their `SELECT`
and their `INSERT`. -/
def bothPending (step1 step2 : CallState → DB → CallState × DB) :
    List Bool → CallState × CallState × DB → Bool
  | [], (c1, c2, _) => c1 == CallState.noRows && c2 == CallState.noRows
  | false :: rest, (c1, c2, db) =>
    (c1 == CallState.noRows && c2 == CallState.noRows) ||
      bothPending step1 step2 rest ((step1 c1 db).1, c2, (step1 c1 db).2)
  | true :: rest, (c1, c2, db) =>
    (c1 == CallState.noRows && c2 == CallState.noRows) ||
      bothPending step1 step2 rest (c1, (step2 c2 db).1, (step2 c2 db).2)

/-- The rows of `Rooms` for an unordered pair of users. -/
def roomRows (db : DB) (user1ID user2ID : Int) : List RoomRow :=
  db.Rooms.filter (fun r =>
    (r.User1ID == user1ID && r.User2ID == user2ID) ||
    (r.User1ID == user2ID && r.User2ID == user1ID))

/-- The rows of `GroupChatRoom` for a group. -/
def groupRows (db : DB) (groupId : Int) : List GroupChatRoomRow :=
  db.GroupChatRoom.filter (fun r => r.GroupID == groupId)

/-! ## Sessions and the session gate -/

/-- A number in decimal, padded with zeros on the left to the given width. -/
def pad (width : Nat) (n : Nat) : String :=
  String.mk (List.replicate (width - (toString n).length) '0') ++ toString n

/-- The layout element `.999999999` of `time.Format`: the nanoseconds as nine
digits without the trailing zeros, after a dot; nothing for zero. -/
def fraction (nsec : Nat) : String :=
  if nsec = 0 then ""
  else "." ++ String.mk ((pad 9 nsec).data.reverse.dropWhile (fun c => c == '0')).reverse

/-- Year, month and day of the proleptic Gregorian calendar for a number of
days since 1970-01-01. -/
def civil (days : Int) : Int × Nat × Nat :=
  let z := days + 719468
  let era := Int.ediv z 146097
  let doe := (Int.emod z 146097).toNat
  let yoe := (doe - doe / 1460 + doe / 36524 - doe / 146096) / 365
  let doy := doe - (365 * yoe + yoe / 4 - yoe / 100)
  let mp := (5 * doy + 2) / 153
  let d := doy - (153 * mp + 2) / 5 + 1
  let m := if mp < 10 then mp + 3 else mp - 9
  (Int.ofNat yoe + era * 400 + (if m ≤ 2 then 1 else 0), m, d)

/-- The text that the driver `go-sqlite3` (imported by `datab.go`) binds for a
`time.Time` parameter: `Format("2006-01-02 15:04:05.999999999-07:00")` of the
time of instant `unixNano` in a zone of offset `offset`, that is the wall clock
of the zone followed by the offset. For the years 0000 to 9999. -/
def sqliteTimestamp (unixNano offset : Int) : String :=
  let wall := unixNano + offset * 1000000000
  let sec := Int.ediv wall 1000000000
  let nsec := (Int.emod wall 1000000000).toNat
  let date := civil (Int.ediv sec 86400)
  let sod := (Int.emod sec 86400).toNat
  let abs := offset.natAbs
  pad 4 date.1.toNat ++ "-" ++ pad 2 date.2.1 ++ "-" ++ pad 2 date.2.2 ++ " " ++
    pad 2 (sod / 3600) ++ ":" ++ pad 2 (sod % 3600 / 60) ++ ":" ++ pad 2 (sod % 60) ++
    fraction nsec ++ (if offset < 0 then "-" else "+") ++
    pad 2 (abs / 3600) ++ ":" ++ pad 2 (abs % 3600 / 60)

/-- The order of two byte strings under `memcmp`, a proper prefix being
smaller. -/
def memcmpLess : List Char → List Char → Bool
  | [], [] => false
  | [], _ :: _ => true
  | _ :: _, [] => false
  | a :: x, b :: y =>
    if a.toNat < b.toNat then true
    else if b.toNat < a.toNat then false
    else memcmpLess x y

/-- The comparison `<` of SQLite on two TEXT values (collation BINARY). -/
def sqlLess (a b : String) : Bool := memcmpLess a.data b.data

/-- Whether the condition `ExpiresAt < ?` selects a row when the parameter is
the `time.Now()` of instant `now` in a zone of offset `zone`: SQLite compares
the stored text with the text bound for the parameter. -/
def expiredInSql (now zone : Int) (r : SessionRow) : Bool :=
  sqlLess (sqliteTimestamp r.ExpiresAt r.ExpiresAtOffset) (sqliteTimestamp now zone)

/-- The duration `45 * time.Minute`, in nanoseconds. -/
def sessionWindow : Int := 45 * (60 * 1000000000)

/-- The query `SELECT ExpiresAt FROM Sessions WHERE SessionID = ?` with
`QueryRow`: the first matching row, `none` standing for `sql.ErrNoRows`. -/
def selectExpiresAt (db : DB) (sessionID : String) : Option Int :=
  (db.Sessions.find? (fun r => r.SessionID == sessionID)).map SessionRow.ExpiresAt

/-- The function `ValidateSession` at instant `now`: `none` when it returns an
error (a failing query, or no row: `Scan` returns `sql.ErrNoRows`), otherwise
the boolean it returns. `Scan` reads the stored text back into a `time.Time`,
and `time.Now().After(expiresAt)` compares instants. -/
def ValidateSession (queryFails : Bool) (now : Int) (db : DB) (sessionID : String) :
    Option Bool :=
  if queryFails then none
  else
    match selectExpiresAt db sessionID with
    | none => none
    | some expiresAt => if expiresAt < now then some false else some true

/-- The function `ExtendSessionExpiry` at instant `now` in a zone of offset
`zone`: whether it returned nil, and the store afterwards. -/
def ExtendSessionExpiry (queryFails execFails : Bool) (now zone : Int) (db : DB)
    (sessionID : String) : Bool × DB :=
  if queryFails then (false, db)
  else
    match selectExpiresAt db sessionID with
    | none => (false, db)
    | some _ =>
      if execFails then (false, db)
      else
        (true, { db with Sessions := db.Sessions.map (fun r =>
          if r.SessionID == sessionID then
            { r with ExpiresAt := now + sessionWindow, ExpiresAtOffset := zone }
          else r) })

/-- The statement `DELETE FROM Sessions WHERE ExpiresAt < ?` with the
`time.Now()` of instant `now` in a zone of offset `zone` as parameter. -/
def deleteExpired (now zone : Int) (db : DB) : DB :=
  { db with Sessions := db.Sessions.filter (fun r => !(expiredInSql now zone r)) }

/-- What one request meets outside the store: the instants that the successive
`time.Now()` return (at the sweep, in `ValidateSession`, in
`ExtendSessionExpiry`, for the cookie), which statements fail, and the offset
of the zone of `time.Local` during the request, in seconds east of UTC. -/
structure AuthEnv where
  sweepAt : Int
  validateAt : Int
  extendAt : Int
  cookieAt : Int
  cleanupFails : Bool
  validateFails : Bool
  extendQueryFails : Bool
  extendExecFails : Bool
  zone : Int := 0
deriving DecidableEq, Repr

/-- The answer of `AuthMiddleware`: an error status written by the middleware
itself, or the wrapped handler invoked after the cookie was re-issued with the
given expiry. -/
inductive AuthAnswer where
  | unauthorized
  | internalServerError
  | next (cookieExpires : Int)
deriving DecidableEq, Repr

/-- The handler built by `AuthMiddleware` on a request whose `session_id`
cookie is `cookie` (`none` when absent): the answer and the store afterwards. -/
def AuthMiddleware (env : AuthEnv) (db : DB) (cookie : Option String) : AuthAnswer × DB :=
  let db1 := if env.cleanupFails then db else deleteExpired env.sweepAt env.zone db
  match cookie with
  | none => (AuthAnswer.unauthorized, db1)
  | some sessionID =>
    match ValidateSession env.validateFails env.validateAt db1 sessionID with
    | none => (AuthAnswer.internalServerError, db1)
    | some false => (AuthAnswer.unauthorized, db1)
    | some true =>
      match ExtendSessionExpiry env.extendQueryFails env.extendExecFails env.extendAt
          env.zone db1 sessionID with
      | (false, db2) => (AuthAnswer.internalServerError, db2)
      | (true, db2) => (AuthAnswer.next (env.cookieAt + sessionWindow), db2)

/-- A request handled at instant 1000 with the database answering. -/
def authEnvOk : AuthEnv :=
  { sweepAt := 1000, validateAt := 1000, extendAt := 1000, cookieAt := 1000,
    cleanupFails := false, validateFails := false,
    extendQueryFails := false, extendExecFails := false }

/-- A store whose only session, of token "tok", expired at instant 999. -/
def dbExpiredSession : DB :=
  { Rooms := [], GroupChatRoom := [],
    Sessions := [{ UserID := 1, SessionID := "tok", ExpiresAt := 999 }] }

/-- The schedule in which both calls run their `SELECT` before either runs its
`INSERT`. -/
def schedOverlap : List Bool := [false, true, false, true]

/-- The schedule in which the first call returns before the second starts. -/
def schedSerial : List Bool := [false, false, true, true]

/-- The store after two rooms were created for users 1 and 2. -/
def dbTwoRooms : DB :=
  { Rooms := [{ RoomID := "u1", User1ID := 1, User2ID := 2 },
              { RoomID := "u2", User1ID := 1, User2ID := 2 }],
    GroupChatRoom := [] }

/-! ## Messages, users and follow requests -/

/-- The decoded payload of a chat message, `type IncomingMessage struct`.
`Timestamp` stands for the text that `Timestamp.Format(time.RFC3339)` gives,
the only use made of the field. -/
structure IncomingMessage where
  SenderUserID : Int
  ReceiverUserID : Int
  RoomID : String
  Content : String
  Timestamp : String
  GroupID : Int
deriving DecidableEq, Repr

/-- The function `saveMessage`: whether it returned nil, and the store
afterwards. The message id is the UUID of the call; a group id other than
zero selects the table `GroupChatMessage`, zero the table `Message`. -/
def saveMessage (env : SqlEnv) (db : DB) (message : IncomingMessage) : Bool × DB :=
  if message.GroupID ≠ 0 then
    if env.execFails then (false, db)
    else
      (true, { db with GroupChatMessage := db.GroupChatMessage ++
        [{ MessageID := env.uuid, GroupID := message.GroupID,
           SenderUserID := message.SenderUserID, Content := message.Content,
           RoomID := message.RoomID }] })
  else
    if env.execFails then (false, db)
    else
      (true, { db with Message := db.Message ++
        [{ MessageID := env.uuid, SenderUserID := message.SenderUserID,
           ReceiverUserID := message.ReceiverUserID, RoomID := message.RoomID,
           Content := message.Content }] })

/-- The function `GetUserDetails` of the model package: first and last name of
the first row of `User` with the id, `none` for an error (`sql.ErrNoRows`
included). -/
def GetUserDetails (env : SqlEnv) (db : DB) (userID : Int) : Option (String × String) :=
  if env.queryFails then none
  else (db.User.find? (fun u => u.UserID == userID)).map (fun u => (u.FirstName, u.LastName))

/-- An element of the result of `FetchFollowRequests`, `type FollowRequest
struct`. -/
structure FollowRequest where
  FollowerUserID : Int
  FirstName : String
  LastName : String
deriving DecidableEq, Repr

/-- The function `FetchFollowRequests`: the join of the requests made to
`userId` with `Accepted IS FALSE` and the users who made them; `none` when it
returns an error. The slice it returns starts as a nil slice and is only
appended to, so an empty result is the nil slice. -/
def FetchFollowRequests (env : SqlEnv) (db : DB) (userId : Int) : Option (List FollowRequest) :=
  if env.queryFails then none
  else
    some ((db.FollowRequests.filter (fun fr =>
        fr.FollowingUserID == userId && fr.Accepted == some false)).flatMap (fun fr =>
      (db.User.filter (fun u => u.UserID == fr.FollowerUserID)).map (fun u =>
        { FollowerUserID := fr.FollowerUserID, FirstName := u.FirstName,
          LastName := u.LastName })))

/-- The encoding by `json.Marshal` of a slice built by appending to a nil
slice, from the encodings of its elements: a nil slice encodes as `null`. -/
def marshalSlice (elems : List String) : String :=
  match elems with
  | [] => "null"
  | _ :: _ => "[" ++ String.intercalate "," elems ++ "]"

/-! ## Message router -/

/-- The wire envelope, `type SockMessage struct` (its field `Type` is `type`
here, after its JSON key); `Payload` is the raw JSON text of a
`json.RawMessage`. -/
structure SockMessage where
  type : String
  Payload : String
deriving DecidableEq, Repr

/-- The value that the `fetchMessages` case hands to `json.Marshal`: the map
with the keys `type` and `payload`, the latter a map with the keys `roomId` and
`messages` (the messages by their encodings). -/
structure FetchResponse where
  type : String
  roomId : String
  messages : List String
deriving DecidableEq, Repr

/-- The functions of `encoding/json` and `strconv` as the router uses them. A
decoder gives `none` when `json.Unmarshal` returns an error, an encoder gives
`none` when `json.Marshal` does. The payload decoders are named after the
shape they decode into, with the fields in the order of the struct. -/
structure Json where
  unmarshalSock : String → Option SockMessage
  marshalSock : SockMessage → Option String
  marshalFetch : FetchResponse → Option String
  encodeFollowRequest : FollowRequest → String
  unmarshalUserId : String → Option Int
  unmarshalEventResponse : String → Option (Int × Int × String)
  unmarshalGroupResponse : String → Option (Int × Int × Bool)
  unmarshalTargetRequester : String → Option (Int × Int)
  unmarshalUserFollower : String → Option (Int × Int)
  unmarshalRequestId : String → Option Int
  unmarshalIncoming : String → Option IncomingMessage
  unmarshalGroupIdText : String → Option String
  unmarshalFetch : String → Option (String × Option Int)
  atoi : String → Option Int

/-- What the persistence functions over tables that are not modelled return,
as lists of encoded rows: `none` stands for a non-nil error. -/
structure Answers where
  CheckEventInvite : Int → Option (List String)
  CheckGroupInvites : Int → Option (List String)
  FetchGroupJoinRequests : Int → Option (List String)
  FetchMessages : String → Int → Option Int → Option (List String)

/-- Everything outside the process that the handling of one frame consults. -/
structure RouterEnv where
  json : Json
  answers : Answers
  sql : SqlEnv

/-- A call of a persistence function, with its arguments after `db`. -/
inductive DbCall where
  | CheckEventInvite (userID : Int)
  | ProcessEventResponse (responseID userID : Int) (response : String)
  | CheckGroupInvites (userID : Int)
  | HandleGroupInviteResponse (userID groupID : Int) (accept : Bool)
  | SaveFollowRequest (followerUserID followingUserID : Int)
  | AcceptFollowRequest (followerUserID followingUserID : Int)
  | RemoveFollowRequest (requesterUserId targetUserId : Int)
  | FetchFollowRequests (userId : Int)
  | FetchGroupJoinRequests (groupCreatorId : Int)
  | AcceptGroupJoinRequest (requestId userId : Int)
  | DeclineGroupJoinRequest (requestId : Int)
  | GetUserDetails (userID : Int)
  | saveMessage (message : IncomingMessage)
  | GetCreateGrChatRoom (groupId : Int)
  | FetchMessages (roomID : String) (userID : Int) (groupID : Option Int)
deriving DecidableEq, Repr

/-- The state the router acts on: the in-memory hub, the store, and the
persistence calls made so far, in order. -/
structure Sys where
  world : World
  db : DB
  calls : List DbCall

/-- Record a persistence call. -/
def Sys.call (s : Sys) (c : DbCall) : Sys :=
  { s with calls := s.calls ++ [c] }

/-- The blocking send `client.send <- m` of a handler: a panic on a closed
channel, the item appended when there is room, the pump suspended otherwise. -/
def sendTo (client : Nat) (m : String) (s : Sys) : Handled Sys :=
  let c := s.world.heap client
  if c.send.closed then Handled.panic s
  else if c.send.buf.length < sendCap then
    Handled.next { s with world := { s.world with
      heap := Function.update s.world.heap client
        { c with send := { c.send with buf := c.send.buf ++ [m] } } } }
  else Handled.blocked s

/-- The envelope of the `eventInvite` case. -/
def eventInviteResponse (notifications : List String) : SockMessage :=
  if notifications.length = 0 then
    { type := "eventInviteResponse",
      Payload := "\x7b\"message\": \"No New Notifications\"\x7d" }
  else { type := "eventInviteResponse", Payload := marshalSlice notifications }

/-- The envelope of the `groupInvite` case. -/
def groupInviteResponse (invites : List String) : SockMessage :=
  if invites.length = 0 then
    { type := "groupInviteResponse",
      Payload := "\x7b\"message\": \"No New Group Invites\"\x7d" }
  else { type := "groupInviteResponse", Payload := marshalSlice invites }

/-- The envelope of the `followRequestCheck` case. -/
def followRequestResponse (followRequestsJSON : String) : SockMessage :=
  { type := "followRequestResponse", Payload := followRequestsJSON }

/-- The envelope of the `groupJoinRequestCheck` case. -/
def groupJoinRequestResponse (responsePayload : String) : SockMessage :=
  { type := "groupJoinRequestResponse", Payload := responsePayload }

/-- The envelope of the `joinGroupChat` case. -/
def joinGroupChatResponse (roomId : String) : SockMessage :=
  { type := "joinGroupChatResponse",
    Payload := "\x7b\"roomId\": \"" ++ roomId ++ "\"\x7d" }

/-- The value marshalled by the `fetchMessages` case. -/
def fetchMessagesResponse (roomID : String) (messages : List String) : FetchResponse :=
  { type := "fetchMessagesResponse", roomId := roomID, messages := messages }

/-- The payload text that the `chatMessage` case builds with `fmt.Sprintf`: the
strings are inserted as they are. -/
def chatPayload (chatMsg : IncomingMessage) (firstName lastName : String) : String :=
  "\x7b\n\t\t\t\t\t\"senderUserId\": " ++ toString chatMsg.SenderUserID ++
  ",\n\t\t\t\t\t\"senderFirstName\": \"" ++ firstName ++
  "\",\n\t\t\t\t\t\"senderLastName\": \"" ++ lastName ++
  "\",\n\t\t\t\t\t\"content\": \"" ++ chatMsg.Content ++
  "\",\n\t\t\t\t\t\"roomId\": \"" ++ chatMsg.RoomID ++
  "\",\n\t\t\t\t\t\"timestamp\": \"" ++ chatMsg.Timestamp ++
  "\",\n\t\t\t\t\t\"groupId\": " ++ toString chatMsg.GroupID ++ "\n\t\t\t\t\x7d"

/-- The envelope broadcast by the `chatMessage` case. -/
def chatBroadcast (chatMsg : IncomingMessage) (firstName lastName : String) : SockMessage :=
  { type := "chatMessage", Payload := chatPayload chatMsg firstName lastName }

/-- The case `"eventInvite"`. -/
def onEventInvite (E : RouterEnv) (payload : String) (client : Nat) (s : Sys) : Handled Sys :=
  match E.json.unmarshalUserId payload with
  | none => Handled.next s
  | some userID =>
    let s1 := s.call (DbCall.CheckEventInvite userID)
    match E.answers.CheckEventInvite userID with
    | none => Handled.next s1
    | some notifications =>
      sendTo client ((E.json.marshalSock (eventInviteResponse notifications)).getD "") s1

/-- The case `"eInviteResponse"`. -/
def onEInviteResponse (E : RouterEnv) (payload : String) (s : Sys) : Handled Sys :=
  match E.json.unmarshalEventResponse payload with
  | none => Handled.next s
  | some (responseId, userId, response) =>
    Handled.next (s.call (DbCall.ProcessEventResponse responseId userId response))

/-- The case `"groupInvite"`. -/
def onGroupInvite (E : RouterEnv) (payload : String) (client : Nat) (s : Sys) : Handled Sys :=
  match E.json.unmarshalUserId payload with
  | none => Handled.next s
  | some userID =>
    let s1 := s.call (DbCall.CheckGroupInvites userID)
    match E.answers.CheckGroupInvites userID with
    | none => Handled.next s1
    | some invites =>
      sendTo client ((E.json.marshalSock (groupInviteResponse invites)).getD "") s1

/-- The case `"gInviteResponse"`. -/
def onGInviteResponse (E : RouterEnv) (payload : String) (s : Sys) : Handled Sys :=
  match E.json.unmarshalGroupResponse payload with
  | none => Handled.next s
  | some (groupID, userID, accept) =>
    Handled.next (s.call (DbCall.HandleGroupInviteResponse userID groupID accept))

/-- The case `"followRequest"`. -/
def onFollowRequest (E : RouterEnv) (payload : String) (s : Sys) : Handled Sys :=
  match E.json.unmarshalTargetRequester payload with
  | none => Handled.next s
  | some (targetUserId, requesterUserId) =>
    Handled.next (s.call (DbCall.SaveFollowRequest requesterUserId targetUserId))

/-- The case `"acceptFollowRequest"`. -/
def onAcceptFollowRequest (E : RouterEnv) (payload : String) (s : Sys) : Handled Sys :=
  match E.json.unmarshalUserFollower payload with
  | none => Handled.next s
  | some (userId, followerUserId) =>
    Handled.next (s.call (DbCall.AcceptFollowRequest followerUserId userId))

/-- The case `"declineFollowRequest"`. -/
def onDeclineFollowRequest (E : RouterEnv) (payload : String) (s : Sys) : Handled Sys :=
  match E.json.unmarshalUserFollower payload with
  | none => Handled.next s
  | some (userId, followerUserId) =>
    Handled.next (s.call (DbCall.RemoveFollowRequest followerUserId userId))

/-- The case `"cancelFollowRequest"`. -/
def onCancelFollowRequest (E : RouterEnv) (payload : String) (s : Sys) : Handled Sys :=
  match E.json.unmarshalTargetRequester payload with
  | none => Handled.next s
  | some (targetUserId, requesterUserId) =>
    Handled.next (s.call (DbCall.RemoveFollowRequest requesterUserId targetUserId))

/-- The case `"followRequestCheck"`. The error of `FetchFollowRequests` is
overwritten by that of `json.Marshal` before it is looked at, and on an error
the slice is nil; the `json.Marshal` of a slice of `FollowRequest` returns no
error. -/
def onFollowRequestCheck (E : RouterEnv) (payload : String) (client : Nat) (s : Sys) :
    Handled Sys :=
  match E.json.unmarshalUserId payload with
  | none => Handled.next s
  | some userId =>
    let s1 := s.call (DbCall.FetchFollowRequests userId)
    let followRequests := (FetchFollowRequests E.sql s.db userId).getD []
    let followRequestsJSON := marshalSlice (followRequests.map E.json.encodeFollowRequest)
    sendTo client ((E.json.marshalSock (followRequestResponse followRequestsJSON)).getD "") s1

/-- The case `"groupJoinRequestCheck"`. -/
def onGroupJoinRequestCheck (E : RouterEnv) (payload : String) (client : Nat) (s : Sys) :
    Handled Sys :=
  match E.json.unmarshalUserId payload with
  | none => Handled.next s
  | some userId =>
    let s1 := s.call (DbCall.FetchGroupJoinRequests userId)
    match E.answers.FetchGroupJoinRequests userId with
    | none => Handled.next s1
    | some requests =>
      sendTo client
        ((E.json.marshalSock (groupJoinRequestResponse (marshalSlice requests))).getD "") s1

/-- The case `"acceptGroupJoinRequest"`; `UserID` is the parameter of
`readPump`. -/
def onAcceptGroupJoinRequest (E : RouterEnv) (UserID : Int) (payload : String) (s : Sys) :
    Handled Sys :=
  match E.json.unmarshalRequestId payload with
  | none => Handled.next s
  | some requestId => Handled.next (s.call (DbCall.AcceptGroupJoinRequest requestId UserID))

/-- The case `"declineGroupJoinRequest"`. -/
def onDeclineGroupJoinRequest (E : RouterEnv) (payload : String) (s : Sys) : Handled Sys :=
  match E.json.unmarshalRequestId payload with
  | none => Handled.next s
  | some requestId => Handled.next (s.call (DbCall.DeclineGroupJoinRequest requestId))

/-- The case `"chatMessage"`: look the sender up, save the message, build the
envelope, and broadcast its encoding (the empty byte string when
`json.Marshal` fails, its error being dropped) to the room of the message when
the hub's table has it. -/
def onChatMessage (E : RouterEnv) (payload : String) (s : Sys) : Handled Sys :=
  match E.json.unmarshalIncoming payload with
  | none => Handled.next s
  | some chatMsg =>
    let s1 := s.call (DbCall.GetUserDetails chatMsg.SenderUserID)
    match GetUserDetails E.sql s.db chatMsg.SenderUserID with
    | none => Handled.next s1
    | some (firstName, lastName) =>
      let s2 := s1.call (DbCall.saveMessage chatMsg)
      match saveMessage E.sql s.db chatMsg with
      | (false, _) => Handled.next s2
      | (true, db1) =>
        let s3 : Sys := { s2 with db := db1 }
        let broadcastJSON :=
          (E.json.marshalSock (chatBroadcast chatMsg firstName lastName)).getD ""
        match s.world.server.rooms chatMsg.RoomID with
        | none => Handled.next s3
        | some room =>
          match room.broadcastToClients broadcastJSON s.world.heap with
          | Except.ok h => Handled.next { s3 with world := { s.world with heap := h } }
          | Except.error h => Handled.panic { s3 with world := { s.world with heap := h } }

/-- The case `"joinGroupChat"`, with `addToGroupChatRoom` inlined. -/
def onJoinGroupChat (E : RouterEnv) (payload : String) (client : Nat) (s : Sys) : Handled Sys :=
  match E.json.unmarshalGroupIdText payload with
  | none => Handled.next s
  | some groupId =>
    match E.json.atoi groupId with
    | none => Handled.next s
    | some groupIdInt =>
      let s1 := s.call (DbCall.GetCreateGrChatRoom groupIdInt)
      match GetCreateGrChatRoom E.sql s.db groupIdInt with
      | (none, db1) => Handled.next { s1 with db := db1 }
      | (some roomId, db1) =>
        let s2 : Sys := { s1 with db := db1, world := addToR s.world client roomId }
        match E.json.marshalSock (joinGroupChatResponse roomId) with
        | none => Handled.next s2
        | some responseJSON => sendTo client responseJSON s2

/-- The case `"fetchMessages"`. -/
def onFetchMessages (E : RouterEnv) (UserID : Int) (payload : String) (client : Nat)
    (s : Sys) : Handled Sys :=
  match E.json.unmarshalFetch payload with
  | none => Handled.next s
  | some (roomID, groupID) =>
    let s1 := s.call (DbCall.FetchMessages roomID UserID groupID)
    match E.answers.FetchMessages roomID UserID groupID with
    | none => Handled.next s1
    | some messages =>
      match E.json.marshalFetch (fetchMessagesResponse roomID messages) with
      | none => Handled.next s1
      | some responseJSON => sendTo client responseJSON s1

/-- The body of the read loop of `readPump` after a successful read: decode
the envelope, then the `switch wsMessage.Type`, which has no default case. -/
def route (E : RouterEnv) (UserID : Int) (message : String) (client : Nat) (s : Sys) :
    Handled Sys :=
  match E.json.unmarshalSock message with
  | none => Handled.next s
  | some wsMessage =>
    if wsMessage.type = "eventInvite" then onEventInvite E wsMessage.Payload client s
    else if wsMessage.type = "eInviteResponse" then onEInviteResponse E wsMessage.Payload s
    else if wsMessage.type = "groupInvite" then onGroupInvite E wsMessage.Payload client s
    else if wsMessage.type = "gInviteResponse" then onGInviteResponse E wsMessage.Payload s
    else if wsMessage.type = "followRequest" then onFollowRequest E wsMessage.Payload s
    else if wsMessage.type = "acceptFollowRequest" then
      onAcceptFollowRequest E wsMessage.Payload s
    else if wsMessage.type = "declineFollowRequest" then
      onDeclineFollowRequest E wsMessage.Payload s
    else if wsMessage.type = "cancelFollowRequest" then
      onCancelFollowRequest E wsMessage.Payload s
    else if wsMessage.type = "followRequestCheck" then
      onFollowRequestCheck E wsMessage.Payload client s
    else if wsMessage.type = "groupJoinRequestCheck" then
      onGroupJoinRequestCheck E wsMessage.Payload client s
    else if wsMessage.type = "acceptGroupJoinRequest" then
      onAcceptGroupJoinRequest E UserID wsMessage.Payload s
    else if wsMessage.type = "declineGroupJoinRequest" then
      onDeclineGroupJoinRequest E wsMessage.Payload s
    else if wsMessage.type = "chatMessage" then onChatMessage E wsMessage.Payload s
    else if wsMessage.type = "joinGroupChat" then onJoinGroupChat E wsMessage.Payload client s
    else if wsMessage.type = "fetchMessages" then
      onFetchMessages E UserID wsMessage.Payload client s
    else Handled.next s

/-- The case labels of the switch of the router. -/
def routerKinds : List String :=
  ["eventInvite", "eInviteResponse", "groupInvite", "gInviteResponse", "followRequest",
   "acceptFollowRequest", "declineFollowRequest", "cancelFollowRequest",
   "followRequestCheck", "groupJoinRequestCheck", "acceptGroupJoinRequest",
   "declineGroupJoinRequest", "chatMessage", "joinGroupChat", "fetchMessages"]

/-- Whether the decoder that the case of a kind applies to the payload accepts
it. -/
def payloadDecodes (J : Json) (kind payload : String) : Bool :=
  if kind = "eventInvite" ∨ kind = "groupInvite" ∨ kind = "followRequestCheck" ∨
      kind = "groupJoinRequestCheck" then (J.unmarshalUserId payload).isSome
  else if kind = "eInviteResponse" then (J.unmarshalEventResponse payload).isSome
  else if kind = "gInviteResponse" then (J.unmarshalGroupResponse payload).isSome
  else if kind = "followRequest" ∨ kind = "cancelFollowRequest" then
    (J.unmarshalTargetRequester payload).isSome
  else if kind = "acceptFollowRequest" ∨ kind = "declineFollowRequest" then
    (J.unmarshalUserFollower payload).isSome
  else if kind = "acceptGroupJoinRequest" ∨ kind = "declineGroupJoinRequest" then
    (J.unmarshalRequestId payload).isSome
  else if kind = "chatMessage" then (J.unmarshalIncoming payload).isSome
  else if kind = "joinGroupChat" then (J.unmarshalGroupIdText payload).isSome
  else if kind = "fetchMessages" then (J.unmarshalFetch payload).isSome
  else true

/-- A private chat message from user 1 to user 2 in room "r1". -/
def msgHi : IncomingMessage :=
  { SenderUserID := 1, ReceiverUserID := 2, RoomID := "r1", Content := "hi",
    Timestamp := "2024-01-01T00:00:00Z", GroupID := 0 }

/-- The store after `msgHi` was saved with message id "u1". -/
def dbOneMessage : DB :=
  { Rooms := [], GroupChatRoom := [],
    Message := [{ MessageID := "u1", SenderUserID := 1, ReceiverUserID := 2,
                  RoomID := "r1", Content := "hi" }] }

/-! ## Liveness constants -/

/-- The duration `time.Second`, in nanoseconds. -/
def second : Int := 1000000000

/-- The constant `pongWait = 60 * time.Second`. -/
def pongWait : Int := 60 * second

/-- The constant `pingPeriod = (pongWait * 9) / 10`, an integer division of
nanosecond counts. -/
def pingPeriod : Int := (pongWait * 9) / 10

/-! ## Session creation, resolution and the periodic sweep -/

/-- The function `GetUserIDBySessionID`: the query
`SELECT UserID FROM Sessions WHERE SessionID = ?` with `QueryRow`, `none` when
it returns an error (a failing query, or no row). The expiry column is not
consulted. -/
def GetUserIDBySessionID (queryFails : Bool) (db : DB) (sessionID : String) : Option Int :=
  if queryFails then none
  else (db.Sessions.find? (fun r => r.SessionID == sessionID)).map SessionRow.UserID

/-- The function `CreateSession`: whether it returned nil, and the store
afterwards. With no row for the user (`sql.ErrNoRows`) a row is inserted;
with a row, `UPDATE Sessions SET SessionID = ?, ExpiresAt = ? WHERE UserID = ?`
rewrites every row of the user; another query error is returned. The
`time.Time` argument `expiration` is given by its instant and the offset of its
zone. -/
def CreateSession (queryFails execFails : Bool) (db : DB) (sessionID : String) (userID : Int)
    (expiration expirationOffset : Int) : Bool × DB :=
  if queryFails then (false, db)
  else
    match db.Sessions.find? (fun r => r.UserID == userID) with
    | none =>
      if execFails then (false, db)
      else
        (true, { db with Sessions := db.Sessions ++
          [{ UserID := userID, SessionID := sessionID, ExpiresAt := expiration,
             ExpiresAtOffset := expirationOffset }] })
    | some _ =>
      if execFails then (false, db)
      else
        (true, { db with Sessions := db.Sessions.map (fun r =>
          if r.UserID == userID then
            { r with SessionID := sessionID, ExpiresAt := expiration,
                     ExpiresAtOffset := expirationOffset }
          else r) })

/-- The function `DeleteSession`: whether it returned nil, and the store after
`DELETE FROM Sessions WHERE SessionID = ?`. -/
def DeleteSession (execFails : Bool) (db : DB) (sessionID : String) : Bool × DB :=
  if execFails then (false, db)
  else (true, { db with Sessions := db.Sessions.filter (fun r => !(r.SessionID == sessionID)) })

/-- The function `cleanupExpiredSessions` with `time.Now()` of instant `now`
in a zone of offset `zone`: the tokens of the rows that
`SELECT SessionID FROM Sessions WHERE ExpiresAt < ?` selects are collected
first, then `DeleteSession` runs for each of them, an error of one deletion
being logged and the loop going on. A failing query ends the function. -/
def cleanupExpiredSessions (queryFails : Bool) (deleteFails : String → Bool) (now zone : Int)
    (db : DB) : DB :=
  if queryFails then db
  else
    let sessionIDs := (db.Sessions.filter (expiredInSql now zone)).map
      SessionRow.SessionID
    sessionIDs.foldl (fun d id => (DeleteSession (deleteFails id) d id).2) db

/-- A request whose four readings of the clock all give the instant `t`, with
the database answering. -/
def authEnvAt (t : Int) : AuthEnv :=
  { sweepAt := t, validateAt := t, extendAt := t, cookieAt := t,
    cleanupFails := false, validateFails := false,
    extendQueryFails := false, extendExecFails := false }

/-! ## Accepting a group join request -/

/-- What one call of `AcceptGroupJoinRequest` meets outside the store: whether
`db.Begin`, the `SELECT` (with an error other than `sql.ErrNoRows`), the
`INSERT`, the `DELETE` or `tx.Commit` fails. -/
structure TxEnv where
  beginFails : Bool
  queryFails : Bool
  insertFails : Bool
  deleteFails : Bool
  commitFails : Bool
deriving DecidableEq, Repr

set_option linter.unusedVariables false in
/-- The function `AcceptGroupJoinRequest`: whether it returned nil, and the
store afterwards. The statements run on the transaction's copy of the store,
which replaces the store at a successful `Commit` and is dropped by `Rollback`
and by a failing `Commit`. The parameter `userId` is not used by the body. -/
def AcceptGroupJoinRequest (env : TxEnv) (db : DB) (requestId : Int) (userId : Int) :
    Bool × DB :=
  if env.beginFails then (false, db)
  else
    let tx := db
    if env.queryFails then (false, db)
    else
      match tx.GroupJoinRequests.find? (fun r => r.RequestId == requestId) with
      | none => (false, db)
      | some row =>
        let groupId := row.GroupId
        let requesterId := row.UserId
        if env.insertFails then (false, db)
        else
          let tx1 : DB := { tx with GroupMembers := tx.GroupMembers ++
            [{ GroupID := groupId, UserID := requesterId, Accepted := true }] }
          if env.deleteFails then (false, db)
          else
            let tx2 : DB := { tx1 with GroupJoinRequests :=
              tx1.GroupJoinRequests.filter (fun r => !(r.RequestId == requestId)) }
            if env.commitFails then (false, db) else (true, tx2)

/-! ## Fetching messages -/

/-- The Go struct `Message` that `FetchMessages` fills, without the fields
`Timestamp`, `Read` and the two nicknames, whose columns are not among those
that `saveMessage` sets. -/
structure Message where
  MessageID : String
  SenderUserID : Int
  ReceiverUserID : Int
  RoomID : String
  Content : String
  SenderFirstName : String
  SenderLastName : String
  ReceiverFirstName : String
  ReceiverLastName : String
deriving DecidableEq, Repr

set_option linter.unusedVariables false in
/-- The function `FetchMessages`: `none` when it returns an error. With a
non-nil `groupID` the rows of `GroupChatMessage` of the room and the group are
joined with the sender's `User` row (the receiver fields keep their zero
values); with a nil `groupID` the rows of `Message` of the room are joined with
the sender's and the receiver's `User` rows. The rows are listed in table
order: `ORDER BY m.Timestamp DESC` is not modelled, and neither is the column
`Read`, which the final `UPDATE` sets for `userID`; only its verdict is. -/
def FetchMessages (env : SqlEnv) (db : DB) (roomID : String) (userID : Int)
    (groupID : Option Int) : Option (List Message) :=
  if env.queryFails then none
  else
    let messages : List Message :=
      match groupID with
      | some g =>
        (db.GroupChatMessage.filter (fun m => m.RoomID == roomID && m.GroupID == g)).flatMap
          (fun m => (db.User.filter (fun s => s.UserID == m.SenderUserID)).map (fun s =>
            { MessageID := m.MessageID, SenderUserID := s.UserID, ReceiverUserID := 0,
              RoomID := m.RoomID, Content := m.Content,
              SenderFirstName := s.FirstName, SenderLastName := s.LastName,
              ReceiverFirstName := "", ReceiverLastName := "" }))
      | none =>
        (db.Message.filter (fun m => m.RoomID == roomID)).flatMap
          (fun m => (db.User.filter (fun s => s.UserID == m.SenderUserID)).flatMap (fun s =>
            (db.User.filter (fun r => r.UserID == m.ReceiverUserID)).map (fun r =>
              { MessageID := m.MessageID, SenderUserID := s.UserID,
                ReceiverUserID := r.UserID, RoomID := m.RoomID, Content := m.Content,
                SenderFirstName := s.FirstName, SenderLastName := s.LastName,
                ReceiverFirstName := r.FirstName, ReceiverLastName := r.LastName })))
    if env.execFails then none else some messages

/-- The field `GroupID int` of `IncomingMessage` after `json.Unmarshal` of a
`chatMessage` payload whose `groupId` member is absent (`none`) or present
with a number: an absent member leaves the zero value. -/
def incomingGroupID (field : Option Int) : Int :=
  match field with
  | none => 0
  | some g => g

/-- The field `GroupID *int` of the `fetchMessages` payload after
`json.Unmarshal`: nil for an absent member, a pointer to the number
otherwise. -/
def fetchGroupID (field : Option Int) : Option Int := field

/-! ## Stream upgrade -/

/-- What one call of `ServeWs` meets outside the session and room tables:
whether the query of `GetUserIDBySessionID` fails; the related user ids that
`GetUserFollowRelations` returns, in the order in which the two `range` loops
visit them (`none` for an error); whether one of `GetFollowRelationships`,
`GetPendingFollowRequests`, `GetUserGroupMemberships` and
`GetUserGroupJoinRequests` returns an error; the surroundings of the
`GetCreateRoom` call for each related user; the verdict of `upgrader.Upgrade`,
with the connection and the address of the `C` that `newClient` allocates; and
`json.Marshal` of the initial data, as a function of the relations with their
room ids (`none` for an error). -/
structure ServeEnv where
  queryFails : Bool
  relations : Option (List Int)
  loadsFail : Bool
  roomEnv : Int → SqlEnv
  upgrade : Option (Nat × WsConn)
  marshal : List (Int × String) → Option String

/-- How a call of `ServeWs` ends: with 401 written, with a plain `return`
before the upgrade, with a failed upgrade, with a `return` after a failed
`json.Marshal` (the client exists and is in its rooms), suspended for good in
`client.send <- initialData` on a full queue, in a panic of that send, or with
the pumps started and the client handed to the hub. -/
inductive ServeOutcome where
  | unauthorized
  | refused
  | upgradeFailed
  | marshalFailed (client : Nat)
  | blocked (client : Nat)
  | panicked (client : Nat)
  | serving (client : Nat)
deriving DecidableEq, Repr

/-- The loop of `ServeWs` over `userRelations`: one `GetCreateRoom` per related
user, a failing call being skipped with `continue`; the relations with their
room ids, and the store afterwards. -/
def createRooms (roomEnv : Int → SqlEnv) (userID : Int) :
    List Int → DB → List (Int × String) × DB
  | [], db => ([], db)
  | relatedUserID :: rest, db =>
    match GetCreateRoom (roomEnv relatedUserID) db userID relatedUserID with
    | (none, db1) => createRooms roomEnv userID rest db1
    | (some roomID, db1) =>
      let r := createRooms roomEnv userID rest db1
      ((relatedUserID, roomID) :: r.1, r.2)

/-- Where `ServeWs` stands after its loop over `updatedRelations`: it has
returned, or the client exists and has been added to the room of every
relation. -/
inductive Joined where
  | stopped (outcome : ServeOutcome) (w : World) (db : DB)
  | joined (client : Nat) (updatedRelations : List (Int × String)) (w : World) (db : DB)

/-- The function `ServeWs` up to and including the loop
`wsServer.addToR(client, relation.RoomID)`. `cookie` is the value of the
`session_id` cookie, `none` when the request has none. -/
def serveWsJoin (env : ServeEnv) (cookie : Option String) (w : World) (db : DB) : Joined :=
  match cookie with
  | none => Joined.stopped ServeOutcome.unauthorized w db
  | some sessionID =>
    match GetUserIDBySessionID env.queryFails db sessionID with
    | none => Joined.stopped ServeOutcome.refused w db
    | some userID =>
      match env.relations with
      | none => Joined.stopped ServeOutcome.refused w db
      | some userRelations =>
        if env.loadsFail then Joined.stopped ServeOutcome.refused w db
        else
          let r := createRooms env.roomEnv userID userRelations db
          match env.upgrade with
          | none => Joined.stopped ServeOutcome.upgradeFailed w r.2
          | some (client, conn) =>
            let w1 : World := { w with heap := Function.update w.heap client (newClient conn) }
            Joined.joined client r.1
              (r.1.foldl (fun w2 relation => addToR w2 client relation.2) w1) r.2

/-- The rest of `ServeWs`: `json.Marshal` of the initial data, the blocking
send `client.send <- initialData`, the start of the three goroutines, and the
hand-over to the hub, which runs `registerClient`. -/
def serveWsSend (env : ServeEnv) (client : Nat) (updatedRelations : List (Int × String))
    (w : World) : ServeOutcome × World :=
  match env.marshal updatedRelations with
  | none => (ServeOutcome.marshalFailed client, w)
  | some initialData =>
    let c := w.heap client
    if c.send.closed then (ServeOutcome.panicked client, w)
    else if c.send.buf.length < sendCap then
      let c1 : C := { c with send := { c.send with buf := c.send.buf ++ [initialData] } }
      let w1 : World := { w with heap := Function.update w.heap client c1 }
      (ServeOutcome.serving client, register w1 client)
    else (ServeOutcome.blocked client, w)

/-- The function `ServeWs`, run without another goroutine stepping in: how it
ends, the hub and the store afterwards. -/
def ServeWs (env : ServeEnv) (cookie : Option String) (w : World) (db : DB) :
    ServeOutcome × World × DB :=
  match serveWsJoin env cookie w db with
  | Joined.stopped outcome w1 db1 => (outcome, w1, db1)
  | Joined.joined client updatedRelations w1 db1 =>
    let r := serveWsSend env client updatedRelations w1
    (r.1, r.2, db1)

/-! ## Sample states -/

/-- A room with two members, the first with a full queue. -/
def roomAB : Room := { ID := "r1", Clients := ⟨[1, 2], by decide⟩ }

/-- A heap in which client 1 has a full outbound queue and every other client
an empty one. -/
def heapFull1 : Heap := fun p =>
  { conn := some { closed := false }, wsServer := true,
    send := { buf := if p = 1 then List.replicate 256 "x" else [], closed := false },
    room := some "r1", sendBuffer := [] }

/-- A connection with 254 queued items and three buffered ones. -/
def clientBacklog : C :=
  { conn := some { closed := false }, wsServer := true,
    send := { buf := List.replicate 254 "x", closed := false },
    room := some "r1", sendBuffer := ["a", "b", "c"] }

/-- A connection with a full outbound queue and one buffered message. -/
def clientStalled : C :=
  { conn := some { closed := false }, wsServer := true,
    send := { buf := List.replicate 256 "x", closed := false },
    room := some "r1", sendBuffer := ["late"] }

/-- The stalled connection after its pump has taken one item out of the queue. -/
def clientFreed : C :=
  { clientStalled with send := { buf := List.replicate 255 "x", closed := false } }

/-- A hub with no room and no connection, every pointer holding a client as
`newClient` builds it. -/
def worldFresh : World :=
  { heap := fun _ => newClient { closed := false }, server := NewWSServer }

/-- Connection 1 after `ServeWs` joined it to the rooms "r1" and then "r2" and
handed it to the hub's register path. -/
def worldTwoRooms : World :=
  register (addToR (addToR worldFresh 1 "r1") 1 "r2") 1

/-- The state in which `disconnect` of connection 1 ends from `worldTwoRooms`. -/
def worldTorn : World :=
  match disconnect 1 worldTwoRooms with
  | Except.ok w => w
  | Except.error w => w

/-- A room whose only member is connection 1. -/
def roomSolo : Room := { ID := "r1", Clients := ⟨[1], by decide⟩ }

/-- Connection 1 with a full outbound queue, an empty overflow buffer and a
running drain goroutine; nothing written yet. -/
def traceFull : Trace := { heap := heapFull1, drainer := Goroutine.running, written := [] }

/-- A run without overtaking: the second broadcast also finds the queue full. -/
def stepsInOrder : List Step :=
  [Step.broadcast "m1", Step.broadcast "m2", Step.dequeue, Step.drainTick]

/-- A run with overtaking: "m1" goes to the overflow buffer, the pump frees two
slots, "m2" goes straight into the queue, then a tick moves "m1" behind it. -/
def stepsOvertake : List Step :=
  [Step.broadcast "m1", Step.dequeue, Step.dequeue, Step.broadcast "m2", Step.drainTick]

/-- The state in which the overtaking run ends. -/
def traceOvertaken : Trace :=
  match run roomSolo 1 stepsOvertake traceFull with
  | Except.ok t => t
  | Except.error t => t

/-- A store with no room. -/
def dbEmpty : DB := { Rooms := [], GroupChatRoom := [] }

/-- A call for which `uuid.New()` gives "u1" and the database answers. -/
def envU1 : SqlEnv := { uuid := "u1", queryFails := false, execFails := false }

/-- A call for which `uuid.New()` gives "u2" and the database answers. -/
def envU2 : SqlEnv := { uuid := "u2", queryFails := false, execFails := false }

/-- The store after the room of users 1 and 2 was created with id "u1". -/
def dbOneRoom : DB :=
  { Rooms := [{ RoomID := "u1", User1ID := 1, User2ID := 2 }], GroupChatRoom := [] }

/-- What holds along a run in which the two calls are never both between their
`SELECT` and their `INSERT`: a pending call has seen no row and there is still
none, a call that returned an id returned the id the lookup finds, and there is
at most one row. -/
def CallInv (select : DB → Option String) (count : DB → Nat)
    (s : CallState × CallState × DB) : Prop :=
  (s.1 = CallState.noRows → select s.2.2 = none) ∧
  (s.2.1 = CallState.noRows → select s.2.2 = none) ∧
  (∀ id, s.1 = CallState.returned (some id) → select s.2.2 = some id) ∧
  (∀ id, s.2.1 = CallState.returned (some id) → select s.2.2 = some id) ∧
  count s.2.2 ≤ 1

/-- A stand-in for `encoding/json` on a handful of frames: the frame "F_ping"
is an envelope of the unhandled type "ping", "F_check" a `followRequestCheck`
for user 3, "F_bad" a `chatMessage` whose payload does not decode, "F_chat" the
chat message `msgHi`; every other text fails to decode. An envelope is encoded
by its type alone. -/
def jsonToy : Json :=
  { unmarshalSock := fun m =>
      if m = "F_ping" then some { type := "ping", Payload := "" }
      else if m = "F_check" then some { type := "followRequestCheck", Payload := "user3" }
      else if m = "F_bad" then some { type := "chatMessage", Payload := "bad" }
      else if m = "F_chat" then some { type := "chatMessage", Payload := "hi" }
      else none
    marshalSock := fun r => some r.type
    marshalFetch := fun r => some r.type
    encodeFollowRequest := fun r => r.FirstName
    unmarshalUserId := fun p => if p = "user3" then some 3 else none
    unmarshalEventResponse := fun _ => none
    unmarshalGroupResponse := fun _ => none
    unmarshalTargetRequester := fun _ => none
    unmarshalUserFollower := fun _ => none
    unmarshalRequestId := fun _ => none
    unmarshalIncoming := fun p => if p = "hi" then some msgHi else none
    unmarshalGroupIdText := fun _ => none
    unmarshalFetch := fun _ => none
    atoi := fun _ => none }

/-- The stand-in with an envelope encoded by its payload alone. -/
def jsonToyPayload : Json :=
  { jsonToy with marshalSock := fun r => some r.Payload }

/-- Persistence functions that find nothing. -/
def answersNone : Answers :=
  { CheckEventInvite := fun _ => some []
    CheckGroupInvites := fun _ => some []
    FetchGroupJoinRequests := fun _ => some []
    FetchMessages := fun _ _ _ => some [] }

/-- The surroundings of a frame, with `jsonToy`. -/
def envToy : RouterEnv := { json := jsonToy, answers := answersNone, sql := envU1 }

/-- The surroundings of a frame, with `jsonToyPayload`. -/
def envToyPayload : RouterEnv :=
  { json := jsonToyPayload, answers := answersNone, sql := envU1 }

/-- The router state with connection 1 in its two rooms, an empty store and no
persistence call made. -/
def sysTwoRooms : Sys := { world := worldTwoRooms, db := dbEmpty, calls := [] }

/-- The chat message `msgHi` with the content `a"b`. -/
def msgQuote : IncomingMessage := { msgHi with Content := "a\"b" }

/-- The text that `chatPayload` puts between a first name and a last name. -/
def betweenNames : String := "\",\n\t\t\t\t\t\"senderLastName\": \""

/-- What a handler that answers on the requesting connection leaves in its
queue: nothing new, or one more item, the encoding of an envelope of the given
type. -/
def Answered (E : RouterEnv) (T : String) (client : Nat) (s s1 : Sys) : Prop :=
  (s1.world.heap client).send.buf = (s.world.heap client).send.buf ∨
  (∃ r : SockMessage, r.type = T ∧
    (s1.world.heap client).send.buf =
      (s.world.heap client).send.buf ++ [(E.json.marshalSock r).getD ""]) ∨
  (∃ r : FetchResponse, r.type = T ∧ ∃ j, E.json.marshalFetch r = some j ∧
    (s1.world.heap client).send.buf = (s.world.heap client).send.buf ++ [j])

/-- The state in which the handling of the frame "F_check" ends from
`sysTwoRooms`, under `envToy`. -/
def sysChecked : Sys :=
  match route envToy 1 "F_check" 1 sysTwoRooms with
  | Handled.next s => s
  | Handled.blocked s => s
  | Handled.panic s => s

/-- A store with the session "old" of user 1 expiring at 5000, the session
"tok" of user 2 expiring at 2000 and the session "gone" of user 3 expired at
500. -/
def dbThreeSessions : DB :=
  { Rooms := [], GroupChatRoom := [],
    Sessions := [{ UserID := 1, SessionID := "old", ExpiresAt := 5000 },
      { UserID := 2, SessionID := "tok", ExpiresAt := 2000 },
      { UserID := 3, SessionID := "gone", ExpiresAt := 500 }] }

/-- A store with the session "t" of user 1 and the session "u" of user 2, both
expiring at 2000. -/
def dbTwoSessions : DB :=
  { Rooms := [], GroupChatRoom := [],
    Sessions := [{ UserID := 1, SessionID := "t", ExpiresAt := 2000 },
      { UserID := 2, SessionID := "u", ExpiresAt := 2000 }] }


/-- A store with the join request 7 of user 3 for group 5, and user 1 already
a member of that group. -/
def dbOneRequest : DB :=
  { Rooms := [], GroupChatRoom := [],
    GroupJoinRequests := [{ RequestId := 7, GroupId := 5, UserId := 3 }],
    GroupMembers := [{ GroupID := 5, UserID := 1, Accepted := true }] }

/-- A call of `AcceptGroupJoinRequest` in which every statement succeeds. -/
def txOk : TxEnv :=
  { beginFails := false, queryFails := false, insertFails := false, deleteFails := false,
    commitFails := false }

/-- A store with the users 1 (Ann Lee) and 2 (Bob Ray) and no message. -/
def dbTwoUsers : DB :=
  { Rooms := [], GroupChatRoom := [],
    User := [{ UserID := 1, FirstName := "Ann", LastName := "Lee" },
      { UserID := 2, FirstName := "Bob", LastName := "Ray" }] }

/-- The router state with connection 1 in its two rooms, the users 1 and 2
stored and no message. -/
def sysUsers : Sys := { world := worldTwoRooms, db := dbTwoUsers, calls := [] }

/-- The state in which the handling of the frame "F_chat" (the message `msgHi`,
whose payload names user 1 as sender) ends from `sysUsers` on a connection that
was upgraded for user 2, an envelope being encoded by its payload alone. -/
def sysChatSaved : Sys :=
  match route envToyPayload 2 "F_chat" 1 sysUsers with
  | Handled.next s => s
  | Handled.blocked s => s
  | Handled.panic s => s

/-- An upgrade request of a user who follows user 2: every statement succeeds,
a new room would get the id "u1", the new client is allocated at address 1
and the initial data is encoded as "snapshot". -/
def serveEnvOk : ServeEnv :=
  { queryFails := false, relations := some [2], loadsFail := false,
    roomEnv := fun _ => envU1, upgrade := some (1, { closed := false }),
    marshal := fun _ => some "snapshot" }

/-- The store with the room "u1" of users 1 and 2 and the session "tok" of
user 1 expiring at 5000. -/
def dbRoomSession : DB :=
  { dbOneRoom with Sessions := [{ UserID := 1, SessionID := "tok", ExpiresAt := 5000 }] }

/-- A hub in which connection 2 is in room "u1" and registered. -/
def worldPeer : World := register (addToR worldFresh 2 "u1") 2

/-- The hub after `ServeWs` has added the new connection 1 to its rooms, from
`worldPeer` and `dbRoomSession`. -/
def worldJoined : World :=
  match serveWsJoin serveEnvOk (some "tok") worldPeer dbRoomSession with
  | Joined.stopped _ w _ => w
  | Joined.joined _ _ w _ => w

/-- The hub `worldJoined` after connection 2 had a chat message broadcast to
room "u1". -/
def worldChatFirst : World :=
  match worldJoined.server.rooms "u1" with
  | none => worldJoined
  | some room =>
    match room.broadcastToClients "chat" worldJoined.heap with
    | Except.ok h => { worldJoined with heap := h }
    | Except.error h => { worldJoined with heap := h }

/-- An instant of 2026-11-04, 13:44:44.73221902 UTC, in nanoseconds since the
Unix epoch. -/
def nowUtc : Int := 1793799884732219020

/-- A store whose only session, of token "z" and user 1, expires 30 minutes
after `nowUtc` and was written by a process in a zone of offset -05:00: the
stored text is "2026-11-04 09:14:44.73221902-05:00". -/
def dbZoneSession : DB :=
  { Rooms := [], GroupChatRoom := [],
    Sessions := [{ UserID := 1, SessionID := "z", ExpiresAt := 1793801684732219020,
                   ExpiresAtOffset := -18000 }] }

/-- The router state with the users 1 and 2 stored, no message, and a hub
without any room. -/
def sysNoRoom : Sys := { world := worldFresh, db := dbTwoUsers, calls := [] }

/-! # Theorems -/

/-! ## Broadcast -/

theorem trySend_open (ch : Chan) (m : String) (h : ch.closed = false) :
    ch.trySend m =
      if ch.buf.length < sendCap then TrySend.sent { ch with buf := ch.buf ++ [m] }
      else TrySend.full := by
  simp [Chan.trySend, h]

/-- With every visited channel open, the loop completes and has run the
`select` once on each visited client and on no other. -/
theorem broadcastLoop_open (message : String) (l : List Nat) :
    ∀ h : Heap, l.Nodup → (∀ p ∈ l, (h p).send.closed = false) →
      broadcastLoop message l h =
        Except.ok (fun p => if p ∈ l then deliver (h p) message else h p) := by
  induction l with
  | nil => intro h _ _; simp [broadcastLoop]
  | cons a l ih =>
    intro h hnd hopen
    have ha : a ∉ l := (List.nodup_cons.mp hnd).1
    have hl : l.Nodup := (List.nodup_cons.mp hnd).2
    have hopa : (h a).send.closed = false := hopen a (List.mem_cons_self a l)
    have key : ∀ c1 : C, c1 = deliver (h a) message →
        broadcastLoop message l (Function.update h a c1) =
          Except.ok (fun p => if p ∈ a :: l then deliver (h p) message else h p) := by
      intro c1 hc1
      rw [ih (Function.update h a c1) hl]
      · congr 1
        funext p
        by_cases hpa : p = a
        · subst hpa
          simp [ha, hc1]
        · simp [hpa, Function.update_noteq hpa]
      · intro p hp
        have hpa : p ≠ a := fun e => ha (e ▸ hp)
        rw [Function.update_noteq hpa]
        exact hopen p (List.mem_cons_of_mem a hp)
    unfold broadcastLoop
    rw [trySend_open _ _ hopa]
    by_cases hlen : (h a).send.buf.length < sendCap
    · simp only [hlen, if_true]
      exact key _ (by simp [deliver, hlen])
    · simp only [hlen, if_false]
      exact key _ (by simp [deliver, hlen])

/-- Whatever way the loop ends, a client that is not visited is untouched. -/
theorem broadcastLoop_frame (message : String) (l : List Nat) :
    ∀ h h1 : Heap, (broadcastLoop message l h = Except.ok h1 ∨
        broadcastLoop message l h = Except.error h1) →
      ∀ p, p ∉ l → h1 p = h p := by
  induction l with
  | nil =>
    intro h h1 hres p _
    simp [broadcastLoop] at hres
    rw [← hres]
  | cons a l ih =>
    intro h h1 hres p hp
    have hpa : p ≠ a := fun e => hp (e ▸ List.mem_cons_self a l)
    have hpl : p ∉ l := fun e => hp (List.mem_cons_of_mem a e)
    unfold broadcastLoop at hres
    cases htry : (h a).send.trySend message with
    | sent ch =>
      rw [htry] at hres
      rw [ih _ h1 hres p hpl, Function.update_noteq hpa]
    | full =>
      rw [htry] at hres
      rw [ih _ h1 hres p hpl, Function.update_noteq hpa]
    | panic =>
      rw [htry] at hres
      simp at hres
      rw [← hres]

/-- C1. For every room, message and member connection, `broadcastToClients`
completes (the outbound channels of the members being open) and has appended
the message to the tail of the member's outbound queue when the queue held
fewer than 256 items, and otherwise to the tail of its overflow buffer with
the queue unchanged; either way the message is held by the member. -/
theorem broadcastToClients_push_or_buffer (room : Room) (message : String) (h : Heap)
    (c : Nat) (hc : c ∈ room.Clients.keys)
    (hopen : ∀ p ∈ room.Clients.keys, (h p).send.closed = false) :
    ∃ h1, room.broadcastToClients message h = Except.ok h1 ∧
      ((h c).send.buf.length < 256 →
        (h1 c).send.buf = (h c).send.buf ++ [message] ∧
        (h1 c).sendBuffer = (h c).sendBuffer) ∧
      (¬ (h c).send.buf.length < 256 →
        (h1 c).sendBuffer = (h c).sendBuffer ++ [message] ∧
        (h1 c).send = (h c).send) ∧
      message ∈ (h1 c).send.buf ++ (h1 c).sendBuffer := by
  refine ⟨_, broadcastLoop_open message room.Clients.keys h room.Clients.nodup hopen, ?_, ?_, ?_⟩
  · intro hlt
    have hlt1 : (h c).send.buf.length < sendCap := hlt
    simp [hc, deliver, hlt1]
  · intro hlt
    have hlt1 : ¬ (h c).send.buf.length < sendCap := hlt
    simp [hc, deliver, hlt1]
  · by_cases hlt : (h c).send.buf.length < sendCap <;> simp [hc, deliver, hlt]

theorem broadcastToClients_push_or_buffer_witness :
    ∃ h1, roomAB.broadcastToClients "hi" heapFull1 = Except.ok h1 ∧
      ((heapFull1 1).send.buf.length < 256 →
        (h1 1).send.buf = (heapFull1 1).send.buf ++ ["hi"] ∧
        (h1 1).sendBuffer = (heapFull1 1).sendBuffer) ∧
      (¬ (heapFull1 1).send.buf.length < 256 →
        (h1 1).sendBuffer = (heapFull1 1).sendBuffer ++ ["hi"] ∧
        (h1 1).send = (heapFull1 1).send) ∧
      "hi" ∈ (h1 1).send.buf ++ (h1 1).sendBuffer :=
  broadcastToClients_push_or_buffer roomAB "hi" heapFull1 1 (by decide)
    (by intro p _; rfl)

/-- C2. For every hub state, room and message, one `broadcastToClients` leaves
every connection that is not a member of the room unchanged, however the call
ends, and (the outbound channels of the members being open) it completes and
raises the number of copies of the message held in the outbound queue followed
by the overflow buffer by exactly one for each member. -/
theorem broadcastToClients_exactly_once (room : Room) (message : String) (h : Heap) :
    (∀ h1, (room.broadcastToClients message h = Except.ok h1 ∨
        room.broadcastToClients message h = Except.error h1) →
      ∀ p, p ∉ room.Clients.keys →
        (h1 p).send = (h p).send ∧ (h1 p).sendBuffer = (h p).sendBuffer) ∧
    ((∀ p ∈ room.Clients.keys, (h p).send.closed = false) →
      ∃ h1, room.broadcastToClients message h = Except.ok h1 ∧
        ∀ p ∈ room.Clients.keys,
          ((h1 p).send.buf ++ (h1 p).sendBuffer).count message =
            ((h p).send.buf ++ (h p).sendBuffer).count message + 1) := by
  constructor
  · intro h1 hres p hp
    rw [broadcastLoop_frame message room.Clients.keys h h1 hres p hp]
    exact ⟨rfl, rfl⟩
  · intro hopen
    refine ⟨_, broadcastLoop_open message room.Clients.keys h room.Clients.nodup hopen, ?_⟩
    intro p hp
    by_cases hlt : (h p).send.buf.length < sendCap
    · simp [hp, deliver, hlt, List.count_append]
      omega
    · simp [hp, deliver, hlt, List.count_append]
      omega

theorem broadcastToClients_exactly_once_witness :
    ∃ h1, roomAB.broadcastToClients "hi" heapFull1 = Except.ok h1 ∧
      ∀ p ∈ roomAB.Clients.keys,
        ((h1 p).send.buf ++ (h1 p).sendBuffer).count "hi" =
          ((heapFull1 p).send.buf ++ (heapFull1 p).sendBuffer).count "hi" + 1 :=
  (broadcastToClients_exactly_once roomAB "hi" heapFull1).2 (by intro p _; rfl)

/-! ## Overflow drain -/

/-- On an open channel the inner loop moves the longest leading part of the
overflow slice that fits, and stops by `return` iff something is left. -/
theorem drainLoop_open (b : List String) :
    ∀ ch : Chan, ch.closed = false →
      drainLoop ch b =
        (if b.length ≤ sendCap - ch.buf.length then DrainExit.emptied else DrainExit.full,
          { ch with buf := ch.buf ++ b.take (min b.length (sendCap - ch.buf.length)) },
          b.drop (min b.length (sendCap - ch.buf.length))) := by
  induction b with
  | nil => intro ch _; simp [drainLoop]
  | cons m rest ih =>
    intro ch hopen
    unfold drainLoop
    rw [trySend_open _ _ hopen]
    by_cases hlt : ch.buf.length < sendCap
    · simp only [hlt, if_true]
      rw [ih { ch with buf := ch.buf ++ [m] } hopen]
      have e1 : sendCap - (ch.buf ++ [m]).length = sendCap - ch.buf.length - 1 := by
        simp; omega
      have e2 : min (m :: rest).length (sendCap - ch.buf.length) =
          min rest.length (sendCap - ch.buf.length - 1) + 1 := by
        simp only [List.length_cons]; omega
      rw [e1, e2]
      have e3 : (rest.length ≤ sendCap - ch.buf.length - 1) ↔
          ((m :: rest).length ≤ sendCap - ch.buf.length) := by
        simp only [List.length_cons]; omega
      simp [e3]
    · simp only [hlt, if_false]
      have e1 : sendCap - ch.buf.length = 0 := by omega
      simp [e1]

/-- C4. For every connection with outbound queue q (not closed) and overflow
buffer b, one drain pass of `handleBufferedMessages` moves exactly the first
k = min(len b, 256 - len q) items of b to the tail of q in their order, leaves
the other items of b in their order, and q followed by b is the same sequence
before and after. -/
theorem drainPass_moves_head (c : C) (hopen : c.send.closed = false) :
    (drainPass c).1 ≠ DrainExit.panic ∧
    (drainPass c).2.send.buf =
      c.send.buf ++ c.sendBuffer.take (min c.sendBuffer.length (256 - c.send.buf.length)) ∧
    (drainPass c).2.sendBuffer =
      c.sendBuffer.drop (min c.sendBuffer.length (256 - c.send.buf.length)) ∧
    (drainPass c).2.send.buf ++ (drainPass c).2.sendBuffer = c.send.buf ++ c.sendBuffer := by
  have h := drainLoop_open c.sendBuffer c.send hopen
  have hcap : sendCap = 256 := rfl
  rw [hcap] at h
  refine ⟨?_, ?_, ?_, ?_⟩
  · simp only [drainPass, h]
    split <;> simp
  · simp [drainPass, h]
  · simp [drainPass, h]
  · simp [drainPass, h, List.append_assoc]

theorem drainPass_moves_head_witness :
    (drainPass clientBacklog).1 ≠ DrainExit.panic ∧
    (drainPass clientBacklog).2.send.buf =
      clientBacklog.send.buf ++ clientBacklog.sendBuffer.take
        (min clientBacklog.sendBuffer.length (256 - clientBacklog.send.buf.length)) ∧
    (drainPass clientBacklog).2.sendBuffer =
      clientBacklog.sendBuffer.drop
        (min clientBacklog.sendBuffer.length (256 - clientBacklog.send.buf.length)) ∧
    (drainPass clientBacklog).2.send.buf ++ (drainPass clientBacklog).2.sendBuffer =
      clientBacklog.send.buf ++ clientBacklog.sendBuffer :=
  drainPass_moves_head clientBacklog rfl

/-- A drain pass that stops because the queue is full ends the goroutine, and
no tick after that changes the connection. -/
theorem handleBufferedMessages_full_returns (c : C) (hfull : (drainPass c).1 = DrainExit.full) :
    (handleBufferedMessages Goroutine.running c).1 = Goroutine.returned ∧
    ∀ c2 : C, handleBufferedMessages Goroutine.returned c2 = (Goroutine.returned, c2) := by
  constructor
  · unfold handleBufferedMessages
    generalize hd : drainPass c = r at hfull ⊢
    obtain ⟨e, c1⟩ := r
    simp at hfull
    subst hfull
    rfl
  · intro c2; rfl

/-- C5, evaluated. A tick finds the queue full and ends the goroutine; the pump
then takes one item out of the queue; the next tick moves nothing, so the
buffered message stays in the overflow buffer although the queue has room,
where one more drain pass would have moved it. -/
theorem handleBufferedMessages_stops_for_good :
    handleBufferedMessages Goroutine.running clientStalled =
      (Goroutine.returned, clientStalled) ∧
    clientStalled.send.recv = some ("x", clientFreed.send) ∧
    clientFreed.send.buf.length < 256 ∧
    handleBufferedMessages Goroutine.returned clientFreed = (Goroutine.returned, clientFreed) ∧
    clientFreed.sendBuffer = ["late"] ∧
    (drainPass clientFreed).2.sendBuffer = [] := by
  have hs : clientStalled.send.buf.length = 256 := List.length_replicate 256 "x"
  have hf : clientFreed.send.buf.length = 255 := List.length_replicate 255 "x"
  refine ⟨?_, rfl, ?_, rfl, rfl, ?_⟩
  · have h := drainLoop_open clientStalled.sendBuffer clientStalled.send rfl
    rw [hs] at h
    have hb : clientStalled.sendBuffer = ["late"] := rfl
    have hc : sendCap - 256 = 0 := rfl
    simp only [hb, hc] at h
    simp only [handleBufferedMessages, drainPass, hb, h]
    simp
    rfl
  · rw [hf]; decide
  · have h := drainLoop_open clientFreed.sendBuffer clientFreed.send rfl
    rw [hf] at h
    have hb : clientFreed.sendBuffer = ["late"] := rfl
    have hc : sendCap - 255 = 1 := rfl
    simp only [hb, hc] at h
    simp only [drainPass, hb, h]
    simp

/-! ## Teardown -/

theorem delete_keys_not_mem (s : PtrSet) (p : Nat) : p ∉ (s.delete p).keys := by
  simp [PtrSet.delete]

theorem delete_of_not_mem (s : PtrSet) (p : Nat) (h : p ∉ s.keys) : s.delete p = s := by
  cases s with
  | mk keys nodup =>
    simp only [PtrSet.delete, PtrSet.mk.injEq]
    apply List.filter_eq_self.mpr
    intro a ha
    simp only [bne_iff_ne, ne_eq]
    intro e
    exact h (e ▸ ha)

theorem unregisterClient_not_mem (server : WSServer) (client : Nat) :
    client ∉ (server.unregisterClient client).clients.keys := by
  unfold WSServer.unregisterClient
  split
  · exact delete_keys_not_mem _ _
  · assumption

theorem unregisterClient_rooms (server : WSServer) (client : Nat) :
    (server.unregisterClient client).rooms = server.rooms := by
  unfold WSServer.unregisterClient
  split <;> rfl

/-- Leaving a room a second time changes nothing. -/
theorem leaveRoom_idem (server : WSServer) (client : Nat) (room : Option String) :
    leaveRoom (leaveRoom server client room) client room = leaveRoom server client room := by
  cases room with
  | none => rfl
  | some rid =>
    simp only [leaveRoom]
    cases hr : server.rooms rid with
    | none => simp [hr]
    | some r =>
      simp only [Function.update_same]
      have e : (r.Clients.delete client).delete client = r.Clients.delete client :=
        delete_of_not_mem _ _ (delete_keys_not_mem _ _)
      simp [e]

/-- A completed `disconnect` has closed the outbound channel, removed the
client from the hub's connection set (when its hub pointer is set) and from
the room of its back pointer, and has left every other room as it was. -/
theorem disconnect_effect (client : Nat) (w w1 : World)
    (h : disconnect client w = Except.ok w1) :
    (w1.heap client).send.closed = true ∧
    ((w.heap client).wsServer = true → client ∉ w1.server.clients.keys) ∧
    (∀ r, (w.heap client).room = some r →
      ∀ room, w1.server.rooms r = some room → client ∉ room.Clients.keys) ∧
    (∀ r, (w.heap client).room ≠ some r → w1.server.rooms r = w.server.rooms r) := by
  unfold disconnect at h
  cases hc : (w.heap client).send.close with
  | none => simp [hc] at h
  | some ch =>
    simp only [hc] at h
    injection h with h
    subst h
    have hch : ch.closed = true := by
      unfold Chan.close at hc
      split at hc
      · simp at hc
      · injection hc with hc; subst hc; rfl
    refine ⟨by simp [hch], ?_, ?_, ?_⟩
    · intro hs
      simp only [hs, if_true]
      exact unregisterClient_not_mem _ _
    · intro r hr room hroom
      have hrooms : (if (w.heap client).wsServer = true then
          (leaveRoom w.server client (w.heap client).room).unregisterClient client
          else leaveRoom w.server client (w.heap client).room).rooms =
          (leaveRoom w.server client (w.heap client).room).rooms := by
        split
        · exact unregisterClient_rooms _ _
        · rfl
      change (if (w.heap client).wsServer = true then
          (leaveRoom w.server client (w.heap client).room).unregisterClient client
          else leaveRoom w.server client (w.heap client).room).rooms r = some room at hroom
      rw [hrooms] at hroom
      simp only [hr, leaveRoom] at hroom
      cases hwr : w.server.rooms r with
      | none => simp [hwr] at hroom
      | some r0 =>
        simp only [hwr, Function.update_same, Option.some.injEq] at hroom
        subst hroom
        exact delete_keys_not_mem _ _
    · intro r hr
      have hrooms : (if (w.heap client).wsServer = true then
          (leaveRoom w.server client (w.heap client).room).unregisterClient client
          else leaveRoom w.server client (w.heap client).room).rooms =
          (leaveRoom w.server client (w.heap client).room).rooms := by
        split
        · exact unregisterClient_rooms _ _
        · rfl
      change (if (w.heap client).wsServer = true then
          (leaveRoom w.server client (w.heap client).room).unregisterClient client
          else leaveRoom w.server client (w.heap client).room).rooms r = w.server.rooms r
      rw [hrooms]
      cases hroom : (w.heap client).room with
      | none => rfl
      | some rid =>
        have hne : r ≠ rid := fun e => hr (by rw [hroom, e])
        simp only [leaveRoom]
        cases hwr : w.server.rooms rid with
        | none => rfl
        | some r0 => simp [Function.update_noteq hne]

theorem WSServer.ext_fields (s t : WSServer) (h1 : s.clients = t.clients)
    (h2 : s.rooms = t.rooms) : s = t := by
  cases s; cases t; simp at h1 h2; simp [h1, h2]

theorem leaveRoom_clients (server : WSServer) (client : Nat) (room : Option String) :
    (leaveRoom server client room).clients = server.clients := by
  cases room with
  | none => rfl
  | some rid =>
    simp only [leaveRoom]
    cases server.rooms rid <;> rfl

theorem leaveRoom_rooms_congr (s t : WSServer) (client : Nat) (room : Option String)
    (h : s.rooms = t.rooms) :
    (leaveRoom s client room).rooms = (leaveRoom t client room).rooms := by
  cases room with
  | none => exact h
  | some rid =>
    simp only [leaveRoom, h]
    cases t.rooms rid <;> simp [h]

theorem unregisterClient_idem (server : WSServer) (client : Nat) :
    (server.unregisterClient client).unregisterClient client =
      server.unregisterClient client := by
  have h := unregisterClient_not_mem server client
  generalize server.unregisterClient client = s at h
  simp [WSServer.unregisterClient, h]

theorem unregisterClient_clients_congr (s t : WSServer) (client : Nat)
    (h : s.clients = t.clients) :
    (s.unregisterClient client).clients = (t.unregisterClient client).clients := by
  unfold WSServer.unregisterClient
  rw [h]
  split
  · rfl
  · exact h

/-- The hub part of `disconnect` (leave the room of the back pointer, then
unregister) changes nothing when it is run a second time. -/
theorem teardown_hub_idem (server : WSServer) (client : Nat) (room : Option String)
    (b : Bool) :
    (if b = true then
        (leaveRoom (if b = true then (leaveRoom server client room).unregisterClient client
          else leaveRoom server client room) client room).unregisterClient client
      else leaveRoom (if b = true then (leaveRoom server client room).unregisterClient client
          else leaveRoom server client room) client room) =
      (if b = true then (leaveRoom server client room).unregisterClient client
        else leaveRoom server client room) := by
  cases b with
  | false => simp [leaveRoom_idem]
  | true =>
    simp only [if_true]
    apply WSServer.ext_fields
    · rw [unregisterClient_clients_congr _ ((leaveRoom server client room).unregisterClient client)
        client (leaveRoom_clients _ _ _)]
      rw [unregisterClient_idem]
    · rw [unregisterClient_rooms, unregisterClient_rooms]
      rw [leaveRoom_rooms_congr _ (leaveRoom server client room) client room
        (unregisterClient_rooms _ _)]
      rw [leaveRoom_idem]

/-- Once `disconnect` has completed, a second `disconnect` of the same client
panics on `close(client.send)`, in the very state the first one left. -/
theorem disconnect_again_panics (client : Nat) (w w1 : World)
    (h : disconnect client w = Except.ok w1) :
    disconnect client w1 = Except.error w1 := by
  unfold disconnect at h
  cases hc : (w.heap client).send.close with
  | none => simp [hc] at h
  | some ch =>
    simp only [hc] at h
    injection h with h
    subst h
    have hch : ch.closed = true := by
      unfold Chan.close at hc
      split at hc
      · simp at hc
      · injection hc with hc; subst hc; rfl
    unfold disconnect
    simp only [Function.update_same, Chan.close, hch, if_true]
    rw [teardown_hub_idem]

/-- C6, evaluated. Connection 1 joined "r1" and then "r2" and was registered;
after `disconnect` it is out of the hub's connection set and out of "r2", its
outbound queue is closed, and it is still a member of "r1". -/
theorem disconnect_leaves_earlier_room :
    disconnect 1 worldTwoRooms = Except.ok worldTorn ∧
    (worldTorn.heap 1).send.closed = true ∧
    1 ∉ worldTorn.server.clients.keys ∧
    (∃ room, worldTorn.server.rooms "r2" = some room ∧ 1 ∉ room.Clients.keys) ∧
    (∃ room, worldTorn.server.rooms "r1" = some room ∧ 1 ∈ room.Clients.keys) := by
  refine ⟨rfl, rfl, by decide, ⟨_, rfl, by decide⟩, ⟨_, rfl, by decide⟩⟩

/-- C7, evaluated. The first `disconnect` of connection 1 completes; the second
one does not complete: it panics on closing the closed outbound queue, with
the hub, the rooms and the connection as the first one left them. -/
theorem disconnect_twice_panics :
    disconnect 1 worldTwoRooms = Except.ok worldTorn ∧
    disconnect 1 worldTorn = Except.error worldTorn :=
  ⟨rfl, disconnect_again_panics 1 worldTwoRooms worldTorn rfl⟩

/-! ## Inbound pump -/

/-- C8, evaluated. Whatever the handlers do, when the read of connection 1
fails `readPump` returns with the hub state untouched: the connection is still
in the hub's connection set and still a member of its rooms, and its outbound
queue is not closed. -/
theorem readPump_error_leaves_connection
    (dispatch : String → Nat → World → Handled World) (rest : List ReadResult) :
    readPump dispatch 1 (ReadResult.err :: rest) worldTwoRooms = (worldTwoRooms, true) ∧
    1 ∈ worldTwoRooms.server.clients.keys ∧
    (∃ room, worldTwoRooms.server.rooms "r1" = some room ∧ 1 ∈ room.Clients.keys) ∧
    (∃ room, worldTwoRooms.server.rooms "r2" = some room ∧ 1 ∈ room.Clients.keys) ∧
    (worldTwoRooms.heap 1).send.closed = false := by
  refine ⟨rfl, by decide, ⟨_, rfl, by decide⟩, ⟨_, rfl, by decide⟩, rfl⟩

/-! ## Order of delivery -/

theorem deliver_closed (c : C) (message : String) :
    (deliver c message).send.closed = c.send.closed := by
  unfold deliver
  split <;> rfl

/-- A tick of the drain goroutine on an open channel moves some leading part
of the overflow slice to the tail of the channel and does not panic. -/
theorem handleBufferedMessages_open (g : Goroutine) (c : C) (hopen : c.send.closed = false) :
    ∃ k, (handleBufferedMessages g c).2 =
        { c with send := { c.send with buf := c.send.buf ++ c.sendBuffer.take k },
                 sendBuffer := c.sendBuffer.drop k } ∧
      ((handleBufferedMessages g c).1 = Goroutine.panicked → g = Goroutine.panicked) := by
  cases g with
  | running =>
    refine ⟨min c.sendBuffer.length (sendCap - c.send.buf.length), ?_⟩
    by_cases hle : c.sendBuffer.length ≤ sendCap - c.send.buf.length
    · simp [handleBufferedMessages, drainPass, drainLoop_open c.sendBuffer c.send hopen, hle]
    · simp [handleBufferedMessages, drainPass, drainLoop_open c.sendBuffer c.send hopen, hle]
  | returned => exact ⟨0, by simp [handleBufferedMessages], by simp [handleBufferedMessages]⟩
  | panicked => exact ⟨0, by simp [handleBufferedMessages], by simp [handleBufferedMessages]⟩

/-- One step from a state in which the channels of the members are open: the
step completes, the channels stay open, and, unless the step is a broadcast
that overtakes a waiting message, what has entered the channel followed by
what waits in the overflow slice grows by the message of the step, if any. -/
theorem step_spec (room : Room) (client : Nat) (s : Step) (t : Trace)
    (hc : client ∈ room.Clients.keys)
    (hopen : ∀ p ∈ room.Clients.keys, (t.heap p).send.closed = false)
    (hno : ∀ m, s = Step.broadcast m →
      (t.heap client).sendBuffer = [] ∨ sendCap ≤ (t.heap client).send.buf.length) :
    ∃ t1, step room client s t = Except.ok t1 ∧
      (∀ p ∈ room.Clients.keys, (t1.heap p).send.closed = false) ∧
      ∃ E, t1.written ++ (t1.heap client).send.buf =
          t.written ++ (t.heap client).send.buf ++ E ∧
        E ++ (t1.heap client).sendBuffer =
          (t.heap client).sendBuffer ++ broadcasts [s] := by
  cases s with
  | broadcast message =>
    have hb := broadcastLoop_open message room.Clients.keys t.heap room.Clients.nodup hopen
    refine ⟨{ t with heap := fun p =>
        if p ∈ room.Clients.keys then deliver (t.heap p) message else t.heap p }, ?_, ?_, ?_⟩
    · simp only [step, Room.broadcastToClients, hb]
    · intro p hp
      simp only [hp, if_true, deliver_closed]
      exact hopen p hp
    · simp only [hc, if_true, broadcasts]
      rcases hno message rfl with hnil | hfull
      · by_cases hlt : (t.heap client).send.buf.length < sendCap
        · exact ⟨[message], by simp [deliver, hlt, hnil]⟩
        · exact ⟨[], by simp [deliver, hlt, hnil]⟩
      · have hlt : ¬ (t.heap client).send.buf.length < sendCap := by omega
        exact ⟨[], by simp [deliver, hlt]⟩
  | dequeue =>
    cases hq : (t.heap client).send.buf with
    | nil =>
      refine ⟨t, by simp [step, Chan.recv, hq], hopen, [], by simp [hq], by simp [broadcasts]⟩
    | cons m rest =>
      refine ⟨{ t with
        heap := Function.update t.heap client
          { t.heap client with send := { (t.heap client).send with buf := rest } }
        written := t.written ++ [m] }, by simp [step, Chan.recv, hq], ?_, [], ?_, ?_⟩
      · intro p hp
        by_cases hpc : p = client
        · subst hpc; simp; exact hopen p hp
        · simp [Function.update_noteq hpc]; exact hopen p hp
      · simp
      · simp [broadcasts]
  | drainTick =>
    obtain ⟨k, hk, hpan⟩ :=
      handleBufferedMessages_open t.drainer (t.heap client) (hopen client hc)
    refine ⟨{ t with
        heap := Function.update t.heap client (handleBufferedMessages t.drainer (t.heap client)).2
        drainer := (handleBufferedMessages t.drainer (t.heap client)).1 }, ?_, ?_,
      (t.heap client).sendBuffer.take k, ?_, ?_⟩
    · simp only [step]
      rw [if_neg]
      rintro ⟨h1, h2⟩
      rw [hpan h1] at h2
      exact Goroutine.noConfusion h2
    · intro p hp
      by_cases hpc : p = client
      · subst hpc; simp [hk]; exact hopen p hp
      · simp [Function.update_noteq hpc]; exact hopen p hp
    · simp [hk]
    · simp [hk, broadcasts]

theorem broadcasts_cons (s : Step) (rest : List Step) :
    broadcasts (s :: rest) = broadcasts [s] ++ broadcasts rest := by
  cases s <;> simp [broadcasts]

/-- C3, amended. For every member connection of a room whose members have open
outbound channels, and every sequence of broadcasts to the room, receives by
the member's outbound pump and drain ticks in which no broadcast pushes into
the queue while a message waits in the overflow buffer, the run completes and
the messages enter the outbound queue in broadcast order: what has entered the
queue, followed by what still waits in the overflow buffer, is what waited at
the start followed by the broadcast messages in invocation order. -/
theorem broadcast_order_without_overtake (room : Room) (client : Nat) (steps : List Step) :
    ∀ t : Trace, client ∈ room.Clients.keys →
      (∀ p ∈ room.Clients.keys, (t.heap p).send.closed = false) →
      noOvertake room client steps t = true →
      ∃ t1, run room client steps t = Except.ok t1 ∧
        ∃ E, t1.written ++ (t1.heap client).send.buf =
            t.written ++ (t.heap client).send.buf ++ E ∧
          E ++ (t1.heap client).sendBuffer =
            (t.heap client).sendBuffer ++ broadcasts steps := by
  induction steps with
  | nil =>
    intro t _ _ _
    exact ⟨t, rfl, [], by simp, by simp [broadcasts]⟩
  | cons s rest ih =>
    intro t hc hopen hno
    simp only [noOvertake, Bool.and_eq_true] at hno
    obtain ⟨hno1, hno2⟩ := hno
    have hs : ∀ m, s = Step.broadcast m →
        (t.heap client).sendBuffer = [] ∨ sendCap ≤ (t.heap client).send.buf.length := by
      intro m hm
      subst hm
      simpa using hno1
    obtain ⟨t1, hstep, hopen1, E1, hE1, hB1⟩ := step_spec room client s t hc hopen hs
    rw [hstep] at hno2
    obtain ⟨t2, hrun, E2, hE2, hB2⟩ := ih t1 hc hopen1 hno2
    refine ⟨t2, by simp only [run, hstep, hrun], E1 ++ E2, ?_, ?_⟩
    · rw [hE2, hE1]; simp [List.append_assoc]
    · rw [List.append_assoc, hB2, ← List.append_assoc, hB1, broadcasts_cons s rest,
        List.append_assoc]

set_option maxRecDepth 100000 in
theorem broadcast_order_without_overtake_witness :
    ∃ t1, run roomSolo 1 stepsInOrder traceFull = Except.ok t1 ∧
      ∃ E, t1.written ++ (t1.heap 1).send.buf =
          traceFull.written ++ (traceFull.heap 1).send.buf ++ E ∧
        E ++ (t1.heap 1).sendBuffer =
          (traceFull.heap 1).sendBuffer ++ broadcasts stepsInOrder :=
  broadcast_order_without_overtake roomSolo 1 stepsInOrder traceFull (by decide)
    (by intro p _; rfl) (by decide)

set_option maxRecDepth 100000 in
theorem run_stepsOvertake :
    run roomSolo 1 stepsOvertake traceFull = Except.ok traceOvertaken ∧
    traceOvertaken.written ++ (traceOvertaken.heap 1).send.buf =
      traceFull.written ++ (traceFull.heap 1).send.buf ++ ["m2", "m1"] := by
  constructor
  · rfl
  · decide

/-- C3, refuted as stated. Connection 1 is the member of a room, its queue is
full and its overflow buffer empty; after the broadcasts of "m1" and "m2" with
two receives in between and a drain tick, "m2" has entered the outbound queue
before "m1": what entered the queue is not in broadcast order. -/
theorem broadcast_order_overtaken :
    ¬ ∀ (room : Room) (client : Nat) (steps : List Step) (t t1 : Trace),
      client ∈ room.Clients.keys →
      (∀ p ∈ room.Clients.keys, (t.heap p).send.closed = false) →
      (t.heap client).sendBuffer = [] →
      run room client steps t = Except.ok t1 →
      ∃ E, t1.written ++ (t1.heap client).send.buf =
          t.written ++ (t.heap client).send.buf ++ E ∧
        E.Sublist (broadcasts steps) := by
  intro H
  obtain ⟨E, hE, hsub⟩ := H roomSolo 1 stepsOvertake traceFull traceOvertaken (by decide)
    (by intro p _; rfl) rfl run_stepsOvertake.1
  rw [run_stepsOvertake.2] at hE
  have hEq : E = ["m2", "m1"] := (List.append_cancel_left hE).symm
  subst hEq
  revert hsub
  decide

/-! ## Durable room store -/

theorem selectRoom_comm (db : DB) (a b : Int) : selectRoom db b a = selectRoom db a b := by
  unfold selectRoom
  congr 2
  funext r
  exact Bool.or_comm _ _

/-- The lookup a successful `GetCreateRoom` leaves behind finds the returned id. -/
theorem selectRoom_after_GetCreateRoom (env : SqlEnv) (db db1 : DB) (a b : Int) (id : String)
    (h : GetCreateRoom env db a b = (some id, db1)) : selectRoom db1 a b = some id := by
  unfold GetCreateRoom at h
  cases hq : env.queryFails with
  | true => simp [hq] at h
  | false =>
    simp only [hq, Bool.false_eq_true, if_false] at h
    cases hs : selectRoom db a b with
    | some r =>
      simp only [hs, Prod.mk.injEq, Option.some.injEq] at h
      rw [← h.1, ← h.2, hs]
    | none =>
      simp only [hs] at h
      cases he : env.execFails with
      | true => simp [he] at h
      | false =>
        simp only [he, Bool.false_eq_true, if_false, Prod.mk.injEq, Option.some.injEq] at h
        obtain ⟨hid, hdb⟩ := h
        subst hdb
        unfold selectRoom at hs ⊢
        simp only [Option.map_eq_none'] at hs
        simp [List.find?_append, hs, List.find?, hid]

/-- When the lookup finds a row, `GetCreateRoom` returns its id (unless the
query itself fails) and leaves the store as it is. -/
theorem GetCreateRoom_of_found (env : SqlEnv) (db : DB) (a b : Int) (id : String)
    (h : selectRoom db a b = some id) :
    (GetCreateRoom env db a b).2 = db ∧
    (env.queryFails = false → (GetCreateRoom env db a b).1 = some id) := by
  unfold GetCreateRoom
  by_cases hq : env.queryFails = true
  · simp [hq]
  · simp [hq, h]

/-- C9. For every room store and every two user ids a and b, if
`GetCreateRoom(a, b)` succeeds then a following `GetCreateRoom(a, b)` or
`GetCreateRoom(b, a)` inserts no row into Rooms and, its query not failing,
returns the same room id. -/
theorem GetCreateRoom_idempotent (env1 env2 : SqlEnv) (db db1 : DB) (a b : Int) (id : String)
    (h : GetCreateRoom env1 db a b = (some id, db1)) :
    (GetCreateRoom env2 db1 a b).2 = db1 ∧
    (GetCreateRoom env2 db1 b a).2 = db1 ∧
    (env2.queryFails = false →
      (GetCreateRoom env2 db1 a b).1 = some id ∧
      (GetCreateRoom env2 db1 b a).1 = some id) := by
  have hs := selectRoom_after_GetCreateRoom env1 db db1 a b id h
  have hs2 : selectRoom db1 b a = some id := by rw [selectRoom_comm]; exact hs
  have h1 := GetCreateRoom_of_found env2 db1 a b id hs
  have h2 := GetCreateRoom_of_found env2 db1 b a id hs2
  exact ⟨h1.1, h2.1, fun hq => ⟨h1.2 hq, h2.2 hq⟩⟩

theorem GetCreateRoom_idempotent_witness :
    (GetCreateRoom envU2 dbOneRoom 1 2).2 = dbOneRoom ∧
    (GetCreateRoom envU2 dbOneRoom 2 1).2 = dbOneRoom ∧
    (envU2.queryFails = false →
      (GetCreateRoom envU2 dbOneRoom 1 2).1 = some "u1" ∧
      (GetCreateRoom envU2 dbOneRoom 2 1).1 = some "u1") :=
  GetCreateRoom_idempotent envU1 envU2 dbEmpty dbOneRoom 1 2 "u1" (by decide)

/-- C10, refuted as stated. With no room row for users 1 and 2, one run creates
the id "u1" and another run on the same participants and the same store
creates "u2": the created id is not determined by the participants. -/
theorem created_room_id_not_from_participants :
    ¬ ∀ (env1 env2 : SqlEnv) (db1 db2 : DB) (a b : Int) (id1 id2 : String),
      selectRoom db1 a b = none → selectRoom db2 a b = none →
      (GetCreateRoom env1 db1 a b).1 = some id1 →
      (GetCreateRoom env2 db2 a b).1 = some id2 → id1 = id2 := by
  intro H
  have h := H envU1 envU2 dbEmpty dbEmpty 1 2 "u1" "u2" (by decide) (by decide)
    (by decide) (by decide)
  revert h
  decide

/-- C10, amended. For every pair of user ids (or group id) with no existing
room row, the id that `GetCreateRoom` (or `GetCreateGrChatRoom`) creates is the
fresh UUID of the call, whatever the participants and the store contents; and
once a row is stored, a run on the same participants returns the stored id
whatever the fresh UUID of the call. -/
theorem room_id_is_fresh_uuid_then_stored (env : SqlEnv) (db : DB) (a b g : Int) :
    (selectRoom db a b = none → env.queryFails = false → env.execFails = false →
      (GetCreateRoom env db a b).1 = some env.uuid) ∧
    (selectGroupRoom db g = none → env.queryFails = false → env.execFails = false →
      (GetCreateGrChatRoom env db g).1 = some env.uuid) ∧
    (∀ id, selectRoom db a b = some id → env.queryFails = false →
      (GetCreateRoom env db a b).1 = some id) ∧
    (∀ id, selectGroupRoom db g = some id → env.queryFails = false →
      (GetCreateGrChatRoom env db g).1 = some id) := by
  refine ⟨?_, ?_, ?_, ?_⟩
  · intro hs hq he
    simp [GetCreateRoom, hs, hq, he]
  · intro hs hq he
    simp [GetCreateGrChatRoom, hs, hq, he]
  · intro id hs hq
    simp [GetCreateRoom, hs, hq]
  · intro id hs hq
    simp [GetCreateGrChatRoom, hs, hq]

theorem room_id_is_fresh_uuid_then_stored_witness :
    (GetCreateRoom envU2 dbEmpty 1 2).1 = some envU2.uuid ∧
    (GetCreateGrChatRoom envU2 dbEmpty 7).1 = some envU2.uuid ∧
    (GetCreateRoom envU2 dbOneRoom 1 2).1 = some "u1" :=
  ⟨(room_id_is_fresh_uuid_then_stored envU2 dbEmpty 1 2 7).1 (by decide) rfl rfl,
    (room_id_is_fresh_uuid_then_stored envU2 dbEmpty 1 2 7).2.1 (by decide) rfl rfl,
    (room_id_is_fresh_uuid_then_stored envU2 dbOneRoom 1 2 7).2.2.1 "u1" (by decide) rfl⟩

/-! ## Outbound pump: batching -/

theorem batchLoop_all (q : List String) :
    ∀ acc : String, batchLoop acc q.length q = (String.intercalate.go acc "\n" q, []) := by
  induction q with
  | nil => intro acc; simp [batchLoop, String.intercalate.go]
  | cons m q ih =>
    intro acc
    simp only [List.length_cons, batchLoop, String.intercalate.go]
    exact ih _

/-- C19. When the outbound pump takes an item from a queue that holds
m1, ..., mk (k at least 1) and the stream accepts the writes, it writes a single
text frame equal to m1, newline, m2, ..., newline, mk in queue order, leaves
the queue empty and goes on; when its receive finds the queue closed (closed
and holding nothing) it writes a close message and returns. -/
theorem writePump_batches_queue (env : WriteEnv) (c : C) :
    (∀ m rest, c.send.buf = m :: rest →
      env.nextWriterFails = false → env.closeFails = false →
      writePump env PumpEvent.queue c =
        { c := { c with send := { c.send with buf := [] } },
          frames := [WsFrame.text (String.intercalate "\n" (m :: rest))],
          returned := false }) ∧
    (c.send.buf = [] → c.send.closed = true →
      (writePump env PumpEvent.queue c).frames = [WsFrame.close] ∧
      (writePump env PumpEvent.queue c).returned = true ∧
      (writePump env PumpEvent.queue c).c.send = c.send) := by
  constructor
  · intro m rest hbuf hnw hcl
    simp [writePump, hbuf, hnw, hcl, batchLoop_all, String.intercalate]
  · intro hbuf hclosed
    simp [writePump, hbuf, hclosed, closeConn]

theorem writePump_batches_queue_witness :
    writePump writeOk PumpEvent.queue clientThree =
      { c := { clientThree with send := { clientThree.send with buf := [] } },
        frames := [WsFrame.text (String.intercalate "\n" ("m1" :: ["m2", "m3"]))],
        returned := false } :=
  (writePump_batches_queue writeOk clientThree).1 "m1" ["m2", "m3"] rfl rfl rfl

/-! ## Session gate -/

theorem selectExpiresAt_eq_none (db : DB) (sessionID : String) :
    selectExpiresAt db sessionID = none ↔ ∀ r ∈ db.Sessions, r.SessionID ≠ sessionID := by
  simp [selectExpiresAt, List.find?_eq_none]

/-- The sweep brings no session into being. -/
theorem selectExpiresAt_deleteExpired_none (now zone : Int) (db : DB) (sessionID : String)
    (h : selectExpiresAt db sessionID = none) :
    selectExpiresAt (deleteExpired now zone db) sessionID = none := by
  rw [selectExpiresAt_eq_none] at h ⊢
  intro r hr
  simp only [deleteExpired, List.mem_filter] at hr
  exact h r hr.1

/-- A token that matches no stored session is answered 500 and not 401, the
query itself not failing; the wrapped handler is not invoked. -/
theorem AuthMiddleware_unknown_token (env : AuthEnv) (db : DB) (sessionID : String)
    (h : selectExpiresAt db sessionID = none) :
    (AuthMiddleware env db (some sessionID)).1 = AuthAnswer.internalServerError := by
  have h1 : selectExpiresAt (if env.cleanupFails = true then db
      else deleteExpired env.sweepAt env.zone db) sessionID = none := by
    split
    · exact h
    · exact selectExpiresAt_deleteExpired_none _ _ _ _ h
  simp [AuthMiddleware, ValidateSession, h1]

/-- A session that the sweep selects is deleted by the sweep and then answered
as an unknown token. -/
theorem AuthMiddleware_swept_token (env : AuthEnv) (db : DB) (sessionID : String)
    (hsweep : env.cleanupFails = false)
    (h : ∀ r ∈ db.Sessions, r.SessionID = sessionID →
      expiredInSql env.sweepAt env.zone r = true) :
    (AuthMiddleware env db (some sessionID)).1 = AuthAnswer.internalServerError := by
  have h1 : selectExpiresAt (deleteExpired env.sweepAt env.zone db) sessionID = none := by
    rw [selectExpiresAt_eq_none]
    intro r hr hid
    simp only [deleteExpired, List.mem_filter, Bool.not_eq_true'] at hr
    rw [h r hr.1 hid] at hr
    exact absurd hr.2 (by decide)
  simp [AuthMiddleware, ValidateSession, hsweep, h1]

/-- C20, evaluated. Without a cookie the answer is 401; with a token that
matches no stored session the answer is 500; with the token of a session whose
expiry has passed the sweep deletes the session and the answer is 500 as well.
The wrapped handler is invoked in none of these cases. -/
theorem AuthMiddleware_unknown_or_expired_is_500 :
    AuthMiddleware authEnvOk dbEmpty none = (AuthAnswer.unauthorized, dbEmpty) ∧
    AuthMiddleware authEnvOk dbEmpty (some "tok") =
      (AuthAnswer.internalServerError, dbEmpty) ∧
    AuthMiddleware authEnvOk dbExpiredSession (some "tok") =
      (AuthAnswer.internalServerError, dbEmpty) := by
  refine ⟨by decide, by decide, by decide⟩

/-! ## Concurrent calls on the room store -/

/-- The two statements of a call, run one after the other with nothing in
between, are `GetCreateRoom`. -/
theorem roomStep_twice (env : SqlEnv) (db : DB) (a b : Int) :
    roomStep env a b (roomStep env a b CallState.start db).1
        (roomStep env a b CallState.start db).2 =
      (CallState.returned (GetCreateRoom env db a b).1, (GetCreateRoom env db a b).2) := by
  unfold roomStep GetCreateRoom
  cases hq : env.queryFails with
  | true => simp [callStep, hq]
  | false =>
    cases hs : selectRoom db a b with
    | some id => simp [callStep, hq, hs]
    | none =>
      cases he : env.execFails <;> simp [callStep, hq, hs, he, insertRoom]

/-- The two statements of a call, run one after the other with nothing in
between, are `GetCreateGrChatRoom`. -/
theorem groupStep_twice (env : SqlEnv) (db : DB) (g : Int) :
    groupStep env g (groupStep env g CallState.start db).1
        (groupStep env g CallState.start db).2 =
      (CallState.returned (GetCreateGrChatRoom env db g).1,
        (GetCreateGrChatRoom env db g).2) := by
  unfold groupStep GetCreateGrChatRoom
  cases hq : env.queryFails with
  | true => simp [callStep, hq]
  | false =>
    cases hs : selectGroupRoom db g with
    | some id => simp [callStep, hq, hs]
    | none =>
      cases he : env.execFails <;> simp [callStep, hq, hs, he, insertGroupRoom]

/-- One statement of a call keeps the invariant, as long as the two calls are
not both pending. `c` is the call that moves, `o` the other one. -/
theorem callStep_keeps (select : DB → Option String) (insert : String → DB → DB)
    (count : DB → Nat) (env : SqlEnv)
    (hsel : ∀ id db, select db = none → select (insert id db) = some id)
    (hcnt : ∀ id db, select db = none → count (insert id db) ≤ 1)
    (c o : CallState) (db : DB)
    (hc : c = CallState.noRows → select db = none)
    (hr : ∀ id, c = CallState.returned (some id) → select db = some id)
    (ho : o = CallState.noRows → select db = none)
    (hor : ∀ id, o = CallState.returned (some id) → select db = some id)
    (hcount : count db ≤ 1)
    (hno : ¬ (c = CallState.noRows ∧ o = CallState.noRows)) :
    ((callStep select insert env c db).1 = CallState.noRows →
      select (callStep select insert env c db).2 = none) ∧
    (∀ id, (callStep select insert env c db).1 = CallState.returned (some id) →
      select (callStep select insert env c db).2 = some id) ∧
    (o = CallState.noRows → select (callStep select insert env c db).2 = none) ∧
    (∀ id, o = CallState.returned (some id) →
      select (callStep select insert env c db).2 = some id) ∧
    count (callStep select insert env c db).2 ≤ 1 := by
  cases c with
  | start =>
    cases hq : env.queryFails with
    | true => simp [callStep, hq]; exact ⟨ho, hor, hcount⟩
    | false =>
      cases hs : select db with
      | some id0 =>
        simp only [callStep, hq, hs, Bool.false_eq_true, if_false]
        refine ⟨by simp, ?_, ?_, ?_, hcount⟩
        · intro id hid
          simp at hid
          rw [hid]
        · intro h; rw [← hs]; exact ho h
        · intro id h; rw [← hs]; exact hor id h
      | none =>
        simp only [callStep, hq, hs, Bool.false_eq_true, if_false]
        refine ⟨by simp, by simp, by simp, ?_, hcount⟩
        intro id h
        have h1 := hor id h
        rw [hs] at h1
        exact Option.noConfusion h1
  | noRows =>
    have hnone : select db = none := hc rfl
    have hon : o ≠ CallState.noRows := fun h => hno ⟨rfl, h⟩
    have hor2 : ∀ id, o ≠ CallState.returned (some id) := by
      intro id h
      have := hor id h
      rw [hnone] at this
      exact Option.noConfusion this
    cases he : env.execFails with
    | true =>
      simp only [callStep, he, Bool.false_eq_true, if_false, if_true]
      exact ⟨by simp, by simp, ho, hor, hcount⟩
    | false =>
      simp only [callStep, he, Bool.false_eq_true, if_false, if_true]
      refine ⟨by simp, ?_, fun h => absurd h hon, fun id h => absurd h (hor2 id),
        hcnt _ _ hnone⟩
      intro id hid
      simp at hid
      rw [← hid]
      exact hsel _ _ hnone
  | returned r =>
    simp only [callStep]
    exact ⟨by simp, hr, ho, hor, hcount⟩

/-- The invariant holds at the end of every run in which the two calls are
never both pending. -/
theorem interleave_keeps (select : DB → Option String) (ins1 ins2 : String → DB → DB)
    (count : DB → Nat) (env1 env2 : SqlEnv)
    (hsel1 : ∀ id db, select db = none → select (ins1 id db) = some id)
    (hcnt1 : ∀ id db, select db = none → count (ins1 id db) ≤ 1)
    (hsel2 : ∀ id db, select db = none → select (ins2 id db) = some id)
    (hcnt2 : ∀ id db, select db = none → count (ins2 id db) ≤ 1)
    (sched : List Bool) :
    ∀ s : CallState × CallState × DB, CallInv select count s →
      bothPending (callStep select ins1 env1) (callStep select ins2 env2) sched s = false →
      CallInv select count
        (interleave (callStep select ins1 env1) (callStep select ins2 env2) sched s) := by
  induction sched with
  | nil => intro s hinv _; simpa [interleave] using hinv
  | cons t rest ih =>
    intro s hinv hno
    obtain ⟨c1, c2, db⟩ := s
    obtain ⟨h1, h2, h3, h4, h5⟩ := hinv
    cases t with
    | false =>
      simp only [bothPending, Bool.or_eq_false_iff, Bool.and_eq_false_imp, beq_iff_eq] at hno
      simp only [interleave]
      apply ih _ _ hno.2
      have hk := callStep_keeps select ins1 count env1 hsel1 hcnt1 c1 c2 db h1 h3 h2 h4 h5
        (fun h => absurd h.2 (by simpa using hno.1 h.1))
      exact ⟨hk.1, hk.2.2.1, hk.2.1, hk.2.2.2.1, hk.2.2.2.2⟩
    | true =>
      simp only [bothPending, Bool.or_eq_false_iff, Bool.and_eq_false_imp, beq_iff_eq] at hno
      simp only [interleave]
      apply ih _ _ hno.2
      have hk := callStep_keeps select ins2 count env2 hsel2 hcnt2 c2 c1 db h2 h4 h1 h3 h5
        (fun h => absurd h.1 (by simpa using hno.1 h.2))
      exact ⟨hk.2.2.1, hk.1, hk.2.2.2.1, hk.2.1, hk.2.2.2.2⟩

theorem roomRows_eq_nil (db : DB) (a b : Int) (h : selectRoom db a b = none) :
    roomRows db a b = [] := by
  unfold selectRoom at h
  simp only [Option.map_eq_none', List.find?_eq_none] at h
  unfold roomRows
  exact List.filter_eq_nil_iff.mpr h

theorem groupRows_eq_nil (db : DB) (g : Int) (h : selectGroupRoom db g = none) :
    groupRows db g = [] := by
  unfold selectGroupRoom at h
  simp only [Option.map_eq_none', List.find?_eq_none] at h
  unfold groupRows
  exact List.filter_eq_nil_iff.mpr h

/-- An insert for the pair, in either order of the two user ids, after a
lookup that found nothing: the lookup now finds the inserted id, and the pair
has one row. -/
theorem insertRoom_after_none (db : DB) (a b x y : Int) (id : String)
    (hxy : (x = a ∧ y = b) ∨ (x = b ∧ y = a)) (h : selectRoom db a b = none) :
    selectRoom (insertRoom x y id db) a b = some id ∧
    (roomRows (insertRoom x y id db) a b).length ≤ 1 := by
  have hrows := roomRows_eq_nil db a b h
  unfold selectRoom at h
  simp only [Option.map_eq_none'] at h
  unfold roomRows at hrows
  rcases hxy with ⟨rfl, rfl⟩ | ⟨rfl, rfl⟩
  · constructor
    · simp [selectRoom, insertRoom, List.find?_append, h, List.find?]
    · simp [roomRows, insertRoom, List.filter_append, hrows, List.filter]
  · constructor
    · simp [selectRoom, insertRoom, List.find?_append, h, List.find?]
    · simp [roomRows, insertRoom, List.filter_append, hrows, List.filter]

theorem insertGroupRoom_after_none (db : DB) (g : Int) (id : String)
    (h : selectGroupRoom db g = none) :
    selectGroupRoom (insertGroupRoom g id db) g = some id ∧
    (groupRows (insertGroupRoom g id db) g).length ≤ 1 := by
  have hrows := groupRows_eq_nil db g h
  unfold selectGroupRoom at h
  simp only [Option.map_eq_none'] at h
  unfold groupRows at hrows
  constructor
  · simp [selectGroupRoom, insertGroupRoom, List.find?_append, h, List.find?]
  · simp [groupRows, insertGroupRoom, List.filter_append, hrows, List.filter]

theorem roomStep_swap (env : SqlEnv) (a b : Int) :
    roomStep env b a = callStep (fun db => selectRoom db a b) (insertRoom b a) env := by
  unfold roomStep
  have h : (fun db => selectRoom db b a) = (fun db => selectRoom db a b) := by
    funext db
    exact selectRoom_comm db a b
  rw [h]

/-- C11, evaluated. From a store with no room for users 1 and 2, two calls of
`GetCreateRoom` for the pair (in the same or in the opposite argument order)
whose `SELECT`s both run before either `INSERT` return the ids "u1" and "u2"
and leave two rows for the pair; two calls of `GetCreateGrChatRoom(7)` under
the same schedule return "u1" and "u2" and leave two rows for the group. When
the first call returns before the second starts, both return "u1" and one row
exists. -/
theorem GetCreateRoom_concurrent_duplicates :
    selectRoom dbEmpty 1 2 = none ∧
    interleave (roomStep envU1 1 2) (roomStep envU2 1 2) schedOverlap
        (CallState.start, CallState.start, dbEmpty) =
      (CallState.returned (some "u1"), CallState.returned (some "u2"), dbTwoRooms) ∧
    (roomRows dbTwoRooms 1 2).length = 2 ∧
    (interleave (roomStep envU1 1 2) (roomStep envU2 2 1) schedOverlap
        (CallState.start, CallState.start, dbEmpty)).1 = CallState.returned (some "u1") ∧
    (interleave (roomStep envU1 1 2) (roomStep envU2 2 1) schedOverlap
        (CallState.start, CallState.start, dbEmpty)).2.1 = CallState.returned (some "u2") ∧
    (roomRows (interleave (roomStep envU1 1 2) (roomStep envU2 2 1) schedOverlap
        (CallState.start, CallState.start, dbEmpty)).2.2 1 2).length = 2 ∧
    (interleave (groupStep envU1 7) (groupStep envU2 7) schedOverlap
        (CallState.start, CallState.start, dbEmpty)).1 = CallState.returned (some "u1") ∧
    (interleave (groupStep envU1 7) (groupStep envU2 7) schedOverlap
        (CallState.start, CallState.start, dbEmpty)).2.1 = CallState.returned (some "u2") ∧
    (groupRows (interleave (groupStep envU1 7) (groupStep envU2 7) schedOverlap
        (CallState.start, CallState.start, dbEmpty)).2.2 7).length = 2 ∧
    interleave (roomStep envU1 1 2) (roomStep envU2 1 2) schedSerial
        (CallState.start, CallState.start, dbEmpty) =
      (CallState.returned (some "u1"), CallState.returned (some "u1"), dbOneRoom) := by
  refine ⟨by decide, by decide, by decide, by decide, by decide, by decide, by decide,
    by decide, by decide, by decide⟩

/-! ## Message router -/

/-- C17. For every chat message accepted by `saveMessage`, exactly one new row
is recorded, with the message's room id, sender id and content: at the end of
the group-message table when the group id is not zero, at the end of the
private-message table, with the receiver id, when it is zero; the other
message table and every other table are as before. -/
theorem saveMessage_one_row (env : SqlEnv) (db db1 : DB) (message : IncomingMessage)
    (h : saveMessage env db message = (true, db1)) :
    (message.GroupID ≠ 0 →
      db1 = { db with GroupChatMessage := db.GroupChatMessage ++
        [{ MessageID := env.uuid, GroupID := message.GroupID,
           SenderUserID := message.SenderUserID, Content := message.Content,
           RoomID := message.RoomID }] }) ∧
    (message.GroupID = 0 →
      db1 = { db with Message := db.Message ++
        [{ MessageID := env.uuid, SenderUserID := message.SenderUserID,
           ReceiverUserID := message.ReceiverUserID, RoomID := message.RoomID,
           Content := message.Content }] }) := by
  unfold saveMessage at h
  cases he : env.execFails with
  | true => simp [he] at h
  | false =>
    by_cases hg : message.GroupID = 0
    · simp [he, hg] at h
      exact ⟨fun hne => absurd hg hne, fun _ => h.symm⟩
    · simp [he, hg] at h
      exact ⟨fun _ => h.symm, fun h0 => absurd h0 hg⟩

theorem saveMessage_one_row_witness :
    (msgHi.GroupID ≠ 0 →
      dbOneMessage = { dbEmpty with GroupChatMessage := dbEmpty.GroupChatMessage ++
        [{ MessageID := envU1.uuid, GroupID := msgHi.GroupID,
           SenderUserID := msgHi.SenderUserID, Content := msgHi.Content,
           RoomID := msgHi.RoomID }] }) ∧
    (msgHi.GroupID = 0 →
      dbOneMessage = { dbEmpty with Message := dbEmpty.Message ++
        [{ MessageID := envU1.uuid, SenderUserID := msgHi.SenderUserID,
           ReceiverUserID := msgHi.ReceiverUserID, RoomID := msgHi.RoomID,
           Content := msgHi.Content }] }) :=
  saveMessage_one_row envU1 dbEmpty dbOneMessage msgHi (by decide)

/-- After a frame whose handling ends with `continue` on the state as it was,
`readPump` has not returned: it stands in the next read when no further read
has completed, it dispatches the next frame when one arrives, on the state as
it was, and it returns when the next read fails. -/
theorem readPump_continues {σ : Type} (dispatch : String → Nat → σ → Handled σ)
    (client : Nat) (message : String) (s : σ) (rest : List ReadResult)
    (h : dispatch message client s = Handled.next s) :
    readPump dispatch client (ReadResult.frame message :: rest) s =
      readPump dispatch client rest s ∧
    readPump dispatch client [ReadResult.frame message] s = (s, false) ∧
    (∀ next : String,
      readPump dispatch client (ReadResult.frame message :: ReadResult.frame next :: rest) s =
        pumpOn dispatch client rest (dispatch next client s)) ∧
    readPump dispatch client (ReadResult.frame message :: ReadResult.err :: rest) s =
      (s, true) := by
  refine ⟨by simp only [readPump, h], by simp only [readPump, h], ?_,
    by simp only [readPump, h]⟩
  intro next
  simp only [readPump, h]
  cases dispatch next client s <;> rfl

/-- C13. For every frame that decodes to an envelope whose type is not one of
the case labels of the router's switch, the handling ends with the state as it
was (no persistence call, the store, the hub, the rooms and every connection
unchanged) and the inbound pump goes on with the next frame: it has not
returned, and the frame that arrives next is dispatched on that state. -/
theorem route_unknown_kind (E : RouterEnv) (UserID : Int) (message : String)
    (wsMessage : SockMessage) (client : Nat) (s : Sys) (rest : List ReadResult)
    (henv : E.json.unmarshalSock message = some wsMessage)
    (hkind : wsMessage.type ∉ routerKinds) :
    route E UserID message client s = Handled.next s ∧
    readPump (route E UserID) client (ReadResult.frame message :: rest) s =
      readPump (route E UserID) client rest s ∧
    readPump (route E UserID) client [ReadResult.frame message] s = (s, false) ∧
    (∀ next : String,
      readPump (route E UserID) client
          (ReadResult.frame message :: ReadResult.frame next :: rest) s =
        pumpOn (route E UserID) client rest (route E UserID next client s)) := by
  have hroute : route E UserID message client s = Handled.next s := by
    simp only [routerKinds, List.mem_cons, List.mem_singleton, not_or, List.not_mem_nil,
      not_false_eq_true, and_true] at hkind
    obtain ⟨h1, h2, h3, h4, h5, h6, h7, h8, h9, h10, h11, h12, h13, h14, h15⟩ := hkind
    simp only [route, henv, h1, h2, h3, h4, h5, h6, h7, h8, h9, h10, h11, h12, h13, h14, h15,
      if_false]
  have hpump := readPump_continues (route E UserID) client message s rest hroute
  exact ⟨hroute, hpump.1, hpump.2.1, hpump.2.2.1⟩

theorem route_unknown_kind_witness :
    (route envToy 1 "F_ping" 1 sysTwoRooms = Handled.next sysTwoRooms ∧
      readPump (route envToy 1) 1 (ReadResult.frame "F_ping" :: []) sysTwoRooms =
        readPump (route envToy 1) 1 [] sysTwoRooms ∧
      readPump (route envToy 1) 1 [ReadResult.frame "F_ping"] sysTwoRooms =
        (sysTwoRooms, false) ∧
      (∀ next : String,
        readPump (route envToy 1) 1
            (ReadResult.frame "F_ping" :: ReadResult.frame next :: []) sysTwoRooms =
          pumpOn (route envToy 1) 1 [] (route envToy 1 next 1 sysTwoRooms))) ∧
    readPump (route envToy 1) 1 [ReadResult.frame "F_ping", ReadResult.frame "F_check"]
        sysTwoRooms = (sysChecked, false) ∧
    (sysChecked.world.heap 1).send.buf = ["followRequestResponse"] ∧
    (sysTwoRooms.world.heap 1).send.buf = [] :=
  ⟨route_unknown_kind envToy 1 "F_ping" { type := "ping", Payload := "" } 1 sysTwoRooms []
    rfl (by decide), rfl, by decide, by decide⟩

/-- C14. For every frame that fails to decode as an envelope, and for every
envelope of a kind of the router's switch whose payload fails to decode
against the shape of that kind, the handling ends with the state as it was (no
persistence call, nothing enqueued on any connection) and the inbound pump
goes on with the next frame. -/
theorem route_decode_failure (E : RouterEnv) (UserID : Int) (message : String)
    (client : Nat) (s : Sys) (rest : List ReadResult)
    (hbad : E.json.unmarshalSock message = none ∨
      ∃ wsMessage, E.json.unmarshalSock message = some wsMessage ∧
        wsMessage.type ∈ routerKinds ∧
        payloadDecodes E.json wsMessage.type wsMessage.Payload = false) :
    route E UserID message client s = Handled.next s ∧
    readPump (route E UserID) client (ReadResult.frame message :: rest) s =
      readPump (route E UserID) client rest s ∧
    readPump (route E UserID) client [ReadResult.frame message] s = (s, false) ∧
    (∀ next : String,
      readPump (route E UserID) client
          (ReadResult.frame message :: ReadResult.frame next :: rest) s =
        pumpOn (route E UserID) client rest (route E UserID next client s)) := by
  have hroute : route E UserID message client s = Handled.next s := by
    rcases hbad with hnone | ⟨wsMessage, henv, hkind, hdec⟩
    · simp only [route, hnone]
    · obtain ⟨t, p⟩ := wsMessage
      simp only [routerKinds, List.mem_cons, List.mem_singleton, List.not_mem_nil,
        or_false] at hkind
      rcases hkind with h | h | h | h | h | h | h | h | h | h | h | h | h | h | h <;>
        subst h <;>
        simp [payloadDecodes] at hdec <;>
        simp [route, henv, hdec, onEventInvite, onEInviteResponse, onGroupInvite,
          onGInviteResponse, onFollowRequest, onAcceptFollowRequest, onDeclineFollowRequest,
          onCancelFollowRequest, onFollowRequestCheck, onGroupJoinRequestCheck,
          onAcceptGroupJoinRequest, onDeclineGroupJoinRequest, onChatMessage, onJoinGroupChat,
          onFetchMessages]
  have hpump := readPump_continues (route E UserID) client message s rest hroute
  exact ⟨hroute, hpump.1, hpump.2.1, hpump.2.2.1⟩

theorem route_decode_failure_witness :
    (route envToy 1 "F_bad" 1 sysTwoRooms = Handled.next sysTwoRooms ∧
      readPump (route envToy 1) 1 (ReadResult.frame "F_bad" :: []) sysTwoRooms =
        readPump (route envToy 1) 1 [] sysTwoRooms ∧
      readPump (route envToy 1) 1 [ReadResult.frame "F_bad"] sysTwoRooms =
        (sysTwoRooms, false) ∧
      (∀ next : String,
        readPump (route envToy 1) 1
            (ReadResult.frame "F_bad" :: ReadResult.frame next :: []) sysTwoRooms =
          pumpOn (route envToy 1) 1 [] (route envToy 1 next 1 sysTwoRooms))) ∧
    readPump (route envToy 1) 1 [ReadResult.frame "F_bad", ReadResult.frame "F_check"]
        sysTwoRooms =
      readPump (route envToy 1) 1 [ReadResult.frame "F_check"] sysTwoRooms ∧
    (readPump (route envToy 1) 1 [ReadResult.frame "F_bad", ReadResult.frame "F_check"]
        sysTwoRooms).2 = false ∧
    ((readPump (route envToy 1) 1 [ReadResult.frame "F_bad", ReadResult.frame "F_check"]
        sysTwoRooms).1.world.heap 1).send.buf = ["followRequestResponse"] ∧
    ((readPump (route envToy 1) 1 [ReadResult.frame "garbled", ReadResult.frame "F_check"]
        sysTwoRooms).1.world.heap 1).send.buf = ["followRequestResponse"] :=
  ⟨route_decode_failure envToy 1 "F_bad" 1 sysTwoRooms []
    (Or.inr ⟨{ type := "chatMessage", Payload := "bad" }, rfl, by decide, by decide⟩),
    rfl, by decide, by decide, by decide⟩

/-- C12. For every `chatMessage` frame whose room id is not a key of the hub's
room table, the handling completes with the in-memory state as it was: no
connection's outbound queue or overflow buffer changes, no room is created in
the table, nothing (no error either) is enqueued for the sender. -/
theorem route_chatMessage_unknown_room (E : RouterEnv) (UserID : Int) (message payload : String)
    (client : Nat) (s : Sys)
    (henv : E.json.unmarshalSock message = some { type := "chatMessage", Payload := payload })
    (hroom : ∀ chatMsg, E.json.unmarshalIncoming payload = some chatMsg →
      s.world.server.rooms chatMsg.RoomID = none) :
    ∃ s1, route E UserID message client s = Handled.next s1 ∧ s1.world = s.world := by
  have hroute : route E UserID message client s = onChatMessage E payload s := by
    simp [route, henv]
  rw [hroute]
  cases hdec : E.json.unmarshalIncoming payload with
  | none => exact ⟨s, by simp only [onChatMessage, hdec], rfl⟩
  | some chatMsg =>
    have hr := hroom chatMsg hdec
    cases hu : GetUserDetails E.sql s.db chatMsg.SenderUserID with
    | none =>
      exact ⟨s.call (DbCall.GetUserDetails chatMsg.SenderUserID),
        by simp only [onChatMessage, hdec, hu], rfl⟩
    | some names =>
      obtain ⟨firstName, lastName⟩ := names
      cases hsave : saveMessage E.sql s.db chatMsg with
      | mk ok db1 =>
        cases ok with
        | false =>
          exact ⟨(s.call (DbCall.GetUserDetails chatMsg.SenderUserID)).call
            (DbCall.saveMessage chatMsg), by simp only [onChatMessage, hdec, hu, hsave], rfl⟩
        | true =>
          exact ⟨{ (s.call (DbCall.GetUserDetails chatMsg.SenderUserID)).call
            (DbCall.saveMessage chatMsg) with db := db1 },
            by simp only [onChatMessage, hdec, hu, hsave, hr], rfl⟩

theorem route_chatMessage_unknown_room_witness :
    (∃ s1, route envToy 1 "F_chat" 1 sysNoRoom = Handled.next s1 ∧
      s1.world = sysNoRoom.world) ∧
    GetUserDetails envToy.sql sysNoRoom.db msgHi.SenderUserID = some ("Ann", "Lee") ∧
    sysNoRoom.world.server.rooms msgHi.RoomID = none ∧
    route envToy 1 "F_chat" 1 sysNoRoom =
      Handled.next
        { world := sysNoRoom.world,
          db := { dbTwoUsers with
            Message := [{ MessageID := "u1", SenderUserID := 1, ReceiverUserID := 2,
                          RoomID := "r1", Content := "hi" }] },
          calls := [DbCall.GetUserDetails 1, DbCall.saveMessage msgHi] } :=
  ⟨route_chatMessage_unknown_room envToy 1 "F_chat" "hi" 1 sysNoRoom rfl
    (by intro _ _; rfl), by decide, rfl, rfl⟩

/-- A completed blocking send has appended its item to the tail of the queue
of the client and changed nothing else. -/
theorem sendTo_next (client : Nat) (m : String) (s s1 : Sys)
    (h : sendTo client m s = Handled.next s1) :
    (s1.world.heap client).send.buf = (s.world.heap client).send.buf ++ [m] ∧
    (∀ p, p ≠ client → s1.world.heap p = s.world.heap p) ∧
    s1.world.server = s.world.server ∧ s1.db = s.db ∧ s1.calls = s.calls := by
  cases hc : (s.world.heap client).send.closed with
  | true => simp [sendTo, hc] at h
  | false =>
    by_cases hl : (s.world.heap client).send.buf.length < sendCap
    · simp only [sendTo, hc, hl, Bool.false_eq_true, if_true, if_false,
        Handled.next.injEq] at h
      subst h
      refine ⟨by simp, ?_, rfl, rfl, rfl⟩
      intro p hp
      simp [Function.update_noteq hp]
    · simp [sendTo, hc, hl] at h

/-- On an open queue with room the blocking send completes. -/
theorem sendTo_open (client : Nat) (m : String) (s : Sys)
    (hopen : (s.world.heap client).send.closed = false)
    (hroom : (s.world.heap client).send.buf.length < sendCap) :
    ∃ s1, sendTo client m s = Handled.next s1 := by
  unfold sendTo
  simp [hopen, hroom]

/-- With no pending request for the user, `FetchFollowRequests` gives the nil
slice, whether or not its query fails. -/
theorem FetchFollowRequests_none_pending (env : SqlEnv) (db : DB) (userId : Int)
    (hzero : ∀ fr ∈ db.FollowRequests,
      ¬ (fr.FollowingUserID = userId ∧ fr.Accepted = some false)) :
    (FetchFollowRequests env db userId).getD [] = [] := by
  unfold FetchFollowRequests
  by_cases hq : env.queryFails = true
  · simp [hq]
  · have hf : db.FollowRequests.filter (fun fr =>
        fr.FollowingUserID == userId && fr.Accepted == some false) = [] := by
      apply List.filter_eq_nil_iff.mpr
      intro fr hfr
      have := hzero fr hfr
      simpa using this
    simp [hq, hf]

/-- The `followRequestCheck` case for a user with no pending request, on an
open queue with room: the call is recorded and one envelope is enqueued, of
type `followRequestResponse` with the payload `null`. -/
theorem onFollowRequestCheck_none_pending (E : RouterEnv) (payload : String) (userId : Int)
    (client : Nat) (s : Sys)
    (hdec : E.json.unmarshalUserId payload = some userId)
    (hzero : ∀ fr ∈ s.db.FollowRequests,
      ¬ (fr.FollowingUserID = userId ∧ fr.Accepted = some false))
    (hopen : (s.world.heap client).send.closed = false)
    (hroom : (s.world.heap client).send.buf.length < sendCap) :
    ∃ s1, onFollowRequestCheck E payload client s = Handled.next s1 ∧
      (s1.world.heap client).send.buf = (s.world.heap client).send.buf ++
        [(E.json.marshalSock { type := "followRequestResponse", Payload := "null" }).getD ""] ∧
      (∀ p, p ≠ client → s1.world.heap p = s.world.heap p) ∧
      s1.world.server = s.world.server ∧ s1.db = s.db ∧
      s1.calls = s.calls ++ [DbCall.FetchFollowRequests userId] := by
  have hnil := FetchFollowRequests_none_pending E.sql s.db userId hzero
  have hon : onFollowRequestCheck E payload client s =
      sendTo client
        ((E.json.marshalSock { type := "followRequestResponse", Payload := "null" }).getD "")
        (s.call (DbCall.FetchFollowRequests userId)) := by
    simp only [onFollowRequestCheck, hdec, hnil, List.map_nil, marshalSlice,
      followRequestResponse]
  obtain ⟨s1, hs1⟩ := sendTo_open client
    ((E.json.marshalSock { type := "followRequestResponse", Payload := "null" }).getD "")
    (s.call (DbCall.FetchFollowRequests userId)) hopen hroom
  refine ⟨s1, by rw [hon, hs1], ?_⟩
  exact sendTo_next _ _ _ _ hs1

theorem route_followRequestCheck (E : RouterEnv) (UserID : Int) (message payload : String)
    (client : Nat) (s : Sys)
    (henv : E.json.unmarshalSock message =
      some { type := "followRequestCheck", Payload := payload }) :
    route E UserID message client s = onFollowRequestCheck E payload client s := by
  simp [route, henv]

/-- C16, amended. For every user with zero pending follow requests, handling
a `followRequestCheck` for that user on a connection whose outbound queue is
open and has room enqueues exactly one envelope on the requesting connection,
of type "followRequestResponse", whose payload is the JSON `null` (neither an
empty collection nor a sentinel object), and never an error; nothing else
changes but the record of the one persistence call. -/
theorem followRequestCheck_none_pending (E : RouterEnv) (UserID : Int)
    (message payload : String) (userId : Int) (client : Nat) (s : Sys)
    (henv : E.json.unmarshalSock message =
      some { type := "followRequestCheck", Payload := payload })
    (hdec : E.json.unmarshalUserId payload = some userId)
    (hzero : ∀ fr ∈ s.db.FollowRequests,
      ¬ (fr.FollowingUserID = userId ∧ fr.Accepted = some false))
    (hopen : (s.world.heap client).send.closed = false)
    (hroom : (s.world.heap client).send.buf.length < 256) :
    ∃ s1, route E UserID message client s = Handled.next s1 ∧
      (s1.world.heap client).send.buf = (s.world.heap client).send.buf ++
        [(E.json.marshalSock { type := "followRequestResponse", Payload := "null" }).getD ""] ∧
      (∀ p, p ≠ client → s1.world.heap p = s.world.heap p) ∧
      s1.world.server = s.world.server ∧ s1.db = s.db ∧
      s1.calls = s.calls ++ [DbCall.FetchFollowRequests userId] := by
  rw [route_followRequestCheck E UserID message payload client s henv]
  exact onFollowRequestCheck_none_pending E payload userId client s hdec hzero hopen hroom

theorem followRequestCheck_none_pending_witness :
    ∃ s1, route envToyPayload 1 "F_check" 1 sysTwoRooms = Handled.next s1 ∧
      (s1.world.heap 1).send.buf = (sysTwoRooms.world.heap 1).send.buf ++
        [(envToyPayload.json.marshalSock
          { type := "followRequestResponse", Payload := "null" }).getD ""] ∧
      (∀ p, p ≠ 1 → s1.world.heap p = sysTwoRooms.world.heap p) ∧
      s1.world.server = sysTwoRooms.world.server ∧ s1.db = sysTwoRooms.db ∧
      s1.calls = sysTwoRooms.calls ++ [DbCall.FetchFollowRequests 3] :=
  followRequestCheck_none_pending envToyPayload 1 "F_check" "user3" 3 1 sysTwoRooms rfl rfl
    (by intro fr hfr; simp [sysTwoRooms, dbEmpty] at hfr) rfl (by decide)

/-- C16, refuted as stated. User 3 has no pending follow request; the envelope
enqueued for the `followRequestCheck` has the payload `null`, which is neither
the empty collection nor an object. -/
theorem followRequestCheck_payload_not_collection :
    ¬ ∀ (E : RouterEnv) (UserID : Int) (message payload : String) (userId : Int)
        (client : Nat) (s s1 : Sys),
      E.json.unmarshalSock message =
        some { type := "followRequestCheck", Payload := payload } →
      E.json.unmarshalUserId payload = some userId →
      (∀ fr ∈ s.db.FollowRequests,
        ¬ (fr.FollowingUserID = userId ∧ fr.Accepted = some false)) →
      route E UserID message client s = Handled.next s1 →
      ∃ r : SockMessage, r.type = "followRequestResponse" ∧
        (r.Payload = "[]" ∨ r.Payload.front = '\x7b') ∧
        (s1.world.heap client).send.buf =
          (s.world.heap client).send.buf ++ [(E.json.marshalSock r).getD ""] := by
  intro H
  have hzero : ∀ fr ∈ sysTwoRooms.db.FollowRequests,
      ¬ (fr.FollowingUserID = 3 ∧ fr.Accepted = some false) := by
    intro fr hfr; simp [sysTwoRooms, dbEmpty] at hfr
  obtain ⟨s1, hs1, hbuf, _⟩ := onFollowRequestCheck_none_pending envToyPayload "user3" 3 1
    sysTwoRooms rfl hzero rfl (by decide)
  have hroute : route envToyPayload 1 "F_check" 1 sysTwoRooms = Handled.next s1 := by
    rw [route_followRequestCheck envToyPayload 1 "F_check" "user3" 1 sysTwoRooms rfl, hs1]
  obtain ⟨r, _, hp, hb⟩ := H envToyPayload 1 "F_check" "user3" 3 1 sysTwoRooms s1 rfl rfl
    hzero hroute
  rw [hbuf] at hb
  have hb1 := List.append_cancel_left hb
  have hp1 : r.Payload = "null" := by
    have := (List.cons.inj hb1).1
    simpa [envToyPayload, jsonToyPayload] using this.symm
  rw [hp1] at hp
  revert hp
  decide

/-- The `chatMessage` case when the payload decodes, the sender is found, the
message is saved and the room is in the hub's table with the channels of its
members open: both persistence calls are recorded and the encoding of
`chatBroadcast` (the empty byte string if the encoder fails) is delivered to
every member of the room. -/
theorem onChatMessage_delivers (E : RouterEnv) (payload : String) (chatMsg : IncomingMessage)
    (firstName lastName : String) (db1 : DB) (room : Room) (s : Sys)
    (hdec : E.json.unmarshalIncoming payload = some chatMsg)
    (hu : GetUserDetails E.sql s.db chatMsg.SenderUserID = some (firstName, lastName))
    (hsave : saveMessage E.sql s.db chatMsg = (true, db1))
    (hroom : s.world.server.rooms chatMsg.RoomID = some room)
    (hopen : ∀ p ∈ room.Clients.keys, (s.world.heap p).send.closed = false) :
    onChatMessage E payload s =
      Handled.next
        { world :=
            { heap := (fun p =>
                if p ∈ room.Clients.keys then
                  (deliver (s.world.heap p)
                    ((E.json.marshalSock (chatBroadcast chatMsg firstName lastName)).getD ""))
                else s.world.heap p),
              server := s.world.server },
          db := db1,
          calls := s.calls ++ [DbCall.GetUserDetails chatMsg.SenderUserID,
            DbCall.saveMessage chatMsg] } := by
  have hb := broadcastLoop_open
    ((E.json.marshalSock (chatBroadcast chatMsg firstName lastName)).getD "")
    room.Clients.keys s.world.heap room.Clients.nodup hopen
  simp only [onChatMessage, hdec, hu, hsave, hroom, Room.broadcastToClients, hb, Sys.call,
    List.append_assoc, List.singleton_append]

set_option maxRecDepth 100000 in
/-- C18, evaluated. For the content `a"b` the payload text built by the
`chatMessage` case carries the quote as it is, so it is not the encoding of an
object whose content is `a"b`; the first names "x" and "x" followed by
`betweenNames` and "y" give one and the same envelope when the last names are
"y" followed by `betweenNames` and "z", and "z"; hence whatever the encoder and
the decoder are, the broadcast frame cannot decode to the sender id, first
name, content and room id of every message. -/
theorem chatBroadcast_unescaped :
    chatPayload msgQuote "Ann" "Lee" =
      "\x7b\n\t\t\t\t\t\"senderUserId\": 1,\n\t\t\t\t\t\"senderFirstName\": \"Ann\"," ++
      "\n\t\t\t\t\t\"senderLastName\": \"Lee\",\n\t\t\t\t\t\"content\": \"a\"b\"," ++
      "\n\t\t\t\t\t\"roomId\": \"r1\",\n\t\t\t\t\t\"timestamp\": \"2024-01-01T00:00:00Z\"," ++
      "\n\t\t\t\t\t\"groupId\": 0\n\t\t\t\t\x7d" ∧
    chatBroadcast msgHi "x" ("y" ++ betweenNames ++ "z") =
      chatBroadcast msgHi ("x" ++ betweenNames ++ "y") "z" ∧
    ∀ (marshal : SockMessage → Option String)
      (decode : String → Option (Int × String × String × String)),
      ¬ ∀ (chatMsg : IncomingMessage) (firstName lastName : String),
        decode ((marshal (chatBroadcast chatMsg firstName lastName)).getD "") =
          some (chatMsg.SenderUserID, firstName, chatMsg.Content, chatMsg.RoomID) := by
  have hsame : chatBroadcast msgHi "x" ("y" ++ betweenNames ++ "z") =
      chatBroadcast msgHi ("x" ++ betweenNames ++ "y") "z" := by decide
  refine ⟨by decide, hsame, ?_⟩
  intro marshal decode H
  have h1 := H msgHi "x" ("y" ++ betweenNames ++ "z")
  have h2 := H msgHi ("x" ++ betweenNames ++ "y") "z"
  rw [hsame, h2] at h1
  revert h1
  decide

/-! ## Response kinds -/

theorem route_unknown (E : RouterEnv) (UserID : Int) (message : String)
    (wsMessage : SockMessage) (client : Nat) (s : Sys)
    (henv : E.json.unmarshalSock message = some wsMessage)
    (hkind : wsMessage.type ∉ routerKinds) :
    route E UserID message client s = Handled.next s := by
  simp only [routerKinds, List.mem_cons, List.mem_singleton, not_or, List.not_mem_nil,
    not_false_eq_true, and_true] at hkind
  obtain ⟨h1, h2, h3, h4, h5, h6, h7, h8, h9, h10, h11, h12, h13, h14, h15⟩ := hkind
  simp only [route, henv, h1, h2, h3, h4, h5, h6, h7, h8, h9, h10, h11, h12, h13, h14, h15,
    if_false]

theorem eventInviteResponse_type (rows : List String) :
    (eventInviteResponse rows).type = "eventInviteResponse" := by
  unfold eventInviteResponse
  split <;> rfl

theorem groupInviteResponse_type (rows : List String) :
    (groupInviteResponse rows).type = "groupInviteResponse" := by
  unfold groupInviteResponse
  split <;> rfl

theorem addToR_send (w : World) (client : Nat) (roomID : String) (p : Nat) :
    ((addToR w client roomID).heap p).send = (w.heap p).send := by
  unfold addToR
  by_cases hp : p = client
  · subst hp; simp
  · simp [Function.update_noteq hp]

theorem onEventInvite_answered (E : RouterEnv) (payload : String) (client : Nat) (s s1 : Sys)
    (h : onEventInvite E payload client s = Handled.next s1) :
    Answered E "eventInviteResponse" client s s1 := by
  unfold onEventInvite at h
  cases hd : E.json.unmarshalUserId payload with
  | none =>
    simp only [hd, Handled.next.injEq] at h
    subst h; exact Or.inl rfl
  | some userID =>
    simp only [hd] at h
    cases ha : E.answers.CheckEventInvite userID with
    | none =>
      simp only [ha, Handled.next.injEq] at h
      subst h; exact Or.inl rfl
    | some rows =>
      simp only [ha] at h
      exact Or.inr (Or.inl ⟨eventInviteResponse rows, eventInviteResponse_type rows,
        (sendTo_next _ _ _ _ h).1⟩)

theorem onGroupInvite_answered (E : RouterEnv) (payload : String) (client : Nat) (s s1 : Sys)
    (h : onGroupInvite E payload client s = Handled.next s1) :
    Answered E "groupInviteResponse" client s s1 := by
  unfold onGroupInvite at h
  cases hd : E.json.unmarshalUserId payload with
  | none =>
    simp only [hd, Handled.next.injEq] at h
    subst h; exact Or.inl rfl
  | some userID =>
    simp only [hd] at h
    cases ha : E.answers.CheckGroupInvites userID with
    | none =>
      simp only [ha, Handled.next.injEq] at h
      subst h; exact Or.inl rfl
    | some rows =>
      simp only [ha] at h
      exact Or.inr (Or.inl ⟨groupInviteResponse rows, groupInviteResponse_type rows,
        (sendTo_next _ _ _ _ h).1⟩)

theorem onFollowRequestCheck_answered (E : RouterEnv) (payload : String) (client : Nat)
    (s s1 : Sys) (h : onFollowRequestCheck E payload client s = Handled.next s1) :
    Answered E "followRequestResponse" client s s1 := by
  unfold onFollowRequestCheck at h
  cases hd : E.json.unmarshalUserId payload with
  | none =>
    simp only [hd, Handled.next.injEq] at h
    subst h; exact Or.inl rfl
  | some userId =>
    simp only [hd] at h
    exact Or.inr (Or.inl ⟨_, rfl, (sendTo_next _ _ _ _ h).1⟩)

theorem onGroupJoinRequestCheck_answered (E : RouterEnv) (payload : String) (client : Nat)
    (s s1 : Sys) (h : onGroupJoinRequestCheck E payload client s = Handled.next s1) :
    Answered E "groupJoinRequestResponse" client s s1 := by
  unfold onGroupJoinRequestCheck at h
  cases hd : E.json.unmarshalUserId payload with
  | none =>
    simp only [hd, Handled.next.injEq] at h
    subst h; exact Or.inl rfl
  | some userId =>
    simp only [hd] at h
    cases ha : E.answers.FetchGroupJoinRequests userId with
    | none =>
      simp only [ha, Handled.next.injEq] at h
      subst h; exact Or.inl rfl
    | some rows =>
      simp only [ha] at h
      exact Or.inr (Or.inl ⟨_, rfl, (sendTo_next _ _ _ _ h).1⟩)

theorem onJoinGroupChat_answered (E : RouterEnv) (payload : String) (client : Nat)
    (s s1 : Sys) (h : onJoinGroupChat E payload client s = Handled.next s1) :
    Answered E "joinGroupChatResponse" client s s1 := by
  unfold onJoinGroupChat at h
  cases hd : E.json.unmarshalGroupIdText payload with
  | none =>
    simp only [hd, Handled.next.injEq] at h
    subst h; exact Or.inl rfl
  | some groupId =>
    simp only [hd] at h
    cases hi : E.json.atoi groupId with
    | none =>
      simp only [hi, Handled.next.injEq] at h
      subst h; exact Or.inl rfl
    | some groupIdInt =>
      simp only [hi] at h
      cases hg : GetCreateGrChatRoom E.sql s.db groupIdInt with
      | mk res db1 =>
        cases res with
        | none =>
          simp only [hg, Handled.next.injEq] at h
          subst h; exact Or.inl rfl
        | some roomId =>
          simp only [hg] at h
          cases hm : E.json.marshalSock (joinGroupChatResponse roomId) with
          | none =>
            simp only [hm, Handled.next.injEq] at h
            subst h
            exact Or.inl (by simp [addToR_send])
          | some responseJSON =>
            simp only [hm] at h
            have hb := (sendTo_next _ _ _ _ h).1
            simp only [addToR_send] at hb
            exact Or.inr (Or.inl ⟨joinGroupChatResponse roomId, rfl, by rw [hm]; exact hb⟩)

theorem onFetchMessages_answered (E : RouterEnv) (UserID : Int) (payload : String)
    (client : Nat) (s s1 : Sys)
    (h : onFetchMessages E UserID payload client s = Handled.next s1) :
    Answered E "fetchMessagesResponse" client s s1 := by
  unfold onFetchMessages at h
  cases hd : E.json.unmarshalFetch payload with
  | none =>
    simp only [hd, Handled.next.injEq] at h
    subst h; exact Or.inl rfl
  | some req =>
    obtain ⟨roomID, groupID⟩ := req
    simp only [hd] at h
    cases ha : E.answers.FetchMessages roomID UserID groupID with
    | none =>
      simp only [ha, Handled.next.injEq] at h
      subst h; exact Or.inl rfl
    | some messages =>
      simp only [ha] at h
      cases hm : E.json.marshalFetch (fetchMessagesResponse roomID messages) with
      | none =>
        simp only [hm, Handled.next.injEq] at h
        subst h; exact Or.inl rfl
      | some responseJSON =>
        simp only [hm] at h
        exact Or.inr (Or.inr ⟨fetchMessagesResponse roomID messages, rfl, responseJSON, hm,
          (sendTo_next _ _ _ _ h).1⟩)

/-- The cases that answer nothing leave the in-memory state as it is. -/
theorem silent_cases_world (E : RouterEnv) (UserID : Int) (payload : String) (s s1 : Sys) :
    (onEInviteResponse E payload s = Handled.next s1 → s1.world = s.world) ∧
    (onGInviteResponse E payload s = Handled.next s1 → s1.world = s.world) ∧
    (onFollowRequest E payload s = Handled.next s1 → s1.world = s.world) ∧
    (onAcceptFollowRequest E payload s = Handled.next s1 → s1.world = s.world) ∧
    (onDeclineFollowRequest E payload s = Handled.next s1 → s1.world = s.world) ∧
    (onCancelFollowRequest E payload s = Handled.next s1 → s1.world = s.world) ∧
    (onAcceptGroupJoinRequest E UserID payload s = Handled.next s1 → s1.world = s.world) ∧
    (onDeclineGroupJoinRequest E payload s = Handled.next s1 → s1.world = s.world) := by
  refine ⟨?_, ?_, ?_, ?_, ?_, ?_, ?_, ?_⟩
  · intro h
    unfold onEInviteResponse at h
    split at h <;> (simp only [Handled.next.injEq] at h; subst h; rfl)
  · intro h
    unfold onGInviteResponse at h
    split at h <;> (simp only [Handled.next.injEq] at h; subst h; rfl)
  · intro h
    unfold onFollowRequest at h
    split at h <;> (simp only [Handled.next.injEq] at h; subst h; rfl)
  · intro h
    unfold onAcceptFollowRequest at h
    split at h <;> (simp only [Handled.next.injEq] at h; subst h; rfl)
  · intro h
    unfold onDeclineFollowRequest at h
    split at h <;> (simp only [Handled.next.injEq] at h; subst h; rfl)
  · intro h
    unfold onCancelFollowRequest at h
    split at h <;> (simp only [Handled.next.injEq] at h; subst h; rfl)
  · intro h
    unfold onAcceptGroupJoinRequest at h
    split at h <;> (simp only [Handled.next.injEq] at h; subst h; rfl)
  · intro h
    unfold onDeclineGroupJoinRequest at h
    split at h <;> (simp only [Handled.next.injEq] at h; subst h; rfl)

/-- C15, amended. For every request kind X other than `chatMessage` whose
handling enqueues something on the requesting connection, what is enqueued is
the encoding of one envelope, whose type is X followed by "Response" when X is
`eventInvite`, `groupInvite`, `joinGroupChat` or `fetchMessages`, and is
"followRequestResponse" for `followRequestCheck` and
"groupJoinRequestResponse" for `groupJoinRequestCheck`. -/
theorem response_type_per_kind (E : RouterEnv) (UserID : Int) (message X payload : String)
    (client : Nat) (s s1 : Sys)
    (henv : E.json.unmarshalSock message = some { type := X, Payload := payload })
    (hX : X ≠ "chatMessage")
    (hroute : route E UserID message client s = Handled.next s1)
    (hnew : (s1.world.heap client).send.buf ≠ (s.world.heap client).send.buf) :
    ∃ T, ((X = "followRequestCheck" ∧ T = "followRequestResponse") ∨
        (X = "groupJoinRequestCheck" ∧ T = "groupJoinRequestResponse") ∨
        ((X = "eventInvite" ∨ X = "groupInvite" ∨ X = "joinGroupChat" ∨
          X = "fetchMessages") ∧ T = X ++ "Response")) ∧
      ((∃ r : SockMessage, r.type = T ∧
        (s1.world.heap client).send.buf =
          (s.world.heap client).send.buf ++ [(E.json.marshalSock r).getD ""]) ∨
      (∃ r : FetchResponse, r.type = T ∧ ∃ j, E.json.marshalFetch r = some j ∧
        (s1.world.heap client).send.buf = (s.world.heap client).send.buf ++ [j])) := by
  have hsilent := silent_cases_world E UserID payload s s1
  have hquiet : s1.world = s.world → False := fun hw => hnew (by rw [hw])
  by_cases hk : X ∈ routerKinds
  · simp only [routerKinds, List.mem_cons, List.mem_singleton, List.not_mem_nil,
      or_false] at hk
    rcases hk with h | h | h | h | h | h | h | h | h | h | h | h | h | h | h <;> subst h
    · have hr : route E UserID message client s = onEventInvite E payload client s := by
        simp [route, henv]
      rw [hr] at hroute
      rcases onEventInvite_answered E payload client s s1 hroute with h | h
      · exact absurd h hnew
      · exact ⟨"eventInviteResponse", Or.inr (Or.inr ⟨Or.inl rfl, by decide⟩), h⟩
    · have hr : route E UserID message client s = onEInviteResponse E payload s := by
        simp [route, henv]
      rw [hr] at hroute
      exact (hquiet (hsilent.1 hroute)).elim
    · have hr : route E UserID message client s = onGroupInvite E payload client s := by
        simp [route, henv]
      rw [hr] at hroute
      rcases onGroupInvite_answered E payload client s s1 hroute with h | h
      · exact absurd h hnew
      · exact ⟨"groupInviteResponse", Or.inr (Or.inr ⟨Or.inr (Or.inl rfl), by decide⟩), h⟩
    · have hr : route E UserID message client s = onGInviteResponse E payload s := by
        simp [route, henv]
      rw [hr] at hroute
      exact (hquiet (hsilent.2.1 hroute)).elim
    · have hr : route E UserID message client s = onFollowRequest E payload s := by
        simp [route, henv]
      rw [hr] at hroute
      exact (hquiet (hsilent.2.2.1 hroute)).elim
    · have hr : route E UserID message client s = onAcceptFollowRequest E payload s := by
        simp [route, henv]
      rw [hr] at hroute
      exact (hquiet (hsilent.2.2.2.1 hroute)).elim
    · have hr : route E UserID message client s = onDeclineFollowRequest E payload s := by
        simp [route, henv]
      rw [hr] at hroute
      exact (hquiet (hsilent.2.2.2.2.1 hroute)).elim
    · have hr : route E UserID message client s = onCancelFollowRequest E payload s := by
        simp [route, henv]
      rw [hr] at hroute
      exact (hquiet (hsilent.2.2.2.2.2.1 hroute)).elim
    · have hr : route E UserID message client s =
          onFollowRequestCheck E payload client s := by
        simp [route, henv]
      rw [hr] at hroute
      rcases onFollowRequestCheck_answered E payload client s s1 hroute with h | h
      · exact absurd h hnew
      · exact ⟨"followRequestResponse", Or.inl ⟨rfl, rfl⟩, h⟩
    · have hr : route E UserID message client s =
          onGroupJoinRequestCheck E payload client s := by
        simp [route, henv]
      rw [hr] at hroute
      rcases onGroupJoinRequestCheck_answered E payload client s s1 hroute with h | h
      · exact absurd h hnew
      · exact ⟨"groupJoinRequestResponse", Or.inr (Or.inl ⟨rfl, rfl⟩), h⟩
    · have hr : route E UserID message client s =
          onAcceptGroupJoinRequest E UserID payload s := by
        simp [route, henv]
      rw [hr] at hroute
      exact (hquiet (hsilent.2.2.2.2.2.2.1 hroute)).elim
    · have hr : route E UserID message client s = onDeclineGroupJoinRequest E payload s := by
        simp [route, henv]
      rw [hr] at hroute
      exact (hquiet (hsilent.2.2.2.2.2.2.2 hroute)).elim
    · exact absurd rfl hX
    · have hr : route E UserID message client s = onJoinGroupChat E payload client s := by
        simp [route, henv]
      rw [hr] at hroute
      rcases onJoinGroupChat_answered E payload client s s1 hroute with h | h
      · exact absurd h hnew
      · exact ⟨"joinGroupChatResponse",
          Or.inr (Or.inr ⟨Or.inr (Or.inr (Or.inl rfl)), by decide⟩), h⟩
    · have hr : route E UserID message client s =
          onFetchMessages E UserID payload client s := by
        simp [route, henv]
      rw [hr] at hroute
      rcases onFetchMessages_answered E UserID payload client s s1 hroute with h | h
      · exact absurd h hnew
      · exact ⟨"fetchMessagesResponse",
          Or.inr (Or.inr ⟨Or.inr (Or.inr (Or.inr rfl)), by decide⟩), h⟩
  · have hr := route_unknown E UserID message { type := X, Payload := payload } client s
      henv hk
    rw [hr] at hroute
    simp only [Handled.next.injEq] at hroute
    subst hroute
    exact absurd rfl hnew

theorem route_check_toy :
    route envToy 1 "F_check" 1 sysTwoRooms = Handled.next sysChecked ∧
    (sysChecked.world.heap 1).send.buf = ["followRequestResponse"] ∧
    (sysTwoRooms.world.heap 1).send.buf = [] := by
  refine ⟨rfl, by decide, by decide⟩

theorem response_type_per_kind_witness :
    ∃ T, (("followRequestCheck" = "followRequestCheck" ∧ T = "followRequestResponse") ∨
        ("followRequestCheck" = "groupJoinRequestCheck" ∧ T = "groupJoinRequestResponse") ∨
        (("followRequestCheck" = "eventInvite" ∨ "followRequestCheck" = "groupInvite" ∨
          "followRequestCheck" = "joinGroupChat" ∨ "followRequestCheck" = "fetchMessages") ∧
          T = "followRequestCheck" ++ "Response")) ∧
      ((∃ r : SockMessage, r.type = T ∧
        (sysChecked.world.heap 1).send.buf =
          (sysTwoRooms.world.heap 1).send.buf ++ [(envToy.json.marshalSock r).getD ""]) ∨
      (∃ r : FetchResponse, r.type = T ∧ ∃ j, envToy.json.marshalFetch r = some j ∧
        (sysChecked.world.heap 1).send.buf = (sysTwoRooms.world.heap 1).send.buf ++ [j])) :=
  response_type_per_kind envToy 1 "F_check" "followRequestCheck" "user3" 1 sysTwoRooms
    sysChecked rfl (by decide) rfl (by decide)

/-- C15, refuted as stated. The request kind `followRequestCheck` is answered
by an envelope of type "followRequestResponse", which is not the kind followed
by "Response". -/
theorem followRequestCheck_response_type :
    ¬ ∀ (E : RouterEnv) (UserID : Int) (message X payload : String) (client : Nat)
        (s s1 : Sys),
      E.json.unmarshalSock message = some { type := X, Payload := payload } →
      X ≠ "chatMessage" →
      route E UserID message client s = Handled.next s1 →
      (s1.world.heap client).send.buf ≠ (s.world.heap client).send.buf →
      (∃ r : SockMessage, r.type = X ++ "Response" ∧
        (s1.world.heap client).send.buf =
          (s.world.heap client).send.buf ++ [(E.json.marshalSock r).getD ""]) ∨
      (∃ r : FetchResponse, r.type = X ++ "Response" ∧ ∃ j, E.json.marshalFetch r = some j ∧
        (s1.world.heap client).send.buf = (s.world.heap client).send.buf ++ [j]) := by
  intro H
  obtain ⟨hroute, hb1, hb0⟩ := route_check_toy
  have h := H envToy 1 "F_check" "followRequestCheck" "user3" 1 sysTwoRooms sysChecked rfl
    (by decide) hroute (by rw [hb1, hb0]; decide)
  rw [hb1, hb0] at h
  rcases h with ⟨r, ht, hb⟩ | ⟨r, ht, j, hj, hb⟩
  · have hr : r.type = "followRequestResponse" := by
      have := (List.cons.inj hb).1
      simpa [envToy, jsonToy] using this.symm
    rw [hr] at ht
    revert ht
    decide
  · have hj1 : r.type = j := by simpa [envToy, jsonToy] using hj
    have hr : j = "followRequestResponse" := ((List.cons.inj hb).1).symm
    rw [hj1, hr] at ht
    revert ht
    decide

/-! ## Liveness constants -/

/-- C25. The keepalive interval `pingPeriod` is 54 seconds for the 60-second
window `pongWait`: exactly nine-tenths of it in integer nanoseconds (the
division leaves no remainder and the product fits a 64-bit duration), and
strictly less than `pongWait`. -/
theorem pingPeriod_nine_tenths :
    pingPeriod = 54 * second ∧ 10 * pingPeriod = 9 * pongWait ∧
    (pongWait * 9) % 10 = 0 ∧ pongWait * 9 < 2 ^ 63 ∧ pingPeriod < pongWait := by
  decide

/-! ## Single room back-reference -/

theorem add_keys_mem (s : PtrSet) (p : Nat) : p ∈ (s.add p).keys := by
  unfold PtrSet.add
  split
  · assumption
  · simp

/-- The effect of `addToR`: the client is a member of the room, its back
pointer is the room, every other room is as before, and every other client
object is as before. -/
theorem addToR_effect (w : World) (client : Nat) (roomID : String) :
    (∃ room, (addToR w client roomID).server.rooms roomID = some room ∧
      client ∈ room.Clients.keys) ∧
    ((addToR w client roomID).heap client).room = some roomID ∧
    (∀ r, r ≠ roomID → (addToR w client roomID).server.rooms r = w.server.rooms r) ∧
    (∀ p, p ≠ client → (addToR w client roomID).heap p = w.heap p) ∧
    (addToR w client roomID).server.clients = w.server.clients := by
  refine ⟨?_, ?_, ?_, ?_, ?_⟩
  · exact ⟨{ (w.server.findCreateRoom roomID).1 with
        Clients := (w.server.findCreateRoom roomID).1.Clients.add client },
      by simp [addToR], add_keys_mem _ _⟩
  · simp [addToR]
  · intro r hr
    unfold addToR WSServer.findCreateRoom
    cases hroom : w.server.rooms roomID <;> simp [Function.update_noteq hr]
  · intro p hp
    simp [addToR, Function.update_noteq hp]
  · unfold addToR WSServer.findCreateRoom
    cases hroom : w.server.rooms roomID <;> rfl

/-- C26. A connection keeps a single room back-reference: after `addToR(c, r)`
the connection is a member of room r, its `room` is r, and every other room
(so its membership of every room joined before) is unchanged; hence for a
connection that joined distinct rooms R1 and then R2, `disconnect`, however it
ends, has removed it from the membership set of R2 and from no other, and it
is still a member of R1. -/
theorem single_room_back_reference (w : World) (c : Nat) (R1 R2 : String) (hne : R1 ≠ R2) :
    ((∃ room, (addToR w c R2).server.rooms R2 = some room ∧ c ∈ room.Clients.keys) ∧
      ((addToR w c R2).heap c).room = some R2 ∧
      (∀ r, r ≠ R2 → (addToR w c R2).server.rooms r = w.server.rooms r)) ∧
    ∀ w1, (disconnect c (addToR (addToR w c R1) c R2) = Except.ok w1 ∨
        disconnect c (addToR (addToR w c R1) c R2) = Except.error w1) →
      (∃ room, w1.server.rooms R2 = some room ∧ c ∉ room.Clients.keys) ∧
      (∃ room, w1.server.rooms R1 = some room ∧ c ∈ room.Clients.keys) ∧
      (∀ r, r ≠ R2 → w1.server.rooms r = (addToR (addToR w c R1) c R2).server.rooms r) := by
  have h2 := addToR_effect w c R2
  refine ⟨⟨h2.1, h2.2.1, h2.2.2.1⟩, ?_⟩
  intro w1 hw1
  have hA := addToR_effect (addToR w c R1) c R2
  have hB := addToR_effect w c R1
  obtain ⟨roomB, hroomB, hmemB⟩ := hA.1
  obtain ⟨roomA, hroomA, hmemA⟩ := hB.1
  have hback := hA.2.1
  have hrooms : w1.server.rooms =
      (leaveRoom (addToR (addToR w c R1) c R2).server c (some R2)).rooms := by
    unfold disconnect at hw1
    simp only [hback] at hw1
    cases hclose : (((addToR (addToR w c R1) c R2).heap c).send.close) with
    | none =>
      simp only [hclose] at hw1
      rcases hw1 with h | h
      · exact Except.noConfusion h
      · injection h with h
        subst h
        split
        · exact unregisterClient_rooms _ _
        · rfl
    | some ch =>
      simp only [hclose] at hw1
      rcases hw1 with h | h
      · injection h with h
        subst h
        split
        · exact unregisterClient_rooms _ _
        · rfl
      · exact Except.noConfusion h
  have hleave : (leaveRoom (addToR (addToR w c R1) c R2).server c (some R2)).rooms =
      Function.update (addToR (addToR w c R1) c R2).server.rooms R2
        (some { roomB with Clients := roomB.Clients.delete c }) := by
    simp only [leaveRoom, hroomB]
  rw [hleave] at hrooms
  refine ⟨⟨_, by rw [hrooms, Function.update_same], delete_keys_not_mem _ _⟩, ?_, ?_⟩
  · refine ⟨roomA, ?_, hmemA⟩
    rw [hrooms, Function.update_noteq hne, hA.2.2.1 R1 hne, hroomA]
  · intro r hr
    rw [hrooms, Function.update_noteq hr]

theorem single_room_back_reference_witness :
    ((∃ room, (addToR worldFresh 1 "r2").server.rooms "r2" = some room ∧
        1 ∈ room.Clients.keys) ∧
      ((addToR worldFresh 1 "r2").heap 1).room = some "r2" ∧
      (∀ r, r ≠ "r2" → (addToR worldFresh 1 "r2").server.rooms r = worldFresh.server.rooms r)) ∧
    ∀ w1, (disconnect 1 (addToR (addToR worldFresh 1 "r1") 1 "r2") = Except.ok w1 ∨
        disconnect 1 (addToR (addToR worldFresh 1 "r1") 1 "r2") = Except.error w1) →
      (∃ room, w1.server.rooms "r2" = some room ∧ 1 ∉ room.Clients.keys) ∧
      (∃ room, w1.server.rooms "r1" = some room ∧ 1 ∈ room.Clients.keys) ∧
      (∀ r, r ≠ "r2" →
        w1.server.rooms r = (addToR (addToR worldFresh 1 "r1") 1 "r2").server.rooms r) :=
  single_room_back_reference worldFresh 1 "r1" "r2" (by decide)

/-! ## Session gate: a session written in another zone -/

/-- C21, evaluated. The session "z" expires 30 minutes after the instant of the
request, so `ValidateSession` accepts its token; its stored text, written in a
zone of offset -05:00, is smaller than the text of the request's clock in UTC,
so the sweep at the start of `AuthMiddleware` deletes it and the request is
answered 500: the session is not extended and the handler is not invoked.
When the stored texts and the clock are of one zone (the store
`dbThreeSessions` at instant 1000) the token "tok" is accepted, its session and
the cookie expire 45 minutes later, the other unexpired session is kept and
the handler is invoked. -/
theorem AuthMiddleware_sweeps_unexpired_session :
    sqliteTimestamp 1793801684732219020 (-18000) = "2026-11-04 09:14:44.73221902-05:00" ∧
    sqliteTimestamp nowUtc 0 = "2026-11-04 13:44:44.73221902+00:00" ∧
    ValidateSession false nowUtc dbZoneSession "z" = some true ∧
    AuthMiddleware (authEnvAt nowUtc) dbZoneSession (some "z") =
      (AuthAnswer.internalServerError, dbEmpty) ∧
    AuthMiddleware (authEnvAt 1000) dbThreeSessions (some "tok") =
      (AuthAnswer.next (1000 + sessionWindow),
        { Rooms := [], GroupChatRoom := [],
          Sessions := [{ UserID := 1, SessionID := "old", ExpiresAt := 5000 },
            { UserID := 2, SessionID := "tok", ExpiresAt := 1000 + sessionWindow }] }) := by
  refine ⟨by decide, by decide, by decide, by decide, by decide⟩

/-! ## Expiry: validation and the sweeps -/

/-- C30, evaluated. At the instant `nowUtc` `ValidateSession` accepts the token
"z", whose session expires 30 minutes later, while `cleanupExpiredSessions`
and the sweep at the start of `AuthMiddleware`, run by a process in UTC, both
select it by its stored text "2026-11-04 09:14:44.73221902-05:00" and delete
it. When the stored texts and the clock are of one zone (the store
`dbThreeSessions` at instant 1000) both sweeps delete the session "gone",
which `ValidateSession` reports expired, and keep the two that it accepts. -/
theorem sweep_deletes_session_validation_accepts :
    ValidateSession false nowUtc dbZoneSession "z" = some true ∧
    expiredInSql nowUtc 0
      { UserID := 1, SessionID := "z", ExpiresAt := 1793801684732219020,
        ExpiresAtOffset := -18000 } = true ∧
    cleanupExpiredSessions false (fun _ => false) nowUtc 0 dbZoneSession = dbEmpty ∧
    (AuthMiddleware (authEnvAt nowUtc) dbZoneSession none).2 = dbEmpty ∧
    cleanupExpiredSessions false (fun _ => false) 1000 0 dbThreeSessions =
      { Rooms := [], GroupChatRoom := [],
        Sessions := [{ UserID := 1, SessionID := "old", ExpiresAt := 5000 },
          { UserID := 2, SessionID := "tok", ExpiresAt := 2000 }] } ∧
    (AuthMiddleware (authEnvAt 1000) dbThreeSessions none).2 =
      { Rooms := [], GroupChatRoom := [],
        Sessions := [{ UserID := 1, SessionID := "old", ExpiresAt := 5000 },
          { UserID := 2, SessionID := "tok", ExpiresAt := 2000 }] } ∧
    ValidateSession false 1000 dbThreeSessions "old" = some true ∧
    ValidateSession false 1000 dbThreeSessions "tok" = some true ∧
    ValidateSession false 1000 dbThreeSessions "gone" = some false := by
  refine ⟨by decide, by decide, by decide, by decide, by decide, by decide, by decide,
    by decide, by decide⟩

/-! ## One session per user -/

theorem find?_isSome_of_mem {α : Type} (p : α → Bool) (l : List α) (a : α) (ha : a ∈ l)
    (hp : p a = true) : ∃ b, l.find? p = some b ∧ b ∈ l ∧ p b = true := by
  cases h : l.find? p with
  | none =>
    rw [List.find?_eq_none] at h
    exact absurd hp (h a ha)
  | some b => exact ⟨b, rfl, List.mem_of_find?_eq_some h, List.find?_some h⟩

theorem filter_eq_singleton_of_nodup_map {α β : Type} [DecidableEq β] (f : α → β)
    (l : List α) (hnd : (l.map f).Nodup) (b : β) (a : α) (ha : a ∈ l) (hab : f a = b) :
    l.filter (fun r => f r == b) = [a] := by
  induction l with
  | nil => cases ha
  | cons x l ih =>
    rw [List.map_cons, List.nodup_cons] at hnd
    by_cases hx : f x = b
    · have hnone : l.filter (fun r => f r == b) = [] := by
        rw [List.filter_eq_nil_iff]
        intro y hy hyb
        apply hnd.1
        rw [hx, ← (beq_iff_eq.mp hyb)]
        exact List.mem_map_of_mem f hy
      have hxa : x = a := by
        rcases List.mem_cons.mp ha with h | h
        · exact h.symm
        · exfalso
          apply hnd.1
          rw [hx, ← hab]
          exact List.mem_map_of_mem f h
      subst hxa
      simp [List.filter_cons, hx, hnone]
    · have hal : a ∈ l := by
        rcases List.mem_cons.mp ha with h | h
        · rw [h] at hab
          exact absurd hab hx
        · exact h
      simp [List.filter_cons, hx, ih hnd.2 hal]

/-- The two outcomes of a successful `CreateSession`: a row appended for a
user without a session, or the rows of the user rewritten. -/
theorem CreateSession_ok (qf ef : Bool) (db db1 : DB) (token : String)
    (user expiry offset : Int)
    (hok : CreateSession qf ef db token user expiry offset = (true, db1)) :
    ((∀ r ∈ db.Sessions, r.UserID ≠ user) ∧
      db1 = { db with Sessions := db.Sessions ++
        [SessionRow.mk user token expiry offset] }) ∨
    ((∃ r ∈ db.Sessions, r.UserID = user) ∧
      db1 = { db with Sessions := db.Sessions.map (fun r =>
        if r.UserID == user then SessionRow.mk r.UserID token expiry offset else r) }) := by
  unfold CreateSession at hok
  cases qf
  · cases ef
    · simp only [Bool.false_eq_true, if_false] at hok
      cases hf : db.Sessions.find? (fun r => r.UserID == user) with
      | none =>
        rw [hf] at hok
        left
        refine ⟨?_, (Prod.mk.inj hok).2.symm⟩
        intro r hr
        have := (List.find?_eq_none.mp hf) r hr
        simpa using this
      | some b =>
        rw [hf] at hok
        right
        refine ⟨⟨b, List.mem_of_find?_eq_some hf, ?_⟩, (Prod.mk.inj hok).2.symm⟩
        simpa using List.find?_some hf
    · simp only [Bool.false_eq_true, if_false, if_true] at hok
      split at hok <;> exact absurd (Prod.mk.inj hok).1 (by decide)
  · simp only [if_true] at hok
    exact absurd (Prod.mk.inj hok).1 (by decide)

/-- C28. For every session store with at most one session per user id, reached
with tokens that are fresh when they are issued (no two stored sessions carry
the same token, and the new token is carried by no stored session), after
`CreateSession(token, user, expiry)` succeeds there is exactly one session for
that user, carrying the new token and expiry; any token that resolved to that
user before resolves to no user afterwards, while the new token resolves to
the user; the sessions of all other users are unchanged and in their order;
and the store is again one with at most one session per user id and no token
carried twice. -/
theorem CreateSession_one_session_per_user (qf ef : Bool) (db db1 : DB) (token : String)
    (user expiry offset : Int)
    (hnd : (db.Sessions.map SessionRow.UserID).Nodup)
    (htok : (db.Sessions.map SessionRow.SessionID).Nodup)
    (hfresh : ∀ r ∈ db.Sessions, r.SessionID ≠ token)
    (hok : CreateSession qf ef db token user expiry offset = (true, db1)) :
    db1.Sessions.filter (fun r => r.UserID == user) =
      [SessionRow.mk user token expiry offset] ∧
    (∀ old : String, GetUserIDBySessionID false db old = some user →
      GetUserIDBySessionID false db1 old = none) ∧
    GetUserIDBySessionID false db1 token = some user ∧
    db1.Sessions.filter (fun r => !(r.UserID == user)) =
      db.Sessions.filter (fun r => !(r.UserID == user)) ∧
    (db1.Sessions.map SessionRow.UserID).Nodup ∧
    (db1.Sessions.map SessionRow.SessionID).Nodup ∧
    db1 = { db with Sessions := db1.Sessions } := by
  have hinjU : ∀ x ∈ db.Sessions, ∀ y ∈ db.Sessions, x.UserID = y.UserID → x = y :=
    fun x hx y hy h => List.inj_on_of_nodup_map hnd hx hy h
  have hinjT : ∀ x ∈ db.Sessions, ∀ y ∈ db.Sessions, x.SessionID = y.SessionID → x = y :=
    fun x hx y hy h => List.inj_on_of_nodup_map htok hx hy h
  have hold : ∀ old : String, GetUserIDBySessionID false db old = some user →
      ∃ b ∈ db.Sessions, b.SessionID = old ∧ b.UserID = user := by
    intro old hres
    simp only [GetUserIDBySessionID, Bool.false_eq_true, if_false] at hres
    cases hf : db.Sessions.find? (fun r => r.SessionID == old) with
    | none => simp [hf] at hres
    | some b =>
      simp [hf] at hres
      exact ⟨b, List.mem_of_find?_eq_some hf, by simpa using List.find?_some hf, hres⟩
  rcases CreateSession_ok qf ef db db1 token user expiry offset hok with
    ⟨hno, hdb⟩ | ⟨⟨b, hb, hbu⟩, hdb⟩
  · subst hdb
    have hf1 : db.Sessions.filter (fun r => r.UserID == user) = [] := by
      rw [List.filter_eq_nil_iff]
      intro r hr
      simpa using hno r hr
    have hf2 : db.Sessions.filter (fun r => !(r.UserID == user)) = db.Sessions := by
      rw [List.filter_eq_self]
      intro r hr
      simpa using hno r hr
    have hfind : db.Sessions.find? (fun r => r.SessionID == token) = none := by
      rw [List.find?_eq_none]
      intro r hr
      simpa using hfresh r hr
    refine ⟨by simp [List.filter_append, hf1], ?_, ?_, by simp [List.filter_append, hf2],
      ?_, ?_, rfl⟩
    · intro old hres
      obtain ⟨r, hr, _, hru⟩ := hold old hres
      exact absurd hru (hno r hr)
    · simp [GetUserIDBySessionID, List.find?_append, hfind]
    · simp only [List.map_append, List.map_cons, List.map_nil]
      rw [List.nodup_append]
      refine ⟨hnd, List.nodup_singleton _, ?_⟩
      intro u hu hu2
      rw [List.mem_singleton] at hu2
      obtain ⟨r, hr, hru⟩ := List.mem_map.mp hu
      exact hno r hr (hru.trans hu2)
    · simp only [List.map_append, List.map_cons, List.map_nil]
      rw [List.nodup_append]
      refine ⟨htok, List.nodup_singleton _, ?_⟩
      intro u hu hu2
      rw [List.mem_singleton] at hu2
      obtain ⟨r, hr, hru⟩ := List.mem_map.mp hu
      exact hfresh r hr (hru.trans hu2)
  · subst hdb
    have hmapU : (db.Sessions.map (fun r =>
        if r.UserID == user then SessionRow.mk r.UserID token expiry offset else r)).map
        SessionRow.UserID = db.Sessions.map SessionRow.UserID := by
      rw [List.map_map]
      apply List.map_congr_left
      intro r _
      simp only [Function.comp]
      split <;> rfl
    have hnd1 : ((db.Sessions.map (fun r =>
        if r.UserID == user then SessionRow.mk r.UserID token expiry offset else r)).map
        SessionRow.UserID).Nodup := by
      rw [hmapU]
      exact hnd
    have hmem : ∀ r, r ∈ db.Sessions.map (fun r =>
        if r.UserID == user then SessionRow.mk r.UserID token expiry offset else r) →
        (r.UserID = user ∧ r.SessionID = token) ∨
        (r.UserID ≠ user ∧ r ∈ db.Sessions) := by
      intro r hr
      obtain ⟨a, ha, har⟩ := List.mem_map.mp hr
      by_cases hau : a.UserID = user
      · left
        simp [hau] at har
        rw [← har]
        exact ⟨rfl, rfl⟩
      · right
        simp [hau] at har
        rw [← har]
        exact ⟨hau, ha⟩
    have hnew : SessionRow.mk user token expiry offset ∈ db.Sessions.map (fun r =>
        if r.UserID == user then SessionRow.mk r.UserID token expiry offset else r) :=
      List.mem_map.mpr ⟨b, hb, by simp [hbu]⟩
    refine ⟨?_, ?_, ?_, ?_, hnd1, ?_, rfl⟩
    · exact filter_eq_singleton_of_nodup_map SessionRow.UserID _ hnd1 user _ hnew rfl
    · intro old hres
      obtain ⟨c, hc, hcold, hcu⟩ := hold old hres
      simp only [GetUserIDBySessionID, Bool.false_eq_true, if_false, Option.map_eq_none']
      rw [List.find?_eq_none]
      intro r hr
      rcases hmem r hr with ⟨_, hrt⟩ | ⟨hru, hrd⟩
      · have hne : token ≠ old := fun h => hfresh c hc (hcold.trans h.symm)
        simpa [hrt] using hne
      · have hne : r.SessionID ≠ old := by
          intro h
          have hrc : r = c := hinjT r hrd c hc (h.trans hcold.symm)
          rw [hrc] at hru
          exact hru hcu
        simpa using hne
    · obtain ⟨c, hc, hcmem, hcp⟩ := find?_isSome_of_mem (fun r => r.SessionID == token) _ _
        hnew (by simp)
      have hcu : c.UserID = user := by
        rcases hmem c hcmem with ⟨h, _⟩ | ⟨_, hcd⟩
        · exact h
        · exact absurd (by simpa using hcp) (hfresh c hcd)
      unfold GetUserIDBySessionID
      simp only [Bool.false_eq_true, if_false]
      rw [hc]
      simp only [Option.map_some', hcu]
    · simp only [List.filter_map]
      have : ∀ l : List SessionRow,
          List.map (fun r =>
            if r.UserID == user then SessionRow.mk r.UserID token expiry offset else r)
            (List.filter ((fun r => !(r.UserID == user)) ∘ fun r =>
              if r.UserID == user then SessionRow.mk r.UserID token expiry offset else r) l) =
            List.filter (fun r => !(r.UserID == user)) l := by
        intro l
        induction l with
        | nil => rfl
        | cons x l ih =>
          by_cases hx : x.UserID = user
          · simp [List.filter_cons, hx]
            simpa using ih
          · simp [List.filter_cons, hx]
            simpa using ih
      exact this _
    · rw [List.map_map]
      apply List.Nodup.map_on _ (List.Nodup.of_map _ hnd)
      intro x hx y hy hxy
      simp only [Function.comp] at hxy
      by_cases hxu : x.UserID = user <;> by_cases hyu : y.UserID = user
      · exact hinjU x hx y hy (hxu.trans hyu.symm)
      · simp [hxu, hyu] at hxy
        exact absurd hxy.symm (hfresh y hy)
      · simp [hxu, hyu] at hxy
        exact absurd hxy (hfresh x hx)
      · simp [hxu, hyu] at hxy
        exact hinjT x hx y hy hxy

theorem CreateSession_one_session_per_user_witness :
    (CreateSession false false dbTwoSessions "n" 1 3000 0).2.Sessions.filter
        (fun r => r.UserID == 1) = [SessionRow.mk 1 "n" 3000 0] ∧
    (∀ old : String, GetUserIDBySessionID false dbTwoSessions old = some 1 →
      GetUserIDBySessionID false (CreateSession false false dbTwoSessions "n" 1 3000 0).2 old =
        none) ∧
    GetUserIDBySessionID false (CreateSession false false dbTwoSessions "n" 1 3000 0).2 "n" =
      some 1 ∧
    (CreateSession false false dbTwoSessions "n" 1 3000 0).2.Sessions.filter
        (fun r => !(r.UserID == 1)) =
      dbTwoSessions.Sessions.filter (fun r => !(r.UserID == 1)) ∧
    ((CreateSession false false dbTwoSessions "n" 1 3000 0).2.Sessions.map
      SessionRow.UserID).Nodup ∧
    ((CreateSession false false dbTwoSessions "n" 1 3000 0).2.Sessions.map
      SessionRow.SessionID).Nodup ∧
    (CreateSession false false dbTwoSessions "n" 1 3000 0).2 =
      { dbTwoSessions with
        Sessions := (CreateSession false false dbTwoSessions "n" 1 3000 0).2.Sessions } :=
  CreateSession_one_session_per_user false false dbTwoSessions
    (CreateSession false false dbTwoSessions "n" 1 3000 0).2 "n" 1 3000 0 (by decide)
    (by decide) (by decide) rfl

/-! ## Accepting a group join request: atomicity -/

/-- C24. For every store, request id and verdicts of the statements,
`AcceptGroupJoinRequest` either succeeds, and then the store differs from the
one before exactly by one appended member row with the group and the user of
the first request row of that id, accepted, and by the removal of every
request row of that id; or it returns an error and the store is unchanged.
When no request row has the id it returns an error. -/
theorem AcceptGroupJoinRequest_atomic (env : TxEnv) (db : DB) (requestId userId : Int) :
    ((∃ row, row ∈ db.GroupJoinRequests ∧ row.RequestId = requestId ∧
        AcceptGroupJoinRequest env db requestId userId =
          (true, { db with
            GroupMembers := db.GroupMembers ++
              [{ GroupID := row.GroupId, UserID := row.UserId, Accepted := true }],
            GroupJoinRequests :=
              db.GroupJoinRequests.filter (fun r => !(r.RequestId == requestId)) }) ∧
        ∀ r ∈ (AcceptGroupJoinRequest env db requestId userId).2.GroupJoinRequests,
          r.RequestId ≠ requestId) ∨
      AcceptGroupJoinRequest env db requestId userId = (false, db)) ∧
    ((∀ r ∈ db.GroupJoinRequests, r.RequestId ≠ requestId) →
      AcceptGroupJoinRequest env db requestId userId = (false, db)) := by
  refine ⟨?_, ?_⟩
  · unfold AcceptGroupJoinRequest
    cases env.beginFails
    · cases env.queryFails
      · cases hf : db.GroupJoinRequests.find? (fun r => r.RequestId == requestId) with
        | none => right; simp [hf]
        | some row =>
          cases env.insertFails
          · cases env.deleteFails
            · cases env.commitFails
              · left
                refine ⟨row, List.mem_of_find?_eq_some hf, by simpa using List.find?_some hf,
                  by simp [hf], ?_⟩
                intro r hr
                simp [hf] at hr
                exact hr.2
              · right; simp [hf]
            · right; simp [hf]
          · right; simp [hf]
      · right; simp
    · right; simp
  · intro hno
    have hf : db.GroupJoinRequests.find? (fun r => r.RequestId == requestId) = none := by
      rw [List.find?_eq_none]
      intro r hr
      simpa using hno r hr
    unfold AcceptGroupJoinRequest
    simp only [hf]
    cases env.beginFails <;> cases env.queryFails <;> simp

theorem AcceptGroupJoinRequest_atomic_witness :
    (∀ r ∈ dbOneRequest.GroupJoinRequests, r.RequestId ≠ 8) ∧
    AcceptGroupJoinRequest txOk dbOneRequest 8 1 = (false, dbOneRequest) ∧
    AcceptGroupJoinRequest txOk dbOneRequest 7 1 =
      (true, { Rooms := [], GroupChatRoom := [], GroupJoinRequests := [],
               GroupMembers := [{ GroupID := 5, UserID := 1, Accepted := true },
                 { GroupID := 5, UserID := 3, Accepted := true }] }) :=
  ⟨by decide, (AcceptGroupJoinRequest_atomic txOk dbOneRequest 8 1).2 (by decide), by decide⟩

/-! ## Saving and fetching: what a group message is -/

/-- C29, refuted as stated. A `chatMessage` payload and a `fetchMessages`
payload that both carry `groupId` 0 for room "r1": `saveMessage` stores the
message in `Message` (its test is `GroupID != 0`), `FetchMessages` reads
`GroupChatMessage` (its test is `groupID != nil`) and returns a list without
the saved message. -/
theorem save_fetch_disagree_on_group_zero :
    ¬ ∀ (env1 env2 : SqlEnv) (db db1 : DB) (roomID content timestamp : String)
        (sender receiver userID : Int) (field : Option Int) (msgs : List Message),
      (∃ u ∈ db.User, u.UserID = sender) → (∃ u ∈ db.User, u.UserID = receiver) →
      saveMessage env1 db
        { SenderUserID := sender, ReceiverUserID := receiver, RoomID := roomID,
          Content := content, Timestamp := timestamp, GroupID := incomingGroupID field } =
        (true, db1) →
      FetchMessages env2 db1 roomID userID (fetchGroupID field) = some msgs →
      ∃ m ∈ msgs, m.SenderUserID = sender ∧ m.Content = content := by
  intro H
  have h := H envU1 envU1 dbTwoUsers
    (saveMessage envU1 dbTwoUsers
      { SenderUserID := 1, ReceiverUserID := 2, RoomID := "r1", Content := "hi",
        Timestamp := "", GroupID := 0 }).2
    "r1" "hi" "" 1 2 2 (some 0) [] (by decide) (by decide) (by decide) (by decide)
  revert h
  decide

/-- C29, amended. For every `chatMessage` payload and `fetchMessages` payload
that carry the same room id and the same `groupId` field, present with the
same value other than 0 in both or absent in both, with sender and receiver
existing users: after `saveMessage` has succeeded, `FetchMessages` (its
statements succeeding) returns a list that contains a message with the saved
sender id, content and room id. -/
theorem save_then_fetch_contains (env1 env2 : SqlEnv) (db db1 : DB)
    (roomID content timestamp : String) (sender receiver userID : Int) (field : Option Int)
    (hfield : field ≠ some 0)
    (hsender : ∃ u ∈ db.User, u.UserID = sender)
    (hreceiver : ∃ u ∈ db.User, u.UserID = receiver)
    (hsave : saveMessage env1 db
      { SenderUserID := sender, ReceiverUserID := receiver, RoomID := roomID,
        Content := content, Timestamp := timestamp, GroupID := incomingGroupID field } =
      (true, db1))
    (hq : env2.queryFails = false) (he : env2.execFails = false) :
    ∃ msgs, FetchMessages env2 db1 roomID userID (fetchGroupID field) = some msgs ∧
      ∃ m ∈ msgs, m.SenderUserID = sender ∧ m.Content = content ∧ m.RoomID = roomID := by
  obtain ⟨s, hs, hsu⟩ := hsender
  obtain ⟨r, hr, hru⟩ := hreceiver
  unfold saveMessage at hsave
  cases hx : env1.execFails
  · rw [hx] at hsave
    cases field with
    | none =>
      simp only [incomingGroupID, ne_eq, not_true_eq_false, if_false, Bool.false_eq_true]
        at hsave
      have hdb := (Prod.mk.inj hsave).2
      subst hdb
      simp only [FetchMessages, fetchGroupID, hq, he, Bool.false_eq_true, if_false]
      refine ⟨_, rfl, ?_⟩
      refine ⟨Message.mk env1.uuid s.UserID r.UserID roomID content s.FirstName s.LastName
        r.FirstName r.LastName, ?_, hsu, rfl, rfl⟩
      simp only [List.mem_flatMap, List.mem_filter, List.mem_map, List.mem_append,
        List.mem_singleton]
      exact ⟨_, ⟨Or.inr rfl, by simp⟩, s, ⟨hs, by simp [hsu]⟩, r, ⟨hr, by simp [hru]⟩, rfl⟩
    | some g =>
      have hg : g ≠ 0 := fun h => hfield (by rw [h])
      simp only [incomingGroupID, ne_eq, hg, not_false_eq_true, if_true, Bool.false_eq_true,
        if_false] at hsave
      have hdb := (Prod.mk.inj hsave).2
      subst hdb
      simp only [FetchMessages, fetchGroupID, hq, he, Bool.false_eq_true, if_false]
      refine ⟨_, rfl, ?_⟩
      refine ⟨Message.mk env1.uuid s.UserID 0 roomID content s.FirstName s.LastName "" "",
        ?_, hsu, rfl, rfl⟩
      simp only [List.mem_flatMap, List.mem_filter, List.mem_map, List.mem_append,
        List.mem_singleton]
      exact ⟨_, ⟨Or.inr rfl, by simp⟩, s, ⟨hs, by simp [hsu]⟩, rfl⟩
  · rw [hx] at hsave
    split at hsave <;> exact absurd (Prod.mk.inj hsave).1 (by decide)

theorem save_then_fetch_contains_witness :
    ∃ msgs, FetchMessages envU2
        (saveMessage envU1 dbTwoUsers
          { SenderUserID := 1, ReceiverUserID := 2, RoomID := "r1", Content := "hi",
            Timestamp := "", GroupID := incomingGroupID (some 5) }).2
        "r1" 2 (fetchGroupID (some 5)) = some msgs ∧
      ∃ m ∈ msgs, m.SenderUserID = 1 ∧ m.Content = "hi" ∧ m.RoomID = "r1" :=
  save_then_fetch_contains envU1 envU2 dbTwoUsers _ "r1" "hi" "" 1 2 2 (some 5) (by decide)
    (by decide) (by decide) rfl rfl rfl

/-! ## Sender identity of a chat message -/

/-- C27, refuted as stated. On a connection upgraded for user 2, the frame
"F_chat", whose payload names user 1 as sender, is saved as a row whose sender
id is 1. -/
theorem chat_sender_not_authenticated_user :
    ¬ ∀ (E : RouterEnv) (U : Int) (message payload : String) (chatMsg : IncomingMessage)
        (client : Nat) (s s1 : Sys),
      E.json.unmarshalSock message = some { type := "chatMessage", Payload := payload } →
      E.json.unmarshalIncoming payload = some chatMsg →
      route E U message client s = Handled.next s1 →
      ∀ row ∈ s1.db.Message, row ∉ s.db.Message → row.SenderUserID = U := by
  intro H
  have h := H envToyPayload 2 "F_chat" "hi" msgHi 1 sysUsers sysChatSaved rfl rfl rfl
    { MessageID := "u1", SenderUserID := 1, ReceiverUserID := 2, RoomID := "r1",
      Content := "hi" } (by decide) (by decide)
  revert h
  decide

/-- A saved message is one appended row, in one of the two message tables,
whose sender id is that of the message. -/
theorem saveMessage_sender (env : SqlEnv) (db db1 : DB) (message : IncomingMessage)
    (h : saveMessage env db message = (true, db1)) :
    db1 = { db with Message := db.Message ++
      [{ MessageID := env.uuid, SenderUserID := message.SenderUserID,
         ReceiverUserID := message.ReceiverUserID, RoomID := message.RoomID,
         Content := message.Content }] } ∨
    db1 = { db with GroupChatMessage := db.GroupChatMessage ++
      [{ MessageID := env.uuid, GroupID := message.GroupID,
         SenderUserID := message.SenderUserID, Content := message.Content,
         RoomID := message.RoomID }] } := by
  unfold saveMessage at h
  cases he : env.execFails with
  | true => simp [he] at h
  | false =>
    by_cases hg : message.GroupID = 0
    · simp [he, hg] at h
      exact Or.inl h.symm
    · simp [he, hg] at h
      exact Or.inr h.symm

/-- C27, amended. For every `chatMessage` frame processed on a connection that
was upgraded for authenticated user U, the handling is the same whatever U is.
However the handling ends, the store is as before or has exactly one more
message row, whose sender id is the `senderUserId` of the payload. When the
sender named by the payload is a stored user, the message is saved and the
room is in the hub's table with its members' channels open, every member is
delivered the encoding (the empty frame when the encoder fails) of the
envelope of type "chatMessage" whose payload text is printed by `Sprintf`
with the `senderUserId` of the payload as its first member. -/
theorem chat_sender_is_payload_sender (E : RouterEnv) (U : Int) (message payload : String)
    (chatMsg : IncomingMessage) (client : Nat) (s : Sys)
    (henv : E.json.unmarshalSock message = some { type := "chatMessage", Payload := payload })
    (hdec : E.json.unmarshalIncoming payload = some chatMsg) :
    (∀ U2 : Int, route E U2 message client s = route E U message client s) ∧
    (∀ s1, (route E U message client s = Handled.next s1 ∨
        route E U message client s = Handled.blocked s1 ∨
        route E U message client s = Handled.panic s1) →
      s1.db = s.db ∨
      s1.db = { s.db with Message := s.db.Message ++
        [{ MessageID := E.sql.uuid, SenderUserID := chatMsg.SenderUserID,
           ReceiverUserID := chatMsg.ReceiverUserID, RoomID := chatMsg.RoomID,
           Content := chatMsg.Content }] } ∨
      s1.db = { s.db with GroupChatMessage := s.db.GroupChatMessage ++
        [{ MessageID := E.sql.uuid, GroupID := chatMsg.GroupID,
           SenderUserID := chatMsg.SenderUserID, Content := chatMsg.Content,
           RoomID := chatMsg.RoomID }] }) ∧
    (∀ (firstName lastName : String) (db1 : DB) (room : Room),
      GetUserDetails E.sql s.db chatMsg.SenderUserID = some (firstName, lastName) →
      saveMessage E.sql s.db chatMsg = (true, db1) →
      s.world.server.rooms chatMsg.RoomID = some room →
      (∀ p ∈ room.Clients.keys, (s.world.heap p).send.closed = false) →
      route E U message client s =
        Handled.next
          { world :=
              { heap := (fun p =>
                  if p ∈ room.Clients.keys then
                    (deliver (s.world.heap p)
                      ((E.json.marshalSock
                        { type := "chatMessage",
                          Payload :=
                            "\x7b\n\t\t\t\t\t\"senderUserId\": " ++
                            toString chatMsg.SenderUserID ++
                            ",\n\t\t\t\t\t\"senderFirstName\": \"" ++ firstName ++
                            "\",\n\t\t\t\t\t\"senderLastName\": \"" ++ lastName ++
                            "\",\n\t\t\t\t\t\"content\": \"" ++ chatMsg.Content ++
                            "\",\n\t\t\t\t\t\"roomId\": \"" ++ chatMsg.RoomID ++
                            "\",\n\t\t\t\t\t\"timestamp\": \"" ++ chatMsg.Timestamp ++
                            "\",\n\t\t\t\t\t\"groupId\": " ++ toString chatMsg.GroupID ++
                            "\n\t\t\t\t\x7d" }).getD ""))
                  else s.world.heap p),
                server := s.world.server },
            db := db1,
            calls := s.calls ++ [DbCall.GetUserDetails chatMsg.SenderUserID,
              DbCall.saveMessage chatMsg] }) := by
  have hroute : ∀ U2 : Int, route E U2 message client s = onChatMessage E payload s := by
    intro U2
    simp [route, henv]
  refine ⟨fun U2 => (hroute U2).trans (hroute U).symm, ?_, ?_⟩
  · intro s1 h
    rw [hroute U] at h
    unfold onChatMessage at h
    simp only [hdec] at h
    cases hu : GetUserDetails E.sql s.db chatMsg.SenderUserID with
    | none =>
      simp only [hu] at h
      rcases h with h | h | h
      · injection h with h
        subst h
        exact Or.inl rfl
      · exact Handled.noConfusion h
      · exact Handled.noConfusion h
    | some names =>
      obtain ⟨firstName, lastName⟩ := names
      simp only [hu] at h
      cases hsave : saveMessage E.sql s.db chatMsg with
      | mk ok db1 =>
        cases ok with
        | false =>
          simp only [hsave] at h
          rcases h with h | h | h
          · injection h with h
            subst h
            exact Or.inl rfl
          · exact Handled.noConfusion h
          · exact Handled.noConfusion h
        | true =>
          have hdb : s1.db = db1 := by
            simp only [hsave] at h
            cases hroom : s.world.server.rooms chatMsg.RoomID with
            | none =>
              simp only [hroom] at h
              rcases h with h | h | h
              · injection h with h
                subst h
                rfl
              · exact Handled.noConfusion h
              · exact Handled.noConfusion h
            | some room =>
              simp only [hroom] at h
              cases hb : room.broadcastToClients
                ((E.json.marshalSock (chatBroadcast chatMsg firstName lastName)).getD "")
                s.world.heap with
              | ok hp =>
                simp only [hb] at h
                rcases h with h | h | h
                · injection h with h
                  subst h
                  rfl
                · exact Handled.noConfusion h
                · exact Handled.noConfusion h
              | error hp =>
                simp only [hb] at h
                rcases h with h | h | h
                · exact Handled.noConfusion h
                · exact Handled.noConfusion h
                · injection h with h
                  subst h
                  rfl
          rw [hdb]
          exact Or.inr (saveMessage_sender E.sql s.db db1 chatMsg hsave)
  · intro firstName lastName db1 room hu hsave hroom hopen
    rw [hroute U]
    have h := onChatMessage_delivers E payload chatMsg firstName lastName db1 room s hdec hu
      hsave hroom hopen
    simpa only [chatBroadcast, chatPayload] using h

set_option maxRecDepth 100000 in
theorem chat_sender_is_payload_sender_witness :
    (∀ U2 : Int, route envToyPayload U2 "F_chat" 1 sysUsers =
      route envToyPayload 2 "F_chat" 1 sysUsers) ∧
    (sysChatSaved.db = sysUsers.db ∨
      sysChatSaved.db = { sysUsers.db with Message := sysUsers.db.Message ++
        [{ MessageID := envToyPayload.sql.uuid, SenderUserID := msgHi.SenderUserID,
           ReceiverUserID := msgHi.ReceiverUserID, RoomID := msgHi.RoomID,
           Content := msgHi.Content }] } ∨
      sysChatSaved.db = { sysUsers.db with GroupChatMessage := sysUsers.db.GroupChatMessage ++
        [{ MessageID := envToyPayload.sql.uuid, GroupID := msgHi.GroupID,
           SenderUserID := msgHi.SenderUserID, Content := msgHi.Content,
           RoomID := msgHi.RoomID }] }) ∧
    route envToyPayload 2 "F_chat" 1 sysUsers =
      Handled.next
        { world :=
            { heap := (fun p =>
                if p ∈ ([1] : List Nat) then
                  (deliver (sysUsers.world.heap p)
                    ((envToyPayload.json.marshalSock
                      { type := "chatMessage",
                        Payload :=
                          "\x7b\n\t\t\t\t\t\"senderUserId\": " ++
                          toString msgHi.SenderUserID ++
                          ",\n\t\t\t\t\t\"senderFirstName\": \"" ++ "Ann" ++
                          "\",\n\t\t\t\t\t\"senderLastName\": \"" ++ "Lee" ++
                          "\",\n\t\t\t\t\t\"content\": \"" ++ msgHi.Content ++
                          "\",\n\t\t\t\t\t\"roomId\": \"" ++ msgHi.RoomID ++
                          "\",\n\t\t\t\t\t\"timestamp\": \"" ++ msgHi.Timestamp ++
                          "\",\n\t\t\t\t\t\"groupId\": " ++ toString msgHi.GroupID ++
                          "\n\t\t\t\t\x7d" }).getD ""))
                else sysUsers.world.heap p),
              server := sysUsers.world.server },
          db := (saveMessage envToyPayload.sql sysUsers.db msgHi).2,
          calls := sysUsers.calls ++ [DbCall.GetUserDetails msgHi.SenderUserID,
            DbCall.saveMessage msgHi] } ∧
    sysChatSaved.db.Message =
      [{ MessageID := "u1", SenderUserID := 1, ReceiverUserID := 2, RoomID := "r1",
         Content := "hi" }] ∧
    (sysChatSaved.world.heap 1).send.buf =
      ["\x7b\n\t\t\t\t\t\"senderUserId\": 1,\n\t\t\t\t\t\"senderFirstName\": \"Ann\"," ++
       "\n\t\t\t\t\t\"senderLastName\": \"Lee\",\n\t\t\t\t\t\"content\": \"hi\"," ++
       "\n\t\t\t\t\t\"roomId\": \"r1\",\n\t\t\t\t\t\"timestamp\": \"2024-01-01T00:00:00Z\"," ++
       "\n\t\t\t\t\t\"groupId\": 0\n\t\t\t\t\x7d"] :=
  ⟨(chat_sender_is_payload_sender envToyPayload 2 "F_chat" "hi" msgHi 1 sysUsers rfl rfl).1,
    (chat_sender_is_payload_sender envToyPayload 2 "F_chat" "hi" msgHi 1 sysUsers rfl rfl).2.1
      sysChatSaved (Or.inl rfl),
    (chat_sender_is_payload_sender envToyPayload 2 "F_chat" "hi" msgHi 1 sysUsers rfl rfl).2.2
      "Ann" "Lee" (saveMessage envToyPayload.sql sysUsers.db msgHi).2 ⟨"r1", ⟨[1], by decide⟩⟩
      (by decide) (by decide) (by decide) (by decide),
    by decide, by decide⟩

/-! ## Stream upgrade: the session check -/

/-- A request without a session cookie, or with a token that no stored session
carries, ends `ServeWs` before anything is created: the hub and the store are
as before. -/
theorem ServeWs_refuses_unknown (env : ServeEnv) (cookie : Option String) (w : World) (db : DB)
    (h : cookie = none ∨ ∃ tok, cookie = some tok ∧ ∀ r ∈ db.Sessions, r.SessionID ≠ tok) :
    ServeWs env cookie w db = (ServeOutcome.unauthorized, w, db) ∨
    ServeWs env cookie w db = (ServeOutcome.refused, w, db) := by
  rcases h with h | ⟨tok, h, hno⟩
  · left
    subst h
    rfl
  · right
    subst h
    have hf : db.Sessions.find? (fun r => r.SessionID == tok) = none := by
      rw [List.find?_eq_none]
      intro r hr
      simpa using hno r hr
    have hg : GetUserIDBySessionID env.queryFails db tok = none := by
      unfold GetUserIDBySessionID
      split
      · rfl
      · rw [hf]
        rfl
    simp only [ServeWs, serveWsJoin, hg]

/-- C22, evaluated. The session "tok" of user 1 expired at instant 999, and at
instant 1000 `ValidateSession` reports it expired; an upgrade request with the
cookie "tok" is still served by `ServeWs`, which has no instant among its
inputs: connection 1 is created, joined to room "u1", registered with the hub,
and "snapshot" is in its queue. -/
theorem ServeWs_serves_expired_session :
    ValidateSession false 1000 dbExpiredSession "tok" = some false ∧
    (ServeWs serveEnvOk (some "tok") worldFresh dbExpiredSession).1 = ServeOutcome.serving 1 ∧
    1 ∈ (ServeWs serveEnvOk (some "tok") worldFresh dbExpiredSession).2.1.server.clients.keys ∧
    ((ServeWs serveEnvOk (some "tok") worldFresh dbExpiredSession).2.1.server.rooms "u1").map
      (fun room => room.Clients.keys) = some [1] ∧
    ((ServeWs serveEnvOk (some "tok") worldFresh dbExpiredSession).2.1.heap 1).send.buf =
      ["snapshot"] ∧
    ServeWs serveEnvOk none worldFresh dbExpiredSession =
      (ServeOutcome.unauthorized, worldFresh, dbExpiredSession) ∧
    ServeWs serveEnvOk (some "other") worldFresh dbExpiredSession =
      (ServeOutcome.refused, worldFresh, dbExpiredSession) := by
  refine ⟨by decide, by decide, by decide, by decide, by decide, rfl, rfl⟩

/-! ## Stream upgrade: the first queued message -/

/-- C23, evaluated. `ServeWs` adds the new connection 1 to room "u1" before it
sends the initial data: when connection 2 has a chat message broadcast to that
room in between, the queue of connection 1 holds "chat" before "snapshot";
without a step in between it holds "snapshot" alone. -/
theorem ServeWs_broadcast_before_snapshot :
    serveWsJoin serveEnvOk (some "tok") worldPeer dbRoomSession =
      Joined.joined 1 [(2, "u1")] worldJoined dbRoomSession ∧
    (worldJoined.server.rooms "u1").map (fun room => room.Clients.keys) = some [2, 1] ∧
    (worldJoined.heap 1).send.buf = [] ∧
    (worldChatFirst.heap 1).send.buf = ["chat"] ∧
    (serveWsSend serveEnvOk 1 [(2, "u1")] worldChatFirst).1 = ServeOutcome.serving 1 ∧
    ((serveWsSend serveEnvOk 1 [(2, "u1")] worldChatFirst).2.heap 1).send.buf =
      ["chat", "snapshot"] ∧
    ((ServeWs serveEnvOk (some "tok") worldPeer dbRoomSession).2.1.heap 1).send.buf =
      ["snapshot"] := by
  refine ⟨rfl, by decide, by decide, by decide, by decide, by decide, by decide⟩

end Chat
